import Mathlib

/-!
# Kademlia iterative lookup (`kdmlib/kademlia.go`)

A shallow embedding of the lookup engine of `kdmlib`: the candidate list
maintenance (`sortContacts`, `refreshClosest`), the dispatch of the next
contact (`getNextContact`, `askNextContact`), the handling of an answer
(`handleContactAnswer`), one iteration of `LookupWorker`, `answerListener`, and
`LookupContact` and `LookupData` as functions of the order in which the calling
goroutine does its steps and the workers complete their orders.

Conventions of the embedding.

* A Go slice is a `List`; an operation that panics in Go (index or slice bound
  out of range) returns `none`.
* `ComputeDistance`, `AlreadyAsked`, `HashKademliaID` and the routing table's
  `FindKClosest` are declared outside `kademlia.go`; the functions below take
  them as parameters.  The distance lives in an arbitrary linear order `D` (the
  code only compares distances with `<=`).
* A channel is the FIFO list of the values sent on it and not yet received; a
  send appends to that list.  The order queue loses an order when a worker
  completes it.  The result channel loses its first value when `answerListener`
  receives it, and a value sent while `answerListener` is blocked in its
  receive goes to it at once, so that `len(resultChannel)` is the length of the
  list.  `make` panics for a negative buffer size.  A send that Go holds back
  while the channel is full (for `k = 0`, until `answerListener` receives) goes
  through at once here: the values reach `answerListener` in the same order.
* An iteration of a worker is one step: workers do not interleave inside an
  iteration.  The goroutine that runs `LookupContact` does one statement per
  step, and its steps interleave with the iterations of the workers in any
  order (`runLookup`): the workers are started before its dispatch loop.
  `LookupContactInit` and `runWorkers` describe the executions where that loop
  has ended before a worker completes an order and `answerListener` receives
  after the workers' steps considered (`LookupContact_eq_run`).
* An `int` field is an `Int` between `minInt` and `maxInt`, and `++` on it is
  `wrapInt (n + 1)`.
-/

namespace Kdmlib

/-! ## Data model -/

/-- Modelled from the spec: the declaration of `AddressTriple` is not part of
`kademlia.go`; a contact is an identifier together with a network location. -/
structure AddressTriple where
  Ip : String
  Port : String
  Id : String
deriving DecidableEq, Repr

/-- The zero value `AddressTriple{}`. -/
def AddressTriple.zero : AddressTriple := ⟨"", "", ""⟩

/-- Modelled from the spec: the declaration of `TripleAndDistance` (element type
of the routing table's answer) is not part of `kademlia.go`; only its field
`Triple` is read. -/
structure TripleAndDistance (D : Type) where
  Triple : AddressTriple
  Distance : D

/-- The fields of `Kademlia` that the lookup reads and writes (`rt` and
`network` are external and appear as arguments where they are called). -/
structure Kademlia where
  closest : List AddressTriple
  askedClosest : List AddressTriple
  gotResultBack : List AddressTriple
  nodeId : String
  alpha : Int
  k : Int
  noCloserNodeCalls : Int
  exitThreshold : Int
deriving DecidableEq, Repr

def DATA_LOOKUP : Int := 0

def CONTACT_LOOKUP : Int := 1

structure LookupOrder where
  LookupType : Int
  Contact : AddressTriple
  Target : String
deriving DecidableEq, Repr

/-- A value written to `resultChannel`: a slice of contacts or a byte slice. -/
inductive Answer where
  | contacts (l : List AddressTriple)
  | data (d : List UInt8)
deriving DecidableEq, Repr

/-! ## Slice primitives -/

/-- Go `copy(s[dstOff:], s[srcOff:])` inside one slice `s`: the number of
elements copied is the shorter of the two lengths, and the source is read as it
was before the call. -/
def copyWithin {α : Type} (s : List α) (dstOff srcOff : Nat) : Option (List α) :=
  if dstOff ≤ s.length ∧ srcOff ≤ s.length then
    let n := min (s.length - dstOff) (s.length - srcOff)
    some (s.take dstOff ++ ((s.drop srcOff).take n ++ s.drop (dstOff + n)))
  else none

/-- Go `s[j] = x`. -/
def setIndex {α : Type} (s : List α) (j : Nat) (x : α) : Option (List α) :=
  if j < s.length then some (s.set j x) else none

/-- Go `s[:k]` for a slice whose capacity is not below its length. -/
def sliceTo {α : Type} (s : List α) (k : Int) : Option (List α) :=
  if 0 ≤ k ∧ k ≤ (s.length : Int) then some (s.take k.toNat) else none

/-! ## Machine integers -/

/-- The value of a Go `int` (64 bits, two's complement) after an arithmetic
operation whose mathematical result is `x`: `x++` on the largest `int` gives
the smallest one. -/
def wrapInt (x : Int) : Int :=
  (x + 9223372036854775808) % 18446744073709551616 - 9223372036854775808

/-- The smallest Go `int`. -/
def minInt : Int := -9223372036854775808

/-- The largest Go `int`. -/
def maxInt : Int := 9223372036854775807

/-! ## sortContacts -/

section Sorting

variable {D : Type} [LinearOrder D]

/-- The loop `for j := range sortedList` of `sortContacts`, for the element `x`
being placed.  The range is fixed when the loop starts: `n` iterations remain,
the current index is `j`, and `sortedList` is the current value of the
variable (it grows by one when `x` is inserted). -/
def insertLoop (ComputeDistance : String → String → D) (x : AddressTriple) (target : String) :
    Nat → Nat → List AddressTriple → Bool → Option (List AddressTriple × Bool)
  | 0, _, sortedList, inserted => some (sortedList, inserted)
  | n + 1, j, sortedList, inserted => do
    let distA := ComputeDistance x.Id target
    let b ← sortedList[j]?
    let distB := ComputeDistance b.Id target
    if distA ≤ distB ∧ inserted = false then
      let s1 := sortedList ++ [AddressTriple.zero]
      let s2 ← copyWithin s1 (j + 1) j
      let s3 ← setIndex s2 j x
      insertLoop ComputeDistance x target n (j + 1) s3 true
    else
      insertLoop ComputeDistance x target n (j + 1) sortedList inserted

/-- One iteration of `for i := range kademlia.closest` in `sortContacts`, with
`x = kademlia.closest[i]`. -/
def sortStep (ComputeDistance : String → String → D) (target : String)
    (sortedList : List AddressTriple) (x : AddressTriple) : Option (List AddressTriple) :=
  if sortedList.length = 0 then
    some (sortedList ++ [x])
  else do
    let r ← insertLoop ComputeDistance x target sortedList.length 0 sortedList false
    if r.2 = false then some (r.1 ++ [x]) else some r.1

/-- The method `sortContacts`. -/
def sortContacts (ComputeDistance : String → String → D) (kademlia : Kademlia)
    (target : String) : Option Kademlia := do
  let sortedList ← kademlia.closest.foldlM (sortStep ComputeDistance target) []
  let sortedList ←
    if (sortedList.length : Int) > kademlia.k then sliceTo sortedList kademlia.k
    else some sortedList
  some { kademlia with closest := sortedList }

/-! ## refreshClosest -/

/-- The loop `for j := range kademlia.closest` of `refreshClosest`, for the new
contact `c`: the final value of `elementExists`. -/
def elementExists (closest : List AddressTriple) (c : AddressTriple) : Bool :=
  closest.foldl (fun ex e => if e.Id = c.Id then true else ex) false

/-- One iteration of `for i := range newContacts` in `refreshClosest`, on the
pair (`kademlia.closest`, `elementsAlreadyPresent`). -/
def refreshStep (acc : List AddressTriple × Bool) (c : AddressTriple) :
    List AddressTriple × Bool :=
  if elementExists acc.1 c = false then (acc.1 ++ [c], false) else acc

/-- The method `refreshClosest`.  The second read of `kademlia.closest[0]` is
behind the short-circuit `&&`, so it happens only when a contact was added. -/
def refreshClosest (ComputeDistance : String → String → D) (kademlia : Kademlia)
    (newContacts : List AddressTriple) (target : String) : Option Kademlia := do
  let closestSoFar ← kademlia.closest[0]?
  let r := newContacts.foldl refreshStep (kademlia.closest, true)
  let kademlia := { kademlia with closest := r.1 }
  let elementsAlreadyPresent := r.2
  let kademlia ←
    if elementsAlreadyPresent = false then sortContacts ComputeDistance kademlia target
    else some kademlia
  if elementsAlreadyPresent = false then do
    let first ← kademlia.closest[0]?
    if first.Id ≠ closestSoFar.Id then
      some { kademlia with noCloserNodeCalls := 0 }
    else
      some { kademlia with noCloserNodeCalls := wrapInt (kademlia.noCloserNodeCalls + 1) }
  else
    some { kademlia with noCloserNodeCalls := wrapInt (kademlia.noCloserNodeCalls + 1) }

end Sorting

/-! ## Dispatch of the next contact -/

/-- The instance together with the two channels made by `LookupContact`; each
channel holds the values sent and not yet received. -/
structure LookupState where
  kademlia : Kademlia
  lookupChannel : List LookupOrder
  resultChannel : List Answer
deriving DecidableEq, Repr

/-- The loop of `getNextContact` over the remaining elements of
`kademlia.closest`; the second component is the returned pointer (`none` for
`nil`). -/
def getNextContactLoop (AlreadyAsked : List AddressTriple → AddressTriple → Bool)
    (kademlia : Kademlia) : List AddressTriple → Kademlia × Option AddressTriple
  | [] => (kademlia, none)
  | e :: rest =>
    if AlreadyAsked kademlia.askedClosest e = false then
      ({ kademlia with askedClosest := kademlia.askedClosest ++ [e] }, some e)
    else getNextContactLoop AlreadyAsked kademlia rest

/-- The method `getNextContact`. -/
def getNextContact (AlreadyAsked : List AddressTriple → AddressTriple → Bool)
    (kademlia : Kademlia) : Kademlia × Option AddressTriple :=
  getNextContactLoop AlreadyAsked kademlia kademlia.closest

/-- The method `askNextContact`. -/
def askNextContact (AlreadyAsked : List AddressTriple → AddressTriple → Bool)
    (s : LookupState) (target : String) (lookupType : Int) : LookupState :=
  match getNextContact AlreadyAsked s.kademlia with
  | (kd, some nextContact) =>
    { s with kademlia := kd,
             lookupChannel := s.lookupChannel ++ [⟨lookupType, nextContact, target⟩] }
  | (kd, none) => { s with kademlia := kd }

/-! ## Answers and workers -/

section Engine

variable {D : Type} [LinearOrder D]

/-- The method `handleContactAnswer`. -/
def handleContactAnswer (ComputeDistance : String → String → D)
    (AlreadyAsked : List AddressTriple → AddressTriple → Bool)
    (s : LookupState) (order : LookupOrder) (answerList : List AddressTriple) :
    Option LookupState :=
  if answerList.length ≠ 0 then do
    let kd ← refreshClosest ComputeDistance s.kademlia answerList order.Target
    let s := { s with kademlia := kd }
    if s.kademlia.noCloserNodeCalls > s.kademlia.exitThreshold then
      some { s with resultChannel := s.resultChannel ++ [Answer.contacts s.kademlia.closest] }
    else
      some (askNextContact AlreadyAsked s order.Target order.LookupType)
  else
    let s := { s with kademlia :=
      { s.kademlia with noCloserNodeCalls := wrapInt (s.kademlia.noCloserNodeCalls + 1) } }
    some (askNextContact AlreadyAsked s order.Target order.LookupType)

/-- The method `askedAllContacts`. -/
def askedAllContacts (kademlia : Kademlia) : Bool :=
  kademlia.closest.foldl
    (fun allAsked c =>
      if kademlia.askedClosest.foldl (fun ex a => if c.Id = a.Id then true else ex) false = false
      then false else allAsked)
    true

/-- What the network call of a worker returned: `SendFindNode` gives
(`contacts`, `err`), `SendFindData` gives (`data`, `contacts`, `err`); `data` is
`none` for a nil byte slice and `err = true` stands for a non-nil error. -/
structure Reply where
  data : Option (List UInt8)
  contacts : List AddressTriple
  err : Bool
deriving DecidableEq, Repr

/-- The `switch order.LookupType` statement of `LookupWorker`, for the received
`order` and the outcome `reply` of its network call. -/
def LookupWorkerSwitch (ComputeDistance : String → String → D)
    (AlreadyAsked : List AddressTriple → AddressTriple → Bool)
    (s : LookupState) (order : LookupOrder) (reply : Reply) : Option LookupState :=
  if order.LookupType = CONTACT_LOOKUP then
    if reply.err = false then
      handleContactAnswer ComputeDistance AlreadyAsked s order reply.contacts
    else
      some (askNextContact AlreadyAsked s order.Target order.LookupType)
  else if order.LookupType = DATA_LOOKUP then
    if reply.err = false then
      match reply.data with
      | some data => some { s with resultChannel := s.resultChannel ++ [Answer.data data] }
      | none => handleContactAnswer ComputeDistance AlreadyAsked s order reply.contacts
    else
      some (askNextContact AlreadyAsked s order.Target order.LookupType)
  else some s

/-- The end of an iteration of `LookupWorker`: the contact of the order is
appended to `gotResultBack`, then comes the check that everything was asked and
has come back, with `len(resultChannel)` the number of values in the channel at
that moment. -/
def LookupWorkerFinish (s : LookupState) (order : LookupOrder) : LookupState :=
  let s := { s with kademlia :=
    { s.kademlia with gotResultBack := s.kademlia.gotResultBack ++ [order.Contact] } }
  if askedAllContacts s.kademlia = true ∧ s.resultChannel.length = 0 ∧
      s.kademlia.gotResultBack.length = s.kademlia.askedClosest.length then
    { s with resultChannel := s.resultChannel ++ [Answer.contacts s.kademlia.closest] }
  else s

/-- One iteration of the loop `for order := range lookupChannel` of
`LookupWorker`. -/
def LookupWorkerStep (ComputeDistance : String → String → D)
    (AlreadyAsked : List AddressTriple → AddressTriple → Bool)
    (s : LookupState) (order : LookupOrder) (reply : Reply) : Option LookupState := do
  let s ← LookupWorkerSwitch ComputeDistance AlreadyAsked s order reply
  some (LookupWorkerFinish s order)

/-- The second `for i := 0; i < kademlia.alpha && i < len(kademlia.closest); i++`
loop of `LookupContact`; the list argument is what is left of
`kademlia.closest` from index `i` on. -/
def dispatchLoop (lookupType : Int) (target : String) :
    List AddressTriple → Nat → LookupState → LookupState
  | [], _, s => s
  | c :: rest, i, s =>
    if (i : Int) < s.kademlia.alpha then
      dispatchLoop lookupType target rest (i + 1)
        { s with lookupChannel := s.lookupChannel ++ [⟨lookupType, c, target⟩],
                 kademlia := { s.kademlia with askedClosest := s.kademlia.askedClosest ++ [c] } }
    else s

/-- `LookupContact` up to the call of `answerListener`, in the executions where
no worker completes an order before the dispatch loop has ended
(`runLookup_setup`).  `found` is the value of
`kademlia.rt.FindKClosest(target)`. -/
def LookupContactInit (kademlia : Kademlia) (found : List (TripleAndDistance D))
    (target : String) (lookupType : Int) : LookupState :=
  let kademlia := { kademlia with closest := [], askedClosest := [], gotResultBack := [] }
  let kademlia :=
    found.foldl (fun kd e => { kd with closest := kd.closest ++ [e.Triple] }) kademlia
  dispatchLoop lookupType target kademlia.closest 0
    { kademlia := kademlia, lookupChannel := [], resultChannel := [] }

/-- A worker completes the order at position `i` of the order queue with the
network outcome `reply` (orders are received in queue order, their network
calls complete in any order). -/
def workerStep (ComputeDistance : String → String → D)
    (AlreadyAsked : List AddressTriple → AddressTriple → Bool)
    (s : LookupState) (i : Nat) (reply : Reply) : Option LookupState := do
  let order ← s.lookupChannel[i]?
  LookupWorkerStep ComputeDistance AlreadyAsked
    { s with lookupChannel := s.lookupChannel.eraseIdx i } order reply

/-- A sequence of worker steps with no step of the calling goroutine in
between. -/
def runWorkers (ComputeDistance : String → String → D)
    (AlreadyAsked : List AddressTriple → AddressTriple → Bool) :
    List (Nat × Reply) → LookupState → Option LookupState
  | [], s => some s
  | (i, reply) :: rest, s => do
    let s ← workerStep ComputeDistance AlreadyAsked s i reply
    runWorkers ComputeDistance AlreadyAsked rest s

end Engine

/-! ## Vocabulary of the statements -/

section Vocabulary

variable {D : Type} [LinearOrder D]

/-- Contact `a` is at most as far from `target` as contact `b`. -/
def distLE (ComputeDistance : String → String → D) (target : String)
    (a b : AddressTriple) : Prop :=
  ComputeDistance a.Id target ≤ ComputeDistance b.Id target

instance distLE_decidable (ComputeDistance : String → String → D) (target : String) :
    DecidableRel (distLE ComputeDistance target) :=
  fun a b => inferInstanceAs (Decidable (ComputeDistance a.Id target ≤ ComputeDistance b.Id target))

instance distLE_total (ComputeDistance : String → String → D) (target : String) :
    IsTotal AddressTriple (distLE ComputeDistance target) :=
  ⟨fun a b => le_total (ComputeDistance a.Id target) (ComputeDistance b.Id target)⟩

instance distLE_trans (ComputeDistance : String → String → D) (target : String) :
    IsTrans AddressTriple (distLE ComputeDistance target) :=
  ⟨fun _ _ _ hab hbc => le_trans hab hbc⟩

/-- The list is ascending by distance to `target`, pair by adjacent pair. -/
def SortedByDistance (ComputeDistance : String → String → D) (target : String)
    (l : List AddressTriple) : Prop :=
  ∀ i (h : i + 1 < l.length),
    ComputeDistance (l.get ⟨i, Nat.lt_of_succ_lt h⟩).Id target ≤
      ComputeDistance (l.get ⟨i + 1, h⟩).Id target

/-- The identifier of the first element, `closest[0].Id`, when there is one. -/
def firstId (l : List AddressTriple) : Option String :=
  l.head?.map AddressTriple.Id

/-- The identifiers of the list are pairwise distinct. -/
def DistinctIds (l : List AddressTriple) : Prop :=
  (l.map AddressTriple.Id).Nodup

instance DistinctIds_decidable (l : List AddressTriple) : Decidable (DistinctIds l) :=
  inferInstanceAs (Decidable (l.map AddressTriple.Id).Nodup)

/-- The candidate list after the merge loop, sorted, cut to `k`. -/
def mergedSorted (ComputeDistance : String → String → D) (kademlia : Kademlia)
    (newContacts : List AddressTriple) (target : String) : List AddressTriple :=
  List.take kademlia.k.toNat
    (List.insertionSort (distLE ComputeDistance target)
      (newContacts.foldl refreshStep (kademlia.closest, true)).1.reverse)

end Vocabulary

/-! ## Sample values -/

/-- An identifier read as a binary numeral. -/
def idValue (id : String) : Nat :=
  id.data.foldl (fun n c => 2 * n + (if c = '1' then 1 else 0)) 0

/-- XOR distance between two identifiers written in binary. -/
def xorDistance (a b : String) : Nat :=
  idValue a ^^^ idValue b

def contact1 : AddressTriple := ⟨"10.0.0.1", "8001", "0001"⟩

def contact2 : AddressTriple := ⟨"10.0.0.2", "8002", "0010"⟩

def contact4 : AddressTriple := ⟨"10.0.0.4", "8004", "0100"⟩

def contact7 : AddressTriple := ⟨"10.0.0.7", "8007", "0111"⟩

/-- The node `0001` known under a second address. -/
def contact1Moved : AddressTriple := ⟨"10.0.0.9", "8009", "0001"⟩

/-- A routing table that knows `0001` and `0010`. -/
def sampleTable (_target : String) : List (TripleAndDistance Nat) :=
  [⟨contact1, 1⟩, ⟨contact2, 2⟩]

/-- A routing table that answers `0111` before `0001`. -/
def unsortedTable (_target : String) : List (TripleAndDistance Nat) :=
  [⟨contact7, 7⟩, ⟨contact1, 1⟩]

/-- A stand-in for `HashKademliaID`: every file name hashes to `0000`. -/
def sampleHash (_fileName : String) : String := "0000"


/-- An instance with `alpha = 3`, `exitThreshold = 3` and empty lookup lists. -/
def sampleInstance (closest : List AddressTriple) (k : Int) (noCloserNodeCalls : Int) :
    Kademlia :=
  { closest := closest, askedClosest := [], gotResultBack := [], nodeId := "1000",
    alpha := 3, k := k, noCloserNodeCalls := noCloserNodeCalls, exitThreshold := 3 }

/-- The instance of the exhaustion scenario: `alpha = 3`, `k = 20`,
`exitThreshold = 5`. -/
def patientInstance : Kademlia :=
  { sampleInstance [] 20 0 with exitThreshold := 5 }

/-- A lookup in progress on `sampleInstance`, with empty channels. -/
def sampleState (closest asked : List AddressTriple) (k : Int) (noCloserNodeCalls : Int) :
    LookupState :=
  { kademlia := { sampleInstance closest k noCloserNodeCalls with askedClosest := asked },
    lookupChannel := [], resultChannel := [] }

/-- `AlreadyAsked` read as membership of the contact in the list. -/
def askedByMembership (asked : List AddressTriple) (e : AddressTriple) : Bool :=
  decide (e ∈ asked)

/-! ## The listener and the lookup as a whole -/

/-- The method `answerListener`: it receives one value from `resultChannel` and
returns it as (contacts, nil) or (nil, data); `none` stands for nil in the
pair.  On an empty channel the receive blocks: the function has not returned,
which is the outer `none`. -/
def answerListener :
    List Answer → Option (Option (List AddressTriple) × Option (List UInt8))
  | [] => none
  | Answer.contacts answer :: _ => some (some answer, none)
  | Answer.data answer :: _ => some (none, some answer)

section Lookup

variable {D : Type} [LinearOrder D]

/-- The method `LookupContact`, in the executions where the goroutine that
called it runs its set-up to the end before a worker completes an order, the
workers then complete the orders of `schedule`, and `answerListener` receives
after that (see `LookupContactRun` for every order of events; the two agree, by
`LookupContact_eq_run`).  `FindKClosest` is the routing table.  `make` panics
for a negative buffer size, which is the first `none`. -/
def LookupContact (ComputeDistance : String → String → D)
    (AlreadyAsked : List AddressTriple → AddressTriple → Bool)
    (FindKClosest : String → List (TripleAndDistance D))
    (kademlia : Kademlia) (target : String) (lookupType : Int)
    (schedule : List (Nat × Reply)) :
    Option (Option (List AddressTriple) × Option (List UInt8)) :=
  if kademlia.alpha < 0 ∨ kademlia.k < 0 then none
  else
    match runWorkers ComputeDistance AlreadyAsked schedule
        (LookupContactInit kademlia (FindKClosest target) target lookupType) with
    | some s => answerListener s.resultChannel
    | none => none

end Lookup

/-! ## The lookup with its goroutines

`LookupContact` starts the workers before it sends the first order, so a worker
can complete an order while the calling goroutine is still in its set-up loop.
An `Execution` is the state of the lookup together with the place the calling
goroutine has reached; an `Event` is one step of the calling goroutine or one
iteration of a worker. -/

/-- Where the goroutine running `LookupContact` is. -/
inductive MainPc where
  /-- At the test of the loop of lines 167-172, with loop counter `i`. -/
  | sending (i : Nat)
  /-- Line 169 is done for the counter `i`, line 171 comes next. -/
  | marking (i : Nat)
  /-- The loop is left; the receive of `answerListener` comes next. -/
  | receiving
  /-- Blocked in the receive of `answerListener`, the channel being empty. -/
  | listening
  /-- `answerListener` has received `answer` and returned. -/
  | returned (answer : Answer)
deriving DecidableEq, Repr

/-- A lookup in progress: the instance and the channels (`resultChannel` holds
the values sent and not yet received), the place of the calling goroutine, and
the arguments of the call. -/
structure Execution where
  state : LookupState
  main : MainPc
  lookupType : Int
  target : String
deriving DecidableEq, Repr

/-- One step of a lookup. -/
inductive Event where
  /-- The calling goroutine does its next action. -/
  | main
  /-- A worker completes the order at position `i` of the order queue, its
  network call having returned `reply`. -/
  | work (i : Nat) (reply : Reply)
deriving DecidableEq, Repr

section Goroutines

variable {D : Type} [LinearOrder D]

/-- Lines 146-164 of `LookupContact`: the channels are made (`make` panics for a
negative size), the three lists are emptied, `closest` is seeded, and the
workers are started.  The calling goroutine stands before its dispatch loop. -/
def LookupStart (kademlia : Kademlia) (found : List (TripleAndDistance D))
    (target : String) (lookupType : Int) : Option Execution :=
  if kademlia.alpha < 0 ∨ kademlia.k < 0 then none
  else
    let kademlia := { kademlia with closest := [], askedClosest := [], gotResultBack := [] }
    let kademlia :=
      found.foldl (fun kd e => { kd with closest := kd.closest ++ [e.Triple] }) kademlia
    some { state := { kademlia := kademlia, lookupChannel := [], resultChannel := [] },
           main := MainPc.sending 0, lookupType := lookupType, target := target }

/-- The next action of the calling goroutine: the loop test with the send of
line 169; the append of line 171, which reads `closest[i]` again; the receive
of `answerListener`.  A goroutine that is blocked or has returned does
nothing. -/
def mainStep (e : Execution) : Option Execution :=
  match e.main with
  | MainPc.sending i =>
    if (i : Int) < e.state.kademlia.alpha ∧ i < e.state.kademlia.closest.length then do
      let c ← e.state.kademlia.closest[i]?
      some { e with
        state := { e.state with
          lookupChannel := e.state.lookupChannel ++ [⟨e.lookupType, c, e.target⟩] },
        main := MainPc.marking i }
    else some { e with main := MainPc.receiving }
  | MainPc.marking i => do
    let c ← e.state.kademlia.closest[i]?
    some { e with
      state := { e.state with
        kademlia := { e.state.kademlia with
          askedClosest := e.state.kademlia.askedClosest ++ [c] } },
      main := MainPc.sending (i + 1) }
  | MainPc.receiving =>
    match e.state.resultChannel with
    | answer :: rest =>
      some { e with state := { e.state with resultChannel := rest },
                    main := MainPc.returned answer }
    | [] => some { e with main := MainPc.listening }
  | MainPc.listening => none
  | MainPc.returned _ => none

/-- A value sent while `answerListener` is blocked in its receive goes to it
at once and is not buffered. -/
def handOver (e : Execution) : Execution :=
  match e.main, e.state.resultChannel with
  | MainPc.listening, answer :: rest =>
    { e with state := { e.state with resultChannel := rest },
             main := MainPc.returned answer }
  | _, _ => e

/-- One iteration of a worker inside a lookup: the switch, then the end of
the iteration, whose test `len(resultChannel) == 0` sees the values still in
the channel. -/
def execWorker (ComputeDistance : String → String → D)
    (AlreadyAsked : List AddressTriple → AddressTriple → Bool)
    (e : Execution) (i : Nat) (reply : Reply) : Option Execution := do
  let order ← e.state.lookupChannel[i]?
  let s1 ← LookupWorkerSwitch ComputeDistance AlreadyAsked
    { e.state with lookupChannel := e.state.lookupChannel.eraseIdx i } order reply
  let e1 := handOver { e with state := s1 }
  let s2 := LookupWorkerFinish e1.state order
  some (handOver { e1 with state := s2 })

/-- One event of a lookup. -/
def execStep (ComputeDistance : String → String → D)
    (AlreadyAsked : List AddressTriple → AddressTriple → Bool)
    (e : Execution) : Event → Option Execution
  | Event.main => mainStep e
  | Event.work i reply => execWorker ComputeDistance AlreadyAsked e i reply

/-- A sequence of events of a lookup. -/
def runLookup (ComputeDistance : String → String → D)
    (AlreadyAsked : List AddressTriple → AddressTriple → Bool) :
    List Event → Execution → Option Execution
  | [], e => some e
  | ev :: rest, e => do
    let e ← execStep ComputeDistance AlreadyAsked e ev
    runLookup ComputeDistance AlreadyAsked rest e

/-- The first value written to the result channel, if any: the one
`answerListener` has returned or will return. -/
def firstResult (e : Execution) : Option Answer :=
  match e.main with
  | MainPc.returned answer => some answer
  | _ => e.state.resultChannel.head?

/-- The method `LookupContact` in the execution made of `events`: what it has
returned at the end of them, if it has. -/
def LookupContactRun (ComputeDistance : String → String → D)
    (AlreadyAsked : List AddressTriple → AddressTriple → Bool)
    (FindKClosest : String → List (TripleAndDistance D))
    (kademlia : Kademlia) (target : String) (lookupType : Int)
    (events : List Event) :
    Option (Option (List AddressTriple) × Option (List UInt8)) := do
  let e0 ← LookupStart kademlia (FindKClosest target) target lookupType
  let e ← runLookup ComputeDistance AlreadyAsked events e0
  match e.main with
  | MainPc.returned answer => answerListener [answer]
  | _ => none

/-- The method `LookupData` in the execution made of `events`;
`HashKademliaID` is declared outside `kademlia.go`. -/
def LookupData (ComputeDistance : String → String → D)
    (AlreadyAsked : List AddressTriple → AddressTriple → Bool)
    (FindKClosest : String → List (TripleAndDistance D))
    (HashKademliaID : String → String)
    (kademlia : Kademlia) (fileName : String) (test : Bool)
    (events : List Event) : Option Bool :=
  let fileNameHash := if test = true then fileName else HashKademliaID fileName
  match LookupContactRun ComputeDistance AlreadyAsked FindKClosest kademlia fileNameHash
      DATA_LOOKUP events with
  | some r => some r.2.isSome
  | none => none

/-- The events of the executions that `LookupContact` describes: the calling
goroutine sends and marks the first `min(alpha, |seed|)` contacts and leaves
its loop, the workers complete the orders of `schedule`, and `answerListener`
receives. -/
def setupFirst (kademlia : Kademlia) (found : List (TripleAndDistance D))
    (schedule : List (Nat × Reply)) : List Event :=
  List.replicate (2 * min kademlia.alpha.toNat found.length + 1) Event.main ++
    schedule.map (fun ev => Event.work ev.1 ev.2) ++ [Event.main]

end Goroutines

/-! ## Sample executions -/

/-- The routing table of the samples that knows one contact. -/
def singleTable (_target : String) : List (TripleAndDistance Nat) :=
  [⟨contact1, 1⟩]

/-- A lookup for data over `singleTable` as `LookupStart` leaves it. -/
def startedLookup : Execution :=
  { state :=
      { kademlia := sampleInstance [contact1] 20 0, lookupChannel := [], resultChannel := [] },
    main := MainPc.sending 0, lookupType := DATA_LOOKUP, target := "0000" }

/-- The same lookup with its one order sent and marked and the calling
goroutine blocked in `answerListener`. -/
def parkedLookup : Execution :=
  { state :=
      { kademlia := { sampleInstance [contact1] 20 0 with askedClosest := [contact1] },
        lookupChannel := [⟨DATA_LOOKUP, contact1, "0000"⟩], resultChannel := [] },
    main := MainPc.listening, lookupType := DATA_LOOKUP, target := "0000" }

/-- A network outcome that brings nothing: an error (such as a timeout), or no
data and an empty list of contacts. -/
def Barren (reply : Reply) : Prop :=
  reply.err = true ∨ (reply.data = none ∧ reply.contacts = [])

/-- The state of a lookup over `seed` in which `m` orders have completed, all of
them barren: `closest` is still the seed, the contacts asked are the first
`alpha + m` of the seed, each of them has either completed or is in the order
queue, and the result channel holds the seed exactly when all `|seed|` orders
have completed. -/
def ExhaustInv (seed : List AddressTriple) (alpha : Int) (lookupType : Int) (target : String)
    (m : Nat) (s : LookupState) : Prop :=
  s.kademlia.closest = seed ∧
  s.kademlia.askedClosest = seed.take (alpha.toNat + m) ∧
  List.Perm (s.lookupChannel.map LookupOrder.Contact ++ s.kademlia.gotResultBack)
    s.kademlia.askedClosest ∧
  s.kademlia.gotResultBack.length = m ∧
  (∀ o ∈ s.lookupChannel, o.LookupType = lookupType ∧ o.Target = target) ∧
  s.resultChannel = (if m = seed.length then [Answer.contacts seed] else []) ∧
  m ≤ seed.length

/-! ## Machine integers -/

section WrapLemmas

/-- Below the largest `int` an increment is the mathematical one. -/
theorem wrapInt_succ (n : Int) (hlo : minInt ≤ n) (hhi : n < maxInt) :
    wrapInt (n + 1) = n + 1 := by
  unfold wrapInt
  unfold minInt at hlo
  unfold maxInt at hhi
  omega

/-- An increment gives 0 only from -1. -/
theorem wrapInt_succ_eq_zero (n : Int) (hlo : minInt ≤ n) (hhi : n ≤ maxInt)
    (h : wrapInt (n + 1) = 0) : n = -1 := by
  unfold wrapInt at h
  unfold minInt at hlo
  unfold maxInt at hhi
  omega

/-- The increment of the largest `int` is the smallest one. -/
theorem wrapInt_succ_maxInt : wrapInt (maxInt + 1) = minInt := by
  decide

end WrapLemmas

/-! ## The insertion loop -/

section SortLemmas

variable {D : Type} [LinearOrder D]

theorem copyWithin_shift (pre rest : List AddressTriple) (b z : AddressTriple) :
    copyWithin (pre ++ b :: rest ++ [z]) (pre.length + 1) pre.length
      = some (pre ++ b :: b :: rest) := by
  unfold copyWithin
  have h1 : (pre ++ b :: rest ++ [z]).length = pre.length + rest.length + 2 := by
    simp; omega
  rw [if_pos (by rw [h1]; omega)]
  simp only [h1]
  have hn : min (pre.length + rest.length + 2 - (pre.length + 1))
      (pre.length + rest.length + 2 - pre.length) = rest.length + 1 := by omega
  rw [hn]
  have e1 : List.take (pre.length + 1) (pre ++ b :: rest ++ [z]) = pre ++ [b] := by
    rw [List.append_assoc, List.take_append_eq_append_take]
    simp
  have e2 : List.drop pre.length (pre ++ b :: rest ++ [z]) = b :: rest ++ [z] := by
    rw [List.append_assoc, List.drop_append_eq_append_drop]
    simp
  have e3 : List.take (rest.length + 1) (b :: rest ++ [z]) = b :: rest := by
    simp
  have e4 : List.drop (pre.length + 1 + (rest.length + 1)) (pre ++ b :: rest ++ [z]) = [] := by
    apply List.drop_eq_nil_of_le
    rw [h1]; omega
  rw [e1, e2, e3, e4]
  simp

theorem setIndex_at (pre rest : List AddressTriple) (b x : AddressTriple) :
    setIndex (pre ++ b :: rest) pre.length x = some (pre ++ x :: rest) := by
  unfold setIndex
  rw [if_pos (by simp)]
  simp

/-- Once the element is inserted the rest of the loop only reads in range. -/
theorem insertLoop_inserted (ComputeDistance : String → String → D) (x : AddressTriple)
    (target : String) :
    ∀ (n j : Nat) (s : List AddressTriple), j + n ≤ s.length →
      insertLoop ComputeDistance x target n j s true = some (s, true) := by
  intro n
  induction n with
  | zero => intro j s _; rfl
  | succ n ih =>
    intro j s h
    have hj : j < s.length := by omega
    simp only [insertLoop, List.getElem?_eq_getElem hj, Option.bind_eq_bind, Option.some_bind]
    simp
    exact ih (j + 1) s (by omega)

/-- The loop started at index `pre.length`, before which nothing is at least as
far as `x`: it inserts `x` in front of the first element at least as far as
`x`, or leaves the list alone and reports `inserted = false`. -/
theorem insertLoop_spec (ComputeDistance : String → String → D) (x : AddressTriple)
    (target : String) :
    ∀ (rest pre : List AddressTriple),
      insertLoop ComputeDistance x target rest.length pre.length (pre ++ rest) false
        = if (∃ b ∈ rest, distLE ComputeDistance target x b) then
            some (pre ++ List.orderedInsert (distLE ComputeDistance target) x rest, true)
          else some (pre ++ rest, false) := by
  intro rest
  induction rest with
  | nil => intro pre; simp [insertLoop]
  | cons b rest ih =>
    intro pre
    have hget : (pre ++ b :: rest)[pre.length]? = some b := by
      rw [List.getElem?_append_right (le_refl _)]; simp
    simp only [List.length_cons, insertLoop, hget, Option.bind_eq_bind, Option.some_bind]
    by_cases hle : ComputeDistance x.Id target ≤ ComputeDistance b.Id target
    · rw [if_pos ⟨hle, trivial⟩]
      rw [copyWithin_shift pre rest b AddressTriple.zero]
      simp only [Option.some_bind]
      rw [setIndex_at pre (b :: rest) b x]
      simp only [Option.some_bind]
      rw [insertLoop_inserted ComputeDistance x target rest.length (pre.length + 1)
        (pre ++ x :: b :: rest) (by simp; omega)]
      have hex : ∃ c ∈ b :: rest, distLE ComputeDistance target x c :=
        ⟨b, List.mem_cons_self _ _, hle⟩
      rw [if_pos hex]
      simp [List.orderedInsert, distLE, hle]
    · rw [if_neg (by intro h; exact hle h.1)]
      have := ih (pre ++ [b])
      simp only [List.length_append, List.length_singleton, List.append_assoc,
        List.singleton_append] at this
      rw [this]
      have hiff : (∃ c ∈ b :: rest, distLE ComputeDistance target x c) ↔
          (∃ c ∈ rest, distLE ComputeDistance target x c) := by
        constructor
        · rintro ⟨c, hc, hcle⟩
          rcases List.mem_cons.mp hc with rfl | hc
          · exact absurd hcle hle
          · exact ⟨c, hc, hcle⟩
        · rintro ⟨c, hc, hcle⟩
          exact ⟨c, List.mem_cons_of_mem _ hc, hcle⟩
      by_cases hex : ∃ c ∈ rest, distLE ComputeDistance target x c
      · rw [if_pos hex, if_pos (hiff.mpr hex)]
        simp [List.orderedInsert, distLE, hle]
      · rw [if_neg hex, if_neg (fun h => hex (hiff.mp h))]

/-- One outer iteration places `x` in front of the first element at least as
far from the target as `x`. -/
theorem sortStep_eq (ComputeDistance : String → String → D) (target : String)
    (s : List AddressTriple) (x : AddressTriple) :
    sortStep ComputeDistance target s x
      = some (List.orderedInsert (distLE ComputeDistance target) x s) := by
  unfold sortStep
  cases s with
  | nil => simp
  | cons b rest =>
    rw [if_neg (by simp)]
    have h := insertLoop_spec ComputeDistance x target (b :: rest) []
    simp only [List.length_nil, List.nil_append] at h
    rw [h]
    by_cases hex : ∃ c ∈ b :: rest, distLE ComputeDistance target x c
    · rw [if_pos hex]; simp
    · rw [if_neg hex]
      simp only [Option.bind_eq_bind, Option.some_bind, if_true]
      have hall : ∀ (l : List AddressTriple),
          (¬ ∃ c ∈ l, distLE ComputeDistance target x c) →
          List.orderedInsert (distLE ComputeDistance target) x l = l ++ [x] := by
        intro l
        induction l with
        | nil => intro _; rfl
        | cons c l ihl =>
          intro hno
          have hc : ¬ distLE ComputeDistance target x c :=
            fun hh => hno ⟨c, List.mem_cons_self _ _, hh⟩
          have hl : ¬ ∃ d ∈ l, distLE ComputeDistance target x d :=
            fun ⟨d, hd, hh⟩ => hno ⟨d, List.mem_cons_of_mem _ hd, hh⟩
          simp [List.orderedInsert, hc, ihl hl]
      rw [hall _ hex]

theorem foldlM_sortStep (ComputeDistance : String → String → D) (target : String) :
    ∀ (l acc : List AddressTriple),
      l.foldlM (sortStep ComputeDistance target) acc
        = some (l.foldl (fun a x => List.orderedInsert (distLE ComputeDistance target) x a) acc) := by
  intro l
  induction l with
  | nil => intro acc; rfl
  | cons x l ih =>
    intro acc
    simp only [List.foldlM_cons, List.foldl_cons, sortStep_eq, Option.bind_eq_bind,
      Option.some_bind, ih]

theorem foldl_orderedInsert (ComputeDistance : String → String → D) (target : String)
    (l : List AddressTriple) :
    l.foldl (fun a x => List.orderedInsert (distLE ComputeDistance target) x a) []
      = List.insertionSort (distLE ComputeDistance target) l.reverse := by
  have h : ∀ (l acc : List AddressTriple),
      l.foldl (fun a x => List.orderedInsert (distLE ComputeDistance target) x a) acc
        = List.foldr (fun x a => List.orderedInsert (distLE ComputeDistance target) x a)
            acc l.reverse := by
    intro l acc
    rw [List.foldr_reverse]
  rw [h]
  generalize l.reverse = m
  induction m with
  | nil => rfl
  | cons x m ih => simp [List.insertionSort, ih]

/-- What `sortContacts` computes: it panics exactly for a negative `k`, and
otherwise leaves in `closest` the first `k` elements of the insertion sort. -/
theorem sortContacts_eq (ComputeDistance : String → String → D) (kademlia : Kademlia)
    (target : String) :
    sortContacts ComputeDistance kademlia target
      = if 0 ≤ kademlia.k then
          some { kademlia with closest := (List.take kademlia.k.toNat
            (List.insertionSort (distLE ComputeDistance target) kademlia.closest.reverse)) }
        else none := by
  unfold sortContacts
  rw [foldlM_sortStep, foldl_orderedInsert]
  simp only [Option.bind_eq_bind, Option.some_bind]
  generalize hm : List.insertionSort (distLE ComputeDistance target) kademlia.closest.reverse = m
  by_cases hk : 0 ≤ kademlia.k
  · rw [if_pos hk]
    by_cases hlen : (m.length : Int) > kademlia.k
    · rw [if_pos hlen]
      unfold sliceTo
      rw [if_pos ⟨hk, le_of_lt hlen⟩]
      rfl
    · rw [if_neg hlen]
      have : m.length ≤ kademlia.k.toNat := by omega
      simp [List.take_of_length_le this]
  · rw [if_neg hk]
    have hlen : (m.length : Int) > kademlia.k := by omega
    rw [if_pos hlen]
    unfold sliceTo
    rw [if_neg (fun h => hk h.1)]
    rfl

theorem insertionSort_distLE_sorted (ComputeDistance : String → String → D) (target : String)
    (l : List AddressTriple) :
    List.Sorted (distLE ComputeDistance target)
      (List.insertionSort (distLE ComputeDistance target) l) :=
  List.sorted_insertionSort (distLE ComputeDistance target) l

/-- A list that is pairwise ordered is ordered pair by adjacent pair. -/
theorem sortedByDistance_of_pairwise (ComputeDistance : String → String → D) (target : String)
    (l : List AddressTriple) (h : l.Pairwise (distLE ComputeDistance target)) :
    SortedByDistance ComputeDistance target l := by
  intro i hi
  exact List.pairwise_iff_get.mp h ⟨i, Nat.lt_of_succ_lt hi⟩ ⟨i + 1, hi⟩ (Nat.lt_succ_self i)

/-- Adjacent order gives pairwise order, the relation being transitive. -/
theorem pairwise_of_sortedByDistance (ComputeDistance : String → String → D) (target : String) :
    ∀ (l : List AddressTriple), SortedByDistance ComputeDistance target l →
      l.Pairwise (distLE ComputeDistance target) := by
  intro l h
  have hchain : List.Chain' (distLE ComputeDistance target) l := by
    rw [List.chain'_iff_get]
    intro i hi
    have hi' : i + 1 < l.length := by omega
    exact h i hi'
  exact List.chain'_iff_pairwise.mp hchain

end SortLemmas

/-! ## The merge loop -/

section MergeLemmas

theorem elementExists_foldl (c : AddressTriple) :
    ∀ (closest : List AddressTriple) (ex : Bool),
      closest.foldl (fun ex e => if e.Id = c.Id then true else ex) ex
        = (ex || decide (c.Id ∈ closest.map AddressTriple.Id)) := by
  intro closest
  induction closest with
  | nil => intro ex; simp
  | cons e l ih =>
    intro ex
    rw [List.foldl_cons, ih]
    by_cases he : e.Id = c.Id
    · simp [he]
    · have he' : ¬ c.Id = e.Id := fun h => he h.symm
      simp [he, he']

theorem elementExists_iff (closest : List AddressTriple) (c : AddressTriple) :
    elementExists closest c = true ↔ c.Id ∈ closest.map AddressTriple.Id := by
  unfold elementExists
  rw [elementExists_foldl]
  simp

theorem elementExists_eq_false_iff (closest : List AddressTriple) (c : AddressTriple) :
    elementExists closest c = false ↔ c.Id ∉ closest.map AddressTriple.Id := by
  rw [← elementExists_iff]
  cases elementExists closest c <;> simp

/-- The merge loop only appends to `closest`. -/
theorem refreshFold_prefix :
    ∀ (l : List AddressTriple) (acc : List AddressTriple × Bool),
      ∃ added, (l.foldl refreshStep acc).1 = acc.1 ++ added := by
  intro l
  induction l with
  | nil => intro acc; exact ⟨[], by simp⟩
  | cons c l ih =>
    intro acc
    rw [List.foldl_cons]
    obtain ⟨added, h⟩ := ih (refreshStep acc c)
    rw [h]
    unfold refreshStep
    by_cases hex : elementExists acc.1 c = false
    · rw [if_pos hex]
      exact ⟨c :: added, by simp⟩
    · rw [if_neg hex]
      exact ⟨added, rfl⟩

/-- The merge loop keeps the identifiers pairwise distinct. -/
theorem refreshFold_distinct :
    ∀ (l : List AddressTriple) (acc : List AddressTriple × Bool),
      DistinctIds acc.1 → DistinctIds (l.foldl refreshStep acc).1 := by
  intro l
  induction l with
  | nil => intro acc h; exact h
  | cons c l ih =>
    intro acc h
    rw [List.foldl_cons]
    apply ih
    unfold refreshStep
    by_cases hex : elementExists acc.1 c = false
    · rw [if_pos hex]
      have hnot := (elementExists_eq_false_iff acc.1 c).mp hex
      unfold DistinctIds at *
      simp only [List.map_append, List.map_cons, List.map_nil]
      rw [List.nodup_append]
      refine ⟨h, List.nodup_singleton _, ?_⟩
      intro a ha hb
      rw [List.mem_singleton] at hb
      exact hnot (hb ▸ ha)
    · rw [if_neg hex]
      exact h

/-- When every new identifier is already present the merge loop changes
nothing. -/
theorem refreshFold_all_present :
    ∀ (l : List AddressTriple) (acc : List AddressTriple × Bool),
      (∀ c ∈ l, c.Id ∈ acc.1.map AddressTriple.Id) → l.foldl refreshStep acc = acc := by
  intro l
  induction l with
  | nil => intro acc _; rfl
  | cons c l ih =>
    intro acc h
    rw [List.foldl_cons]
    have hc : elementExists acc.1 c = true :=
      (elementExists_iff acc.1 c).mpr (h c (List.mem_cons_self _ _))
    have hstep : refreshStep acc c = acc := by
      unfold refreshStep
      rw [if_neg (by simp [hc])]
    rw [hstep]
    exact ih acc (fun d hd => h d (List.mem_cons_of_mem _ hd))

theorem refreshFold_false :
    ∀ (l : List AddressTriple) (closest : List AddressTriple),
      (l.foldl refreshStep (closest, false)).2 = false := by
  intro l
  induction l with
  | nil => intro closest; rfl
  | cons c l ih =>
    intro closest
    rw [List.foldl_cons]
    unfold refreshStep
    by_cases hex : elementExists closest c = false
    · simp only [hex, if_true]; exact ih _
    · simp only [hex, if_false]; exact ih _

/-- The flag `elementsAlreadyPresent` is false after the loop exactly when some
new contact carries an identifier absent from `closest` as it was before. -/
theorem refreshFold_flag :
    ∀ (l : List AddressTriple) (closest : List AddressTriple),
      (l.foldl refreshStep (closest, true)).2 = false ↔
        ∃ c ∈ l, c.Id ∉ closest.map AddressTriple.Id := by
  intro l
  induction l with
  | nil => intro closest; simp
  | cons c l ih =>
    intro closest
    rw [List.foldl_cons]
    by_cases hex : elementExists closest c = false
    · have hstep : refreshStep (closest, true) c = (closest ++ [c], false) := by
        unfold refreshStep
        simp only [hex, if_true]
      rw [hstep, refreshFold_false]
      have hnot := (elementExists_eq_false_iff closest c).mp hex
      simp only [true_iff]
      exact ⟨c, List.mem_cons_self _ _, hnot⟩
    · have htrue : elementExists closest c = true := by
        cases h : elementExists closest c
        · exact absurd h hex
        · rfl
      have hstep : refreshStep (closest, true) c = (closest, true) := by
        unfold refreshStep
        simp [htrue]
      rw [hstep, ih]
      have hin : c.Id ∈ closest.map AddressTriple.Id := by
        rw [← elementExists_iff]
        cases h : elementExists closest c
        · exact absurd h hex
        · rfl
      constructor
      · rintro ⟨d, hd, hnd⟩
        exact ⟨d, List.mem_cons_of_mem _ hd, hnd⟩
      · rintro ⟨d, hd, hnd⟩
        rcases List.mem_cons.mp hd with rfl | hd
        · exact absurd hin hnd
        · exact ⟨d, hd, hnd⟩

end MergeLemmas

/-! ## What refreshClosest computes -/

section RefreshLemmas

variable {D : Type} [LinearOrder D]

/-- A merge that adds nothing: only the counter moves. -/
theorem refreshClosest_none_added (ComputeDistance : String → String → D) (kademlia : Kademlia)
    (newContacts : List AddressTriple) (target : String)
    (hne : kademlia.closest ≠ [])
    (hall : ∀ c ∈ newContacts, c.Id ∈ kademlia.closest.map AddressTriple.Id) :
    refreshClosest ComputeDistance kademlia newContacts target
      = some { kademlia with noCloserNodeCalls := wrapInt (kademlia.noCloserNodeCalls + 1) } := by
  obtain ⟨first, tail, hft⟩ := List.exists_cons_of_ne_nil hne
  have hfold := refreshFold_all_present newContacts (kademlia.closest, true) hall
  unfold refreshClosest
  rw [hfold]
  simp [hft]

/-- A merge that adds a contact: sort, cut, and compare the first identifier
with the one read before the loop. -/
theorem refreshClosest_added (ComputeDistance : String → String → D) (kademlia : Kademlia)
    (newContacts : List AddressTriple) (target : String) (first : AddressTriple)
    (tail : List AddressTriple) (hft : kademlia.closest = first :: tail)
    (hex : ∃ c ∈ newContacts, c.Id ∉ kademlia.closest.map AddressTriple.Id) :
    refreshClosest ComputeDistance kademlia newContacts target
      = match mergedSorted ComputeDistance kademlia newContacts target with
        | [] => none
        | f :: rest =>
          some { kademlia with
            closest := f :: rest,
            noCloserNodeCalls := if f.Id ≠ first.Id then 0 else wrapInt (kademlia.noCloserNodeCalls + 1) } := by
  have hflag := (refreshFold_flag newContacts kademlia.closest).mpr hex
  unfold refreshClosest mergedSorted
  simp only [hflag, if_true, sortContacts_eq]
  by_cases hk : 0 ≤ kademlia.k
  · simp only [hk, if_true, hft, List.getElem?_cons_zero, Option.bind_eq_bind, Option.some_bind]
    rw [← hft]
    generalize List.take kademlia.k.toNat (List.insertionSort (distLE ComputeDistance target)
      (newContacts.foldl refreshStep (kademlia.closest, true)).1.reverse) = m
    cases m with
    | nil => simp
    | cons f rest =>
      simp only [List.getElem?_cons_zero, Option.some_bind]
      by_cases hid : f.Id = first.Id
      · simp [hid]
      · simp [hid]
  · have h0 : kademlia.k.toNat = 0 := by omega
    simp [hk, h0, hft]

theorem mergedSorted_pairwise (ComputeDistance : String → String → D) (kademlia : Kademlia)
    (newContacts : List AddressTriple) (target : String) :
    (mergedSorted ComputeDistance kademlia newContacts target).Pairwise
      (distLE ComputeDistance target) :=
  List.Pairwise.sublist (List.take_sublist _ _)
    (insertionSort_distLE_sorted ComputeDistance target _)

theorem mergedSorted_distinct (ComputeDistance : String → String → D) (kademlia : Kademlia)
    (newContacts : List AddressTriple) (target : String)
    (hd : DistinctIds kademlia.closest) :
    DistinctIds (mergedSorted ComputeDistance kademlia newContacts target) := by
  have h1 : DistinctIds (newContacts.foldl refreshStep (kademlia.closest, true)).1 :=
    refreshFold_distinct newContacts (kademlia.closest, true) hd
  have hperm : List.Perm
      (List.insertionSort (distLE ComputeDistance target)
        (newContacts.foldl refreshStep (kademlia.closest, true)).1.reverse)
      (newContacts.foldl refreshStep (kademlia.closest, true)).1 :=
    (List.perm_insertionSort _ _).trans (List.reverse_perm _)
  have h2 : DistinctIds (List.insertionSort (distLE ComputeDistance target)
      (newContacts.foldl refreshStep (kademlia.closest, true)).1.reverse) := by
    unfold DistinctIds at *
    exact ((hperm.map AddressTriple.Id).nodup_iff).mpr h1
  unfold DistinctIds at *
  exact List.Nodup.sublist (List.Sublist.map _ (List.take_sublist _ _)) h2

theorem mergedSorted_length_le (ComputeDistance : String → String → D) (kademlia : Kademlia)
    (newContacts : List AddressTriple) (target : String) :
    (mergedSorted ComputeDistance kademlia newContacts target).length ≤ kademlia.k.toNat := by
  unfold mergedSorted
  rw [List.length_take]
  exact Nat.min_le_left _ _

theorem mergedSorted_ne_nil (ComputeDistance : String → String → D) (kademlia : Kademlia)
    (newContacts : List AddressTriple) (target : String)
    (hne : kademlia.closest ≠ []) (hk : 1 ≤ kademlia.k) :
    mergedSorted ComputeDistance kademlia newContacts target ≠ [] := by
  obtain ⟨added, hadd⟩ := refreshFold_prefix newContacts (kademlia.closest, true)
  have hlen : 1 ≤ (newContacts.foldl refreshStep (kademlia.closest, true)).1.length := by
    rw [hadd, List.length_append]
    have := List.length_pos.mpr hne
    simp only at this ⊢
    omega
  intro h
  have h0 := congrArg List.length h
  unfold mergedSorted at h0
  rw [List.length_take, List.length_insertionSort, List.length_reverse] at h0
  simp only [List.length_nil] at h0
  have : 1 ≤ kademlia.k.toNat := by omega
  omega

/-- The merge returns whenever `closest` is not empty and `k ≥ 1`. -/
theorem refreshClosest_returns (ComputeDistance : String → String → D) (kademlia : Kademlia)
    (newContacts : List AddressTriple) (target : String)
    (hne : kademlia.closest ≠ []) (hk : 1 ≤ kademlia.k) :
    ∃ kd, refreshClosest ComputeDistance kademlia newContacts target = some kd := by
  by_cases hex : ∃ c ∈ newContacts, c.Id ∉ kademlia.closest.map AddressTriple.Id
  · obtain ⟨first, tail, hft⟩ := List.exists_cons_of_ne_nil hne
    rw [refreshClosest_added ComputeDistance kademlia newContacts target first tail hft hex]
    have hnn := mergedSorted_ne_nil ComputeDistance kademlia newContacts target hne hk
    cases hm : mergedSorted ComputeDistance kademlia newContacts target with
    | nil => exact absurd hm hnn
    | cons f rest => exact ⟨_, rfl⟩
  · have hall : ∀ c ∈ newContacts, c.Id ∈ kademlia.closest.map AddressTriple.Id := by
      intro c hc
      by_contra hn
      exact hex ⟨c, hc, hn⟩
    exact ⟨_, refreshClosest_none_added ComputeDistance kademlia newContacts target hne hall⟩

/-- Case analysis of a merge that returned. -/
theorem refreshClosest_cases (ComputeDistance : String → String → D) (kademlia : Kademlia)
    (newContacts : List AddressTriple) (target : String) (kd : Kademlia)
    (h : refreshClosest ComputeDistance kademlia newContacts target = some kd) :
    ∃ first tail, kademlia.closest = first :: tail ∧
      (((∀ c ∈ newContacts, c.Id ∈ kademlia.closest.map AddressTriple.Id) ∧
          kd = { kademlia with noCloserNodeCalls := wrapInt (kademlia.noCloserNodeCalls + 1) }) ∨
       ((∃ c ∈ newContacts, c.Id ∉ kademlia.closest.map AddressTriple.Id) ∧
          ∃ f rest, mergedSorted ComputeDistance kademlia newContacts target = f :: rest ∧
            kd = { kademlia with
              closest := f :: rest,
              noCloserNodeCalls :=
                if f.Id ≠ first.Id then 0 else wrapInt (kademlia.noCloserNodeCalls + 1) })) := by
  cases hc : kademlia.closest with
  | nil =>
    unfold refreshClosest at h
    simp [hc] at h
  | cons first tail =>
    refine ⟨first, tail, rfl, ?_⟩
    have hne : kademlia.closest ≠ [] := by rw [hc]; exact List.cons_ne_nil _ _
    by_cases hex : ∃ c ∈ newContacts, c.Id ∉ kademlia.closest.map AddressTriple.Id
    · right
      rw [refreshClosest_added ComputeDistance kademlia newContacts target first tail hc hex] at h
      rw [← hc]
      refine ⟨hex, ?_⟩
      cases hm : mergedSorted ComputeDistance kademlia newContacts target with
      | nil => rw [hm] at h; exact absurd h (by simp)
      | cons f rest =>
        rw [hm] at h
        exact ⟨f, rest, rfl, (Option.some.inj h).symm⟩
    · left
      have hall : ∀ c ∈ newContacts, c.Id ∈ kademlia.closest.map AddressTriple.Id := by
        intro c hc'
        by_contra hn
        exact hex ⟨c, hc', hn⟩
      rw [refreshClosest_none_added ComputeDistance kademlia newContacts target hne hall] at h
      rw [← hc]
      exact ⟨hall, (Option.some.inj h).symm⟩

end RefreshLemmas

/-! ## Dispatch and worker steps -/

section EngineLemmas

variable {D : Type} [LinearOrder D]

/-- The loop of `getNextContact` either finds nothing and changes nothing, or
stops at the first element it does not hold for asked and records it. -/
theorem getNextContactLoop_cases (AlreadyAsked : List AddressTriple → AddressTriple → Bool)
    (kademlia : Kademlia) :
    ∀ (rest : List AddressTriple),
      ((∀ x ∈ rest, AlreadyAsked kademlia.askedClosest x = true) ∧
        getNextContactLoop AlreadyAsked kademlia rest = (kademlia, none)) ∨
      (∃ pre e post, rest = pre ++ e :: post ∧
        (∀ x ∈ pre, AlreadyAsked kademlia.askedClosest x = true) ∧
        AlreadyAsked kademlia.askedClosest e = false ∧
        getNextContactLoop AlreadyAsked kademlia rest
          = ({ kademlia with askedClosest := kademlia.askedClosest ++ [e] }, some e)) := by
  intro rest
  induction rest with
  | nil => left; exact ⟨by simp, rfl⟩
  | cons a rest ih =>
    by_cases ha : AlreadyAsked kademlia.askedClosest a = false
    · right
      refine ⟨[], a, rest, rfl, by simp, ha, ?_⟩
      simp [getNextContactLoop, ha]
    · have ha' : AlreadyAsked kademlia.askedClosest a = true := by
        cases h : AlreadyAsked kademlia.askedClosest a
        · exact absurd h ha
        · rfl
      have hstep : getNextContactLoop AlreadyAsked kademlia (a :: rest)
          = getNextContactLoop AlreadyAsked kademlia rest := by
        simp [getNextContactLoop, ha']
      rcases ih with ⟨hall, hres⟩ | ⟨pre, e, post, hsplit, hpre, he, hres⟩
      · left
        refine ⟨?_, by rw [hstep, hres]⟩
        intro x hx
        rcases List.mem_cons.mp hx with rfl | hx
        · exact ha'
        · exact hall x hx
      · right
        refine ⟨a :: pre, e, post, by rw [hsplit]; rfl, ?_, he, by rw [hstep, hres]⟩
        intro x hx
        rcases List.mem_cons.mp hx with rfl | hx
        · exact ha'
        · exact hpre x hx

theorem askNextContact_kademlia (AlreadyAsked : List AddressTriple → AddressTriple → Bool)
    (s : LookupState) (target : String) (lookupType : Int) :
    (askNextContact AlreadyAsked s target lookupType).kademlia
      = (getNextContact AlreadyAsked s.kademlia).1 := by
  unfold askNextContact
  split <;> rename_i h <;> rw [h]

theorem askNextContact_resultChannel (AlreadyAsked : List AddressTriple → AddressTriple → Bool)
    (s : LookupState) (target : String) (lookupType : Int) :
    (askNextContact AlreadyAsked s target lookupType).resultChannel = s.resultChannel := by
  unfold askNextContact
  split <;> rfl

theorem LookupWorkerFinish_kademlia (s : LookupState) (order : LookupOrder) :
    (LookupWorkerFinish s order).kademlia
      = { s.kademlia with gotResultBack := s.kademlia.gotResultBack ++ [order.Contact] } := by
  unfold LookupWorkerFinish
  simp only
  split <;> rfl

/-- A property of the instance that the merge, the dispatch, the counter and
the list of completed contacts all preserve is preserved by one iteration of a
worker. -/
theorem LookupWorkerStep_invariant (ComputeDistance : String → String → D)
    (AlreadyAsked : List AddressTriple → AddressTriple → Bool) (P : Kademlia → Prop)
    (hrefresh : ∀ kd newContacts target kd1, P kd →
      refreshClosest ComputeDistance kd newContacts target = some kd1 → P kd1)
    (hnext : ∀ kd, P kd → P (getNextContact AlreadyAsked kd).1)
    (hcount : ∀ kd n, P kd → P { kd with noCloserNodeCalls := n })
    (hback : ∀ kd g, P kd → P { kd with gotResultBack := g })
    (s : LookupState) (order : LookupOrder) (reply : Reply) (s1 : LookupState)
    (hP : P s.kademlia)
    (h : LookupWorkerStep ComputeDistance AlreadyAsked s order reply = some s1) :
    P s1.kademlia := by
  have hask : ∀ (t : LookupState) (target : String) (lt : Int), P t.kademlia →
      P (askNextContact AlreadyAsked t target lt).kademlia := by
    intro t target lt ht
    rw [askNextContact_kademlia]
    exact hnext _ ht
  have hhandle : ∀ (answerList : List AddressTriple) (t : LookupState),
      handleContactAnswer ComputeDistance AlreadyAsked s order answerList = some t →
      P t.kademlia := by
    intro answerList t ht
    unfold handleContactAnswer at ht
    by_cases hlen : answerList.length ≠ 0
    · rw [if_pos hlen] at ht
      cases hr : refreshClosest ComputeDistance s.kademlia answerList order.Target with
      | none => rw [hr] at ht; simp at ht
      | some kd =>
        rw [hr] at ht
        simp only [Option.bind_eq_bind, Option.some_bind] at ht
        have hkd : P kd := hrefresh _ _ _ _ hP hr
        by_cases hthr : kd.noCloserNodeCalls > kd.exitThreshold
        · rw [if_pos hthr] at ht
          rw [← Option.some.inj ht]
          exact hkd
        · rw [if_neg hthr] at ht
          rw [← Option.some.inj ht]
          exact hask _ _ _ hkd
    · rw [if_neg hlen] at ht
      rw [← Option.some.inj ht]
      exact hask _ _ _ (hcount _ _ hP)
  have hswitch : ∀ (t : LookupState),
      LookupWorkerSwitch ComputeDistance AlreadyAsked s order reply = some t →
      P t.kademlia := by
    intro t ht
    unfold LookupWorkerSwitch at ht
    by_cases hc : order.LookupType = CONTACT_LOOKUP
    · rw [if_pos hc] at ht
      by_cases herr : reply.err = false
      · rw [if_pos herr] at ht
        exact hhandle _ t ht
      · rw [if_neg herr] at ht
        rw [← Option.some.inj ht]
        exact hask s _ _ hP
    · rw [if_neg hc] at ht
      by_cases hdl : order.LookupType = DATA_LOOKUP
      · rw [if_pos hdl] at ht
        by_cases herr : reply.err = false
        · rw [if_pos herr] at ht
          cases hdata : reply.data with
          | some data =>
            rw [hdata] at ht
            rw [← Option.some.inj ht]
            exact hP
          | none =>
            rw [hdata] at ht
            exact hhandle _ t ht
        · rw [if_neg herr] at ht
          rw [← Option.some.inj ht]
          exact hask s _ _ hP
      · rw [if_neg hdl] at ht
        rw [← Option.some.inj ht]
        exact hP
  unfold LookupWorkerStep at h
  cases hsw : LookupWorkerSwitch ComputeDistance AlreadyAsked s order reply with
  | none => rw [hsw] at h; simp at h
  | some t =>
    rw [hsw] at h
    simp only [Option.bind_eq_bind, Option.some_bind] at h
    rw [← Option.some.inj h, LookupWorkerFinish_kademlia]
    exact hback _ _ (hswitch t hsw)

/-- The same for any sequence of worker steps. -/
theorem runWorkers_invariant (ComputeDistance : String → String → D)
    (AlreadyAsked : List AddressTriple → AddressTriple → Bool) (P : Kademlia → Prop)
    (hrefresh : ∀ kd newContacts target kd1, P kd →
      refreshClosest ComputeDistance kd newContacts target = some kd1 → P kd1)
    (hnext : ∀ kd, P kd → P (getNextContact AlreadyAsked kd).1)
    (hcount : ∀ kd n, P kd → P { kd with noCloserNodeCalls := n })
    (hback : ∀ kd g, P kd → P { kd with gotResultBack := g }) :
    ∀ (schedule : List (Nat × Reply)) (s s1 : LookupState), P s.kademlia →
      runWorkers ComputeDistance AlreadyAsked schedule s = some s1 → P s1.kademlia := by
  intro schedule
  induction schedule with
  | nil =>
    intro s s1 hP h
    simp only [runWorkers] at h
    rw [← Option.some.inj h]; exact hP
  | cons ev rest ih =>
    intro s s1 hP h
    obtain ⟨i, reply⟩ := ev
    simp only [runWorkers, Option.bind_eq_bind] at h
    cases hw : workerStep ComputeDistance AlreadyAsked s i reply with
    | none => rw [hw] at h; simp at h
    | some t =>
      rw [hw] at h
      simp only [Option.some_bind] at h
      apply ih t s1 _ h
      unfold workerStep at hw
      cases ho : s.lookupChannel[i]? with
      | none => rw [ho] at hw; simp at hw
      | some order =>
        rw [ho] at hw
        simp only [Option.bind_eq_bind, Option.some_bind] at hw
        exact LookupWorkerStep_invariant ComputeDistance AlreadyAsked P hrefresh hnext hcount
          hback { s with lookupChannel := s.lookupChannel.eraseIdx i } order reply t hP hw

end EngineLemmas

/-! ## The state the workers start from -/

section InitLemmas

variable {D : Type}

/-- The seeding loop of `LookupContact` appends the triples in order. -/
theorem seed_foldl (found : List (TripleAndDistance D)) :
    ∀ (kd : Kademlia),
      found.foldl (fun kd e => { kd with closest := kd.closest ++ [e.Triple] }) kd
        = { kd with closest := kd.closest ++ found.map TripleAndDistance.Triple } := by
  induction found with
  | nil => intro kd; simp
  | cons e rest ih =>
    intro kd
    rw [List.foldl_cons, ih]
    simp

/-- The dispatch loop of `LookupContact` marks as asked the contacts it walks
over while the index is below `alpha`, and touches nothing else of the
instance. -/
theorem dispatchLoop_kademlia (lookupType : Int) (target : String) :
    ∀ (rest : List AddressTriple) (i : Nat) (s : LookupState),
      (dispatchLoop lookupType target rest i s).kademlia
        = { s.kademlia with askedClosest :=
              s.kademlia.askedClosest ++ rest.take (s.kademlia.alpha - (i : Int)).toNat } := by
  intro rest
  induction rest with
  | nil => intro i s; simp [dispatchLoop]
  | cons c rest ih =>
    intro i s
    by_cases hi : (i : Int) < s.kademlia.alpha
    · simp only [dispatchLoop, if_pos hi]
      rw [ih]
      have hn : (s.kademlia.alpha - (i : Int)).toNat
          = (s.kademlia.alpha - ((i + 1 : Nat) : Int)).toNat + 1 := by omega
      rw [hn]
      simp
    · simp only [dispatchLoop, if_neg hi]
      have hn : (s.kademlia.alpha - (i : Int)).toNat = 0 := by omega
      rw [hn]
      simp

/-- The instance the workers start from. -/
theorem LookupContactInit_kademlia (kademlia : Kademlia) (found : List (TripleAndDistance D))
    (target : String) (lookupType : Int) :
    (LookupContactInit kademlia found target lookupType).kademlia
      = { kademlia with
          closest := found.map TripleAndDistance.Triple,
          askedClosest := (found.map TripleAndDistance.Triple).take kademlia.alpha.toNat,
          gotResultBack := [] } := by
  unfold LookupContactInit
  simp only [seed_foldl, dispatchLoop_kademlia]
  simp

/-- The dispatch loop of `LookupContact` queues one order for each contact it
marks as asked and writes no result. -/
theorem dispatchLoop_channels (lookupType : Int) (target : String) :
    ∀ (rest : List AddressTriple) (i : Nat) (s : LookupState),
      (dispatchLoop lookupType target rest i s).lookupChannel
        = s.lookupChannel ++
            (rest.take (s.kademlia.alpha - (i : Int)).toNat).map
              (fun c => (⟨lookupType, c, target⟩ : LookupOrder)) ∧
      (dispatchLoop lookupType target rest i s).resultChannel = s.resultChannel := by
  intro rest
  induction rest with
  | nil => intro i s; simp [dispatchLoop]
  | cons c rest ih =>
    intro i s
    by_cases hi : (i : Int) < s.kademlia.alpha
    · simp only [dispatchLoop, if_pos hi]
      obtain ⟨h1, h2⟩ := ih (i + 1)
        { s with lookupChannel := s.lookupChannel ++ [⟨lookupType, c, target⟩],
                 kademlia := { s.kademlia with askedClosest := s.kademlia.askedClosest ++ [c] } }
      rw [h1, h2]
      have hn : (s.kademlia.alpha - (i : Int)).toNat
          = (s.kademlia.alpha - ((i + 1 : Nat) : Int)).toNat + 1 := by omega
      rw [hn]
      simp
    · simp only [dispatchLoop, if_neg hi]
      have hn : (s.kademlia.alpha - (i : Int)).toNat = 0 := by omega
      rw [hn]
      simp

/-- The channels the workers start from. -/
theorem LookupContactInit_channels (kademlia : Kademlia) (found : List (TripleAndDistance D))
    (target : String) (lookupType : Int) :
    (LookupContactInit kademlia found target lookupType).lookupChannel
        = ((found.map TripleAndDistance.Triple).take kademlia.alpha.toNat).map
            (fun c => (⟨lookupType, c, target⟩ : LookupOrder)) ∧
    (LookupContactInit kademlia found target lookupType).resultChannel = [] := by
  unfold LookupContactInit
  simp only [seed_foldl]
  constructor
  · rw [(dispatchLoop_channels lookupType target _ 0 _).1]
    simp
  · rw [(dispatchLoop_channels lookupType target _ 0 _).2]

end InitLemmas

/-! ## Claims on sortContacts -/

section SortClaims

variable {D : Type} [LinearOrder D]

/-- C1: for every list `closest`, every target and every `k ≥ 0`, `sortContacts`
returns and leaves `closest` ascending by distance to the target: each element
is at most as far from the target as its successor. -/
theorem sortContacts_sorted (ComputeDistance : String → String → D) (kademlia : Kademlia)
    (target : String) (hk : 0 ≤ kademlia.k) :
    ∃ kd, sortContacts ComputeDistance kademlia target = some kd ∧
      SortedByDistance ComputeDistance target kd.closest := by
  rw [sortContacts_eq, if_pos hk]
  refine ⟨_, rfl, ?_⟩
  apply sortedByDistance_of_pairwise
  exact List.Pairwise.sublist (List.take_sublist _ _)
    (insertionSort_distLE_sorted ComputeDistance target _)

theorem sortContacts_sorted_witness :
    (0 : Int) ≤ (sampleInstance [contact7, contact1, contact4, contact2] 3 0).k ∧
    ∃ kd, sortContacts xorDistance
        (sampleInstance [contact7, contact1, contact4, contact2] 3 0) "0000" = some kd ∧
      SortedByDistance xorDistance "0000" kd.closest :=
  ⟨by decide, sortContacts_sorted xorDistance _ "0000" (by decide)⟩

/-- C2: for every list `closest` of length `n` and every `k ≥ 0`, `sortContacts`
returns with exactly the `k` closest contacts: the new list has length
`min n k`, together with the dropped contacts it is a rearrangement of the old
list (so nothing is invented, and the zero-value placeholder is in the result
only if it was in the input), and every kept contact is at most as far from the
target as every dropped one. -/
theorem sortContacts_keeps_k_closest (ComputeDistance : String → String → D)
    (kademlia : Kademlia) (target : String) (hk : 0 ≤ kademlia.k) :
    ∃ kd dropped, sortContacts ComputeDistance kademlia target = some kd ∧
      (kd.closest.length : Int) = min (kademlia.closest.length : Int) kademlia.k ∧
      List.Perm (kd.closest ++ dropped) kademlia.closest ∧
      (AddressTriple.zero ∈ kd.closest → AddressTriple.zero ∈ kademlia.closest) ∧
      (∀ c ∈ kd.closest, ∀ d ∈ dropped,
        ComputeDistance c.Id target ≤ ComputeDistance d.Id target) := by
  rw [sortContacts_eq, if_pos hk]
  have hperm : List.Perm
      (List.insertionSort (distLE ComputeDistance target) kademlia.closest.reverse)
      kademlia.closest :=
    (List.perm_insertionSort _ _).trans (List.reverse_perm _)
  have hsorted := insertionSort_distLE_sorted ComputeDistance target kademlia.closest.reverse
  generalize List.insertionSort (distLE ComputeDistance target) kademlia.closest.reverse = m
    at hperm hsorted
  refine ⟨_, List.drop kademlia.k.toNat m, rfl, ?_, ?_, ?_, ?_⟩
  · simp only [List.length_take]
    rw [hperm.length_eq]
    omega
  · simp only [List.take_append_drop]
    exact hperm
  · intro hz
    exact hperm.subset ((List.take_sublist _ _).subset hz)
  · intro c hc d hd
    have hp : (List.take kademlia.k.toNat m ++ List.drop kademlia.k.toNat m).Pairwise
        (distLE ComputeDistance target) := by
      rw [List.take_append_drop]; exact hsorted
    exact (List.pairwise_append.mp hp).2.2 c hc d hd

theorem sortContacts_keeps_k_closest_witness :
    (0 : Int) ≤ (sampleInstance [contact7, contact1, contact4, contact2] 2 0).k ∧
    ∃ kd dropped, sortContacts xorDistance
        (sampleInstance [contact7, contact1, contact4, contact2] 2 0) "0000" = some kd ∧
      (kd.closest.length : Int)
        = min (((sampleInstance [contact7, contact1, contact4, contact2] 2 0).closest.length : Nat) : Int)
            (sampleInstance [contact7, contact1, contact4, contact2] 2 0).k ∧
      List.Perm (kd.closest ++ dropped)
        (sampleInstance [contact7, contact1, contact4, contact2] 2 0).closest ∧
      (AddressTriple.zero ∈ kd.closest →
        AddressTriple.zero ∈ (sampleInstance [contact7, contact1, contact4, contact2] 2 0).closest) ∧
      (∀ c ∈ kd.closest, ∀ d ∈ dropped, xorDistance c.Id "0000" ≤ xorDistance d.Id "0000") :=
  ⟨by decide, sortContacts_keeps_k_closest xorDistance _ "0000" (by decide)⟩

end SortClaims

/-! ## Claims on refreshClosest -/

section RefreshClaims

variable {D : Type} [LinearOrder D]

/-- C3: `refreshClosest` preserves "no duplicate identifiers": for a non-empty
`closest` with pairwise distinct identifiers and any `newContacts` (repeating
identifiers among themselves or of `closest`), whenever the merge returns the
identifiers of `closest` are pairwise distinct; and it returns for `k ≥ 1`. -/
theorem refreshClosest_distinct_ids (ComputeDistance : String → String → D)
    (kademlia : Kademlia) (newContacts : List AddressTriple) (target : String)
    (hne : kademlia.closest ≠ []) (hd : DistinctIds kademlia.closest) :
    (1 ≤ kademlia.k →
      ∃ kd, refreshClosest ComputeDistance kademlia newContacts target = some kd) ∧
    ∀ kd, refreshClosest ComputeDistance kademlia newContacts target = some kd →
      DistinctIds kd.closest := by
  refine ⟨refreshClosest_returns ComputeDistance kademlia newContacts target hne, ?_⟩
  intro kd h
  obtain ⟨first, tail, _, hcase⟩ :=
    refreshClosest_cases ComputeDistance kademlia newContacts target kd h
  rcases hcase with ⟨_, hkd⟩ | ⟨_, f, rest, hm, hkd⟩
  · rw [hkd]; exact hd
  · rw [hkd]
    have := mergedSorted_distinct ComputeDistance kademlia newContacts target hd
    rw [hm] at this
    exact this

theorem refreshClosest_distinct_ids_witness :
    (sampleInstance [contact4, contact7] 3 0).closest ≠ [] ∧
    DistinctIds (sampleInstance [contact4, contact7] 3 0).closest ∧
    ((1 ≤ (sampleInstance [contact4, contact7] 3 0).k →
      ∃ kd, refreshClosest xorDistance (sampleInstance [contact4, contact7] 3 0)
        [contact2, contact7, contact2, contact1] "0000" = some kd) ∧
    ∀ kd, refreshClosest xorDistance (sampleInstance [contact4, contact7] 3 0)
        [contact2, contact7, contact2, contact1] "0000" = some kd →
      DistinctIds kd.closest) :=
  ⟨by decide, by decide,
    refreshClosest_distinct_ids xorDistance (sampleInstance [contact4, contact7] 3 0)
      [contact2, contact7, contact2, contact1] "0000" (by decide) (by decide)⟩

/-- C4: stale-round rule of `refreshClosest`: for a non-empty `closest`, whenever
the merge returns (it does for `k ≥ 1`), `noCloserNodeCalls` is 0 if some new
contact had an identifier absent from `closest` and the identifier of
`closest[0]` differs from the one before the merge; in every other case it is
the previous value plus one, as the `int` of the source computes it: the
mathematical sum for every previous value but the largest `int`, from which
`++` goes to the smallest. -/
theorem refreshClosest_stale_rule (ComputeDistance : String → String → D)
    (kademlia : Kademlia) (newContacts : List AddressTriple) (target : String)
    (hne : kademlia.closest ≠ []) :
    (1 ≤ kademlia.k →
      ∃ kd, refreshClosest ComputeDistance kademlia newContacts target = some kd) ∧
    ∀ kd, refreshClosest ComputeDistance kademlia newContacts target = some kd →
      kd.closest ≠ [] ∧
      (((∃ c ∈ newContacts, c.Id ∉ kademlia.closest.map AddressTriple.Id) ∧
          firstId kd.closest ≠ firstId kademlia.closest) →
        kd.noCloserNodeCalls = 0) ∧
      (¬ ((∃ c ∈ newContacts, c.Id ∉ kademlia.closest.map AddressTriple.Id) ∧
          firstId kd.closest ≠ firstId kademlia.closest) →
        kd.noCloserNodeCalls = wrapInt (kademlia.noCloserNodeCalls + 1) ∧
        (minInt ≤ kademlia.noCloserNodeCalls → kademlia.noCloserNodeCalls < maxInt →
          kd.noCloserNodeCalls = kademlia.noCloserNodeCalls + 1) ∧
        (kademlia.noCloserNodeCalls = maxInt → kd.noCloserNodeCalls = minInt)) := by
  refine ⟨refreshClosest_returns ComputeDistance kademlia newContacts target hne, ?_⟩
  intro kd h
  obtain ⟨first, tail, hft, hcase⟩ :=
    refreshClosest_cases ComputeDistance kademlia newContacts target kd h
  rcases hcase with ⟨hall, hkd⟩ | ⟨hex, f, rest, _, hkd⟩
  · refine ⟨by rw [hkd]; exact hne, ?_, ?_⟩
    · rintro ⟨⟨c, hc, hnc⟩, _⟩
      exact absurd (hall c hc) hnc
    · intro _
      rw [hkd]
      exact ⟨rfl, fun hlo hhi => wrapInt_succ _ hlo hhi,
        fun hmax => by simp only [hmax]; exact wrapInt_succ_maxInt⟩
  · have hfirst : firstId kd.closest = some f.Id := by rw [hkd]; rfl
    have hold : firstId kademlia.closest = some first.Id := by rw [hft]; rfl
    refine ⟨by rw [hkd]; exact List.cons_ne_nil _ _, ?_, ?_⟩
    · rintro ⟨_, hchg⟩
      rw [hfirst, hold] at hchg
      have hid : f.Id ≠ first.Id := fun e => hchg (by rw [e])
      rw [hkd]
      simp [hid]
    · intro hnot
      have hid : f.Id = first.Id := by
        by_contra hid
        apply hnot
        refine ⟨hex, ?_⟩
        rw [hfirst, hold]
        intro e
        exact hid (Option.some.inj e)
      rw [hkd]
      refine ⟨by simp [hid], fun hlo hhi => ?_, fun hmax => ?_⟩
      · simp only [hid, ne_eq, not_true_eq_false, if_false]
        exact wrapInt_succ _ hlo hhi
      · simp only [hid, ne_eq, not_true_eq_false, if_false, hmax]
        exact wrapInt_succ_maxInt

theorem refreshClosest_stale_rule_witness :
    (sampleInstance [contact4, contact7] 3 2).closest ≠ [] ∧
    ((1 ≤ (sampleInstance [contact4, contact7] 3 2).k →
      ∃ kd, refreshClosest xorDistance (sampleInstance [contact4, contact7] 3 2)
        [contact2, contact7] "0000" = some kd) ∧
    ∀ kd, refreshClosest xorDistance (sampleInstance [contact4, contact7] 3 2)
        [contact2, contact7] "0000" = some kd →
      kd.closest ≠ [] ∧
      (((∃ c ∈ [contact2, contact7],
            c.Id ∉ (sampleInstance [contact4, contact7] 3 2).closest.map AddressTriple.Id) ∧
          firstId kd.closest ≠ firstId (sampleInstance [contact4, contact7] 3 2).closest) →
        kd.noCloserNodeCalls = 0) ∧
      (¬ ((∃ c ∈ [contact2, contact7],
            c.Id ∉ (sampleInstance [contact4, contact7] 3 2).closest.map AddressTriple.Id) ∧
          firstId kd.closest ≠ firstId (sampleInstance [contact4, contact7] 3 2).closest) →
        kd.noCloserNodeCalls
          = wrapInt ((sampleInstance [contact4, contact7] 3 2).noCloserNodeCalls + 1) ∧
        (minInt ≤ (sampleInstance [contact4, contact7] 3 2).noCloserNodeCalls →
          (sampleInstance [contact4, contact7] 3 2).noCloserNodeCalls < maxInt →
          kd.noCloserNodeCalls
            = (sampleInstance [contact4, contact7] 3 2).noCloserNodeCalls + 1) ∧
        ((sampleInstance [contact4, contact7] 3 2).noCloserNodeCalls = maxInt →
          kd.noCloserNodeCalls = minInt))) :=
  ⟨by decide,
    refreshClosest_stale_rule xorDistance (sampleInstance [contact4, contact7] 3 2)
      [contact2, contact7] "0000" (by decide)⟩

/-- C8: idempotence of the merge: for a non-empty `closest` and `newContacts`
whose identifiers all occur in `closest`, `refreshClosest` returns, leaves
`closest` as it was (same contacts, same order) and does not reset
`noCloserNodeCalls`: it becomes the previous value plus one as the `int` of the
source computes it (the mathematical sum for every previous value but the
largest `int`), which is 0 only if the previous value was -1. -/
theorem refreshClosest_idempotent (ComputeDistance : String → String → D)
    (kademlia : Kademlia) (newContacts : List AddressTriple) (target : String)
    (hne : kademlia.closest ≠ [])
    (hall : ∀ c ∈ newContacts, c.Id ∈ kademlia.closest.map AddressTriple.Id) :
    ∃ kd, refreshClosest ComputeDistance kademlia newContacts target = some kd ∧
      kd.closest = kademlia.closest ∧
      kd.noCloserNodeCalls = wrapInt (kademlia.noCloserNodeCalls + 1) ∧
      (minInt ≤ kademlia.noCloserNodeCalls → kademlia.noCloserNodeCalls < maxInt →
        kd.noCloserNodeCalls = kademlia.noCloserNodeCalls + 1) ∧
      (kademlia.noCloserNodeCalls = maxInt → kd.noCloserNodeCalls = minInt) ∧
      (minInt ≤ kademlia.noCloserNodeCalls → kademlia.noCloserNodeCalls ≤ maxInt →
        kd.noCloserNodeCalls = 0 → kademlia.noCloserNodeCalls = -1) := by
  refine ⟨_, refreshClosest_none_added ComputeDistance kademlia newContacts target hne hall,
    rfl, rfl, fun hlo hhi => wrapInt_succ _ hlo hhi,
    fun hmax => by simp only [hmax]; exact wrapInt_succ_maxInt,
    fun hlo hhi h => wrapInt_succ_eq_zero _ hlo hhi h⟩

theorem refreshClosest_idempotent_witness :
    (sampleInstance [contact7, contact1] 1 2).closest ≠ [] ∧
    (∀ c ∈ [contact1, contact7, contact1],
      c.Id ∈ (sampleInstance [contact7, contact1] 1 2).closest.map AddressTriple.Id) ∧
    ∃ kd, refreshClosest xorDistance (sampleInstance [contact7, contact1] 1 2)
        [contact1, contact7, contact1] "0000" = some kd ∧
      kd.closest = (sampleInstance [contact7, contact1] 1 2).closest ∧
      kd.noCloserNodeCalls
        = wrapInt ((sampleInstance [contact7, contact1] 1 2).noCloserNodeCalls + 1) ∧
      (minInt ≤ (sampleInstance [contact7, contact1] 1 2).noCloserNodeCalls →
        (sampleInstance [contact7, contact1] 1 2).noCloserNodeCalls < maxInt →
        kd.noCloserNodeCalls = (sampleInstance [contact7, contact1] 1 2).noCloserNodeCalls + 1) ∧
      ((sampleInstance [contact7, contact1] 1 2).noCloserNodeCalls = maxInt →
        kd.noCloserNodeCalls = minInt) ∧
      (minInt ≤ (sampleInstance [contact7, contact1] 1 2).noCloserNodeCalls →
        (sampleInstance [contact7, contact1] 1 2).noCloserNodeCalls ≤ maxInt →
        kd.noCloserNodeCalls = 0 →
        (sampleInstance [contact7, contact1] 1 2).noCloserNodeCalls = -1) :=
  ⟨by decide, by decide,
    refreshClosest_idempotent xorDistance (sampleInstance [contact7, contact1] 1 2)
      [contact1, contact7, contact1] "0000" (by decide) (by decide)⟩

/-- C10, as stated, fails: with `closest = [0111, 0001]` (not ascending for the
target `0000`) and the non-empty `newContacts = [0111]`, the merge adds nothing,
does not sort, and leaves `closest` not ascending. -/
theorem refreshClosest_sorted_counterexample :
    ∃ kd, refreshClosest xorDistance (sampleInstance [contact7, contact1] 20 0)
        [contact7] "0000" = some kd ∧
      kd.closest = [contact7, contact1] ∧
      ¬ SortedByDistance xorDistance "0000" kd.closest := by
  refine ⟨{ sampleInstance [contact7, contact1] 20 0 with noCloserNodeCalls := 1 },
    by decide, rfl, ?_⟩
  intro h
  have h0 := h 0 (by decide)
  revert h0
  decide

/-- C10, amended: for a non-empty `closest` in any order and any `newContacts`,
whenever the merge returns (it does for `k ≥ 1`): if some new contact had an
identifier absent from `closest`, then `closest` is ascending by distance to the
target afterwards; if none had, `closest` is left exactly as it was, so it is
ascending afterwards if it was before. -/
theorem refreshClosest_sorted_when_added (ComputeDistance : String → String → D)
    (kademlia : Kademlia) (newContacts : List AddressTriple) (target : String)
    (hne : kademlia.closest ≠ []) :
    (1 ≤ kademlia.k →
      ∃ kd, refreshClosest ComputeDistance kademlia newContacts target = some kd) ∧
    ∀ kd, refreshClosest ComputeDistance kademlia newContacts target = some kd →
      ((∃ c ∈ newContacts, c.Id ∉ kademlia.closest.map AddressTriple.Id) →
        SortedByDistance ComputeDistance target kd.closest) ∧
      ((∀ c ∈ newContacts, c.Id ∈ kademlia.closest.map AddressTriple.Id) →
        kd.closest = kademlia.closest) ∧
      (SortedByDistance ComputeDistance target kademlia.closest →
        SortedByDistance ComputeDistance target kd.closest) := by
  refine ⟨refreshClosest_returns ComputeDistance kademlia newContacts target hne, ?_⟩
  intro kd h
  obtain ⟨first, tail, _, hcase⟩ :=
    refreshClosest_cases ComputeDistance kademlia newContacts target kd h
  rcases hcase with ⟨hall, hkd⟩ | ⟨hex, f, rest, hm, hkd⟩
  · refine ⟨?_, ?_, ?_⟩
    · rintro ⟨c, hc, hnc⟩
      exact absurd (hall c hc) hnc
    · intro _; rw [hkd]
    · intro hs; rw [hkd]; exact hs
  · have hsorted : SortedByDistance ComputeDistance target kd.closest := by
      rw [hkd]
      have := mergedSorted_pairwise ComputeDistance kademlia newContacts target
      rw [hm] at this
      exact sortedByDistance_of_pairwise ComputeDistance target _ this
    refine ⟨fun _ => hsorted, ?_, fun _ => hsorted⟩
    intro hall
    obtain ⟨c, hc, hnc⟩ := hex
    exact absurd (hall c hc) hnc

theorem refreshClosest_sorted_when_added_witness :
    (sampleInstance [contact7, contact1] 20 0).closest ≠ [] ∧
    ((1 ≤ (sampleInstance [contact7, contact1] 20 0).k →
      ∃ kd, refreshClosest xorDistance (sampleInstance [contact7, contact1] 20 0)
        [contact4] "0000" = some kd) ∧
    ∀ kd, refreshClosest xorDistance (sampleInstance [contact7, contact1] 20 0)
        [contact4] "0000" = some kd →
      ((∃ c ∈ [contact4],
          c.Id ∉ (sampleInstance [contact7, contact1] 20 0).closest.map AddressTriple.Id) →
        SortedByDistance xorDistance "0000" kd.closest) ∧
      ((∀ c ∈ [contact4],
          c.Id ∈ (sampleInstance [contact7, contact1] 20 0).closest.map AddressTriple.Id) →
        kd.closest = (sampleInstance [contact7, contact1] 20 0).closest) ∧
      (SortedByDistance xorDistance "0000" (sampleInstance [contact7, contact1] 20 0).closest →
        SortedByDistance xorDistance "0000" kd.closest)) :=
  ⟨by decide,
    refreshClosest_sorted_when_added xorDistance (sampleInstance [contact7, contact1] 20 0)
      [contact4] "0000" (by decide)⟩

end RefreshClaims

/-! ## Claims on the dispatch and on the lookup as a whole -/

section EngineClaims

variable {D : Type} [LinearOrder D]

/-- C6: `getNextContact` selects the first unasked contact, `AlreadyAsked` being
membership in the asked list.  If some contact of `closest` is not in
`askedClosest`, the first such contact in the order of `closest` is returned and
appended (it alone) to `askedClosest`, and `askNextContact` enqueues the order
for it; if every contact of `closest` is in `askedClosest`, nil is returned,
the instance is unchanged and `askNextContact` enqueues nothing.  `closest` is
the same afterwards in both cases. -/
theorem getNextContact_first_unasked
    (AlreadyAsked : List AddressTriple → AddressTriple → Bool)
    (hAsked : ∀ l e, AlreadyAsked l e = true ↔ e ∈ l)
    (s : LookupState) (target : String) (lookupType : Int) :
    ((∃ x ∈ s.kademlia.closest, x ∉ s.kademlia.askedClosest) →
      ∃ pre e post, s.kademlia.closest = pre ++ e :: post ∧
        (∀ x ∈ pre, x ∈ s.kademlia.askedClosest) ∧ e ∉ s.kademlia.askedClosest ∧
        getNextContact AlreadyAsked s.kademlia
          = ({ s.kademlia with askedClosest := s.kademlia.askedClosest ++ [e] }, some e) ∧
        askNextContact AlreadyAsked s target lookupType
          = { s with
              kademlia := { s.kademlia with askedClosest := s.kademlia.askedClosest ++ [e] },
              lookupChannel := s.lookupChannel ++ [⟨lookupType, e, target⟩] }) ∧
    ((∀ x ∈ s.kademlia.closest, x ∈ s.kademlia.askedClosest) →
      getNextContact AlreadyAsked s.kademlia = (s.kademlia, none) ∧
      askNextContact AlreadyAsked s target lookupType = s) ∧
    (getNextContact AlreadyAsked s.kademlia).1.closest = s.kademlia.closest := by
  have hfalse : ∀ l e, AlreadyAsked l e = false ↔ e ∉ l := by
    intro l e
    rw [← hAsked]
    cases AlreadyAsked l e <;> simp
  rcases getNextContactLoop_cases AlreadyAsked s.kademlia s.kademlia.closest with
    ⟨hall, hres⟩ | ⟨pre, e, post, hsplit, hpre, he, hres⟩
  · have hall1 : ∀ x ∈ s.kademlia.closest, x ∈ s.kademlia.askedClosest :=
      fun x hx => (hAsked _ _).mp (hall x hx)
    have hget : getNextContact AlreadyAsked s.kademlia = (s.kademlia, none) := hres
    refine ⟨?_, ?_, by rw [hget]⟩
    · rintro ⟨x, hx, hnx⟩
      exact absurd (hall1 x hx) hnx
    · intro _
      refine ⟨hget, ?_⟩
      unfold askNextContact
      rw [hget]
  · have hget : getNextContact AlreadyAsked s.kademlia
        = ({ s.kademlia with askedClosest := s.kademlia.askedClosest ++ [e] }, some e) := hres
    have he1 : e ∉ s.kademlia.askedClosest := (hfalse _ _).mp he
    refine ⟨?_, ?_, by rw [hget]⟩
    · intro _
      refine ⟨pre, e, post, hsplit, fun x hx => (hAsked _ _).mp (hpre x hx), he1, hget, ?_⟩
      unfold askNextContact
      rw [hget]
    · intro hall
      have : e ∈ s.kademlia.closest := by rw [hsplit]; simp
      exact absurd (hall e this) he1

theorem getNextContact_first_unasked_witness :
    (∀ l e, askedByMembership l e = true ↔ e ∈ l) ∧
    (((∃ x ∈ [contact1, contact2, contact4], x ∉ [contact1, contact4]) →
      ∃ pre e post, [contact1, contact2, contact4] = pre ++ e :: post ∧
        (∀ x ∈ pre, x ∈ [contact1, contact4]) ∧ e ∉ [contact1, contact4] ∧
        getNextContact askedByMembership
            { sampleInstance [contact1, contact2, contact4] 20 0 with
              askedClosest := [contact1, contact4] }
          = ({ sampleInstance [contact1, contact2, contact4] 20 0 with
                askedClosest := [contact1, contact4] ++ [e] }, some e) ∧
        askNextContact askedByMembership
            { kademlia := { sampleInstance [contact1, contact2, contact4] 20 0 with
                askedClosest := [contact1, contact4] },
              lookupChannel := [], resultChannel := [] } "0000" CONTACT_LOOKUP
          = { kademlia := { sampleInstance [contact1, contact2, contact4] 20 0 with
                askedClosest := [contact1, contact4] ++ [e] },
              lookupChannel := [] ++ [⟨CONTACT_LOOKUP, e, "0000"⟩], resultChannel := [] }) ∧
    ((∀ x ∈ [contact1, contact2, contact4], x ∈ [contact1, contact4]) →
      getNextContact askedByMembership
          { sampleInstance [contact1, contact2, contact4] 20 0 with
            askedClosest := [contact1, contact4] }
        = ({ sampleInstance [contact1, contact2, contact4] 20 0 with
            askedClosest := [contact1, contact4] }, none) ∧
      askNextContact askedByMembership
          { kademlia := { sampleInstance [contact1, contact2, contact4] 20 0 with
              askedClosest := [contact1, contact4] },
            lookupChannel := [], resultChannel := [] } "0000" CONTACT_LOOKUP
        = { kademlia := { sampleInstance [contact1, contact2, contact4] 20 0 with
              askedClosest := [contact1, contact4] },
            lookupChannel := [], resultChannel := [] }) ∧
    (getNextContact askedByMembership
        { sampleInstance [contact1, contact2, contact4] 20 0 with
          askedClosest := [contact1, contact4] }).1.closest
      = [contact1, contact2, contact4]) :=
  ⟨fun l e => by simp [askedByMembership],
    getNextContact_first_unasked askedByMembership (fun l e => by simp [askedByMembership])
      { kademlia := { sampleInstance [contact1, contact2, contact4] 20 0 with
          askedClosest := [contact1, contact4] },
        lookupChannel := [], resultChannel := [] } "0000" CONTACT_LOOKUP⟩

/-- When the dispatch loop of `LookupContact` has ended before a worker
completes an order, no contact is dispatched twice: for a seed with pairwise
distinct identifiers the loop has marked the first `min(alpha, |seed|)`
contacts of the seed, and after any sequence of worker steps from there
`askedClosest` holds no contact twice (`AlreadyAsked` being any test that
answers true for a contact that is in the list). -/
theorem askedClosest_nodup_after_setup (ComputeDistance : String → String → D)
    (AlreadyAsked : List AddressTriple → AddressTriple → Bool)
    (hAsked : ∀ l e, e ∈ l → AlreadyAsked l e = true)
    (kademlia : Kademlia) (found : List (TripleAndDistance D)) (target : String)
    (lookupType : Int)
    (hseed : DistinctIds (found.map TripleAndDistance.Triple)) :
    (LookupContactInit kademlia found target lookupType).kademlia.askedClosest
        = (found.map TripleAndDistance.Triple).take kademlia.alpha.toNat ∧
    ∀ (schedule : List (Nat × Reply)) (s : LookupState),
      runWorkers ComputeDistance AlreadyAsked schedule
          (LookupContactInit kademlia found target lookupType) = some s →
        s.kademlia.askedClosest.Nodup := by
  have hinit := LookupContactInit_kademlia kademlia found target lookupType
  refine ⟨by rw [hinit], ?_⟩
  intro schedule s hrun
  refine runWorkers_invariant ComputeDistance AlreadyAsked (fun kd => kd.askedClosest.Nodup)
    ?_ ?_ ?_ ?_ schedule _ s ?_ hrun
  · intro kd newContacts t kd1 hkd h
    obtain ⟨first, tail, _, hcase⟩ := refreshClosest_cases ComputeDistance kd newContacts t kd1 h
    rcases hcase with ⟨_, hk⟩ | ⟨_, f, rest, _, hk⟩
    · rw [hk]; exact hkd
    · rw [hk]; exact hkd
  · intro kd hkd
    rcases getNextContactLoop_cases AlreadyAsked kd kd.closest with
      ⟨_, hres⟩ | ⟨pre, e, post, _, _, he, hres⟩
    · have hget : getNextContact AlreadyAsked kd = (kd, none) := hres
      rw [hget]; exact hkd
    · have hget : getNextContact AlreadyAsked kd
          = ({ kd with askedClosest := kd.askedClosest ++ [e] }, some e) := hres
      rw [hget]
      have hnot : e ∉ kd.askedClosest := by
        intro hin
        rw [hAsked _ _ hin] at he
        exact absurd he (by simp)
      show (kd.askedClosest ++ [e]).Nodup
      rw [List.nodup_append]
      refine ⟨hkd, List.nodup_singleton _, ?_⟩
      intro a ha hb
      rw [List.mem_singleton] at hb
      exact hnot (hb ▸ ha)
  · intro kd n hkd; exact hkd
  · intro kd g hkd; exact hkd
  · rw [hinit]
    show ((found.map TripleAndDistance.Triple).take kademlia.alpha.toNat).Nodup
    have hnd : (found.map TripleAndDistance.Triple).Nodup := by
      unfold DistinctIds at hseed
      exact List.Nodup.of_map _ hseed
    exact List.Nodup.sublist (List.take_sublist _ _) hnd

/-- C9: size bound.  In every state of a lookup whose seed holds at most `k`
contacts, `closest` holds at most `k` contacts (`k` staying the configured
value); and `refreshClosest`, whenever it returns, preserves `|closest| ≤ k` for
every list `newContacts`, however long.  This holds for every `k`, in
particular for every `k ≥ 1`. -/
theorem closest_length_le_k (ComputeDistance : String → String → D)
    (AlreadyAsked : List AddressTriple → AddressTriple → Bool)
    (kademlia : Kademlia) (found : List (TripleAndDistance D)) (target : String)
    (lookupType : Int) (hseed : (found.length : Int) ≤ kademlia.k) :
    (∀ (schedule : List (Nat × Reply)) (s : LookupState),
      runWorkers ComputeDistance AlreadyAsked schedule
          (LookupContactInit kademlia found target lookupType) = some s →
        (s.kademlia.closest.length : Int) ≤ kademlia.k ∧ s.kademlia.k = kademlia.k) ∧
    (∀ (kd kd1 : Kademlia) (newContacts : List AddressTriple) (t : String),
      (kd.closest.length : Int) ≤ kd.k →
      refreshClosest ComputeDistance kd newContacts t = some kd1 →
        (kd1.closest.length : Int) ≤ kd1.k ∧ kd1.k = kd.k) := by
  have hrefresh : ∀ (kd : Kademlia) (newContacts : List AddressTriple) (t : String)
      (kd1 : Kademlia), (kd.closest.length : Int) ≤ kd.k →
      refreshClosest ComputeDistance kd newContacts t = some kd1 →
        (kd1.closest.length : Int) ≤ kd1.k ∧ kd1.k = kd.k := by
    intro kd newContacts t kd1 hlen h
    obtain ⟨first, tail, _, hcase⟩ := refreshClosest_cases ComputeDistance kd newContacts t kd1 h
    rcases hcase with ⟨_, hkd⟩ | ⟨_, f, rest, hm, hkd⟩
    · rw [hkd]; exact ⟨hlen, rfl⟩
    · have hle := mergedSorted_length_le ComputeDistance kd newContacts t
      rw [hm] at hle
      rw [hkd]
      refine ⟨?_, rfl⟩
      show ((f :: rest).length : Int) ≤ kd.k
      have hpos : 1 ≤ (f :: rest).length := by simp
      omega
  refine ⟨?_, fun kd kd1 newContacts t hlen h => hrefresh kd newContacts t kd1 hlen h⟩
  intro schedule s hrun
  refine runWorkers_invariant ComputeDistance AlreadyAsked
    (fun kd => (kd.closest.length : Int) ≤ kademlia.k ∧ kd.k = kademlia.k)
    ?_ ?_ ?_ ?_ schedule _ s ?_ hrun
  · intro kd newContacts t kd1 hkd h
    have := hrefresh kd newContacts t kd1 (by rw [hkd.2]; exact hkd.1) h
    exact ⟨by rw [← hkd.2, ← this.2]; exact this.1, by rw [this.2]; exact hkd.2⟩
  · intro kd hkd
    rcases getNextContactLoop_cases AlreadyAsked kd kd.closest with
      ⟨_, hres⟩ | ⟨pre, e, post, _, _, _, hres⟩
    · have hget : getNextContact AlreadyAsked kd = (kd, none) := hres
      rw [hget]; exact hkd
    · have hget : getNextContact AlreadyAsked kd
          = ({ kd with askedClosest := kd.askedClosest ++ [e] }, some e) := hres
      rw [hget]; exact hkd
  · intro kd n hkd; exact hkd
  · intro kd g hkd; exact hkd
  · rw [LookupContactInit_kademlia]
    refine ⟨?_, rfl⟩
    show (((found.map TripleAndDistance.Triple).length : Nat) : Int) ≤ kademlia.k
    rw [List.length_map]
    exact hseed

theorem closest_length_le_k_witness :
    ((([⟨contact4, 4⟩, ⟨contact7, 7⟩] : List (TripleAndDistance Nat)).length : Nat) : Int)
      ≤ (sampleInstance [] 2 0).k ∧
    ((∀ (schedule : List (Nat × Reply)) (s : LookupState),
      runWorkers xorDistance askedByMembership schedule
          (LookupContactInit (sampleInstance [] 2 0)
            ([⟨contact4, 4⟩, ⟨contact7, 7⟩] : List (TripleAndDistance Nat))
            "0000" CONTACT_LOOKUP) = some s →
        (s.kademlia.closest.length : Int) ≤ (sampleInstance [] 2 0).k ∧
        s.kademlia.k = (sampleInstance [] 2 0).k) ∧
    (∀ (kd kd1 : Kademlia) (newContacts : List AddressTriple) (t : String),
      (kd.closest.length : Int) ≤ kd.k →
      refreshClosest xorDistance kd newContacts t = some kd1 →
        (kd1.closest.length : Int) ≤ kd1.k ∧ kd1.k = kd.k)) :=
  ⟨by decide,
    closest_length_le_k xorDistance askedByMembership (sampleInstance [] 2 0)
      [⟨contact4, 4⟩, ⟨contact7, 7⟩] "0000" CONTACT_LOOKUP (by decide)⟩

/-- C5, as stated, fails for an empty answer list: with `closest = [0001, 0010]`,
`askedClosest = [0001]`, `noCloserNodeCalls = 3` and `exitThreshold = 3`, an
empty answer raises the counter to 4, above the threshold, yet nothing is
written to the result channel and the order for `0010` is enqueued. -/
theorem handleContactAnswer_empty_counterexample :
    ∃ s1, handleContactAnswer xorDistance askedByMembership
        { kademlia := { sampleInstance [contact1, contact2] 20 3 with
            askedClosest := [contact1] },
          lookupChannel := [], resultChannel := [] }
        ⟨CONTACT_LOOKUP, contact1, "0000"⟩ [] = some s1 ∧
      s1.kademlia.noCloserNodeCalls = 4 ∧
      s1.kademlia.noCloserNodeCalls > s1.kademlia.exitThreshold ∧
      s1.resultChannel = [] ∧
      s1.lookupChannel = [⟨CONTACT_LOOKUP, contact2, "0000"⟩] :=
  ⟨_, rfl, by decide, by decide, by decide, by decide⟩

/-- C5, amended: the convergence test is made for a non-empty answer list only.
For a non-empty answer list, once `refreshClosest` has updated
`noCloserNodeCalls`: if it exceeds `exitThreshold`, `closest` is written to the
result channel and no order is dispatched (order queue and `askedClosest`
untouched); otherwise nothing is written and `askNextContact` dispatches the
next unasked contact.  For an empty answer list `noCloserNodeCalls` is
incremented (by `++` on an `int`), nothing is written to the result channel and `askNextContact`
dispatches the next unasked contact, whatever the counter.  The call returns
when the answer list is empty, or `closest` is non-empty and `k ≥ 1`. -/
theorem handleContactAnswer_decision (ComputeDistance : String → String → D)
    (AlreadyAsked : List AddressTriple → AddressTriple → Bool)
    (s : LookupState) (order : LookupOrder) (answerList : List AddressTriple) :
    ((answerList = [] ∨ (s.kademlia.closest ≠ [] ∧ 1 ≤ s.kademlia.k)) →
      ∃ s1, handleContactAnswer ComputeDistance AlreadyAsked s order answerList = some s1) ∧
    ∀ s1, handleContactAnswer ComputeDistance AlreadyAsked s order answerList = some s1 →
      (answerList ≠ [] →
        ∃ kd, refreshClosest ComputeDistance s.kademlia answerList order.Target = some kd ∧
          (kd.noCloserNodeCalls > kd.exitThreshold →
            s1 = { kademlia := kd, lookupChannel := s.lookupChannel,
                   resultChannel := s.resultChannel ++ [Answer.contacts kd.closest] }) ∧
          (¬ kd.noCloserNodeCalls > kd.exitThreshold →
            s1.resultChannel = s.resultChannel ∧
            s1 = askNextContact AlreadyAsked { s with kademlia := kd }
                  order.Target order.LookupType)) ∧
      (answerList = [] →
        s1.resultChannel = s.resultChannel ∧
        s1.kademlia.noCloserNodeCalls = wrapInt (s.kademlia.noCloserNodeCalls + 1) ∧
        (minInt ≤ s.kademlia.noCloserNodeCalls → s.kademlia.noCloserNodeCalls < maxInt →
          s1.kademlia.noCloserNodeCalls = s.kademlia.noCloserNodeCalls + 1) ∧
        s1 = askNextContact AlreadyAsked
              { s with kademlia :=
                { s.kademlia with noCloserNodeCalls := wrapInt (s.kademlia.noCloserNodeCalls + 1) } }
              order.Target order.LookupType) := by
  have hcounter : ∀ (kd : Kademlia),
      (getNextContact AlreadyAsked kd).1.noCloserNodeCalls = kd.noCloserNodeCalls := by
    intro kd
    rcases getNextContactLoop_cases AlreadyAsked kd kd.closest with
      ⟨_, hres⟩ | ⟨pre, e, post, _, _, _, hres⟩
    · have hget : getNextContact AlreadyAsked kd = (kd, none) := hres
      rw [hget]
    · have hget : getNextContact AlreadyAsked kd
          = ({ kd with askedClosest := kd.askedClosest ++ [e] }, some e) := hres
      rw [hget]
  by_cases hlen : answerList.length ≠ 0
  · have hne : answerList ≠ [] := fun h => hlen (by rw [h]; rfl)
    constructor
    · intro hor
      rcases hor with h | ⟨hc, hk⟩
      · exact absurd h hne
      · obtain ⟨kd, hkd⟩ :=
          refreshClosest_returns ComputeDistance s.kademlia answerList order.Target hc hk
        unfold handleContactAnswer
        rw [if_pos hlen, hkd]
        simp only [Option.bind_eq_bind, Option.some_bind]
        by_cases hthr : kd.noCloserNodeCalls > kd.exitThreshold
        · rw [if_pos hthr]; exact ⟨_, rfl⟩
        · rw [if_neg hthr]; exact ⟨_, rfl⟩
    · intro s1 h
      refine ⟨fun _ => ?_, fun h0 => absurd h0 hne⟩
      unfold handleContactAnswer at h
      rw [if_pos hlen] at h
      cases hr : refreshClosest ComputeDistance s.kademlia answerList order.Target with
      | none => rw [hr] at h; simp at h
      | some kd =>
        rw [hr] at h
        simp only [Option.bind_eq_bind, Option.some_bind] at h
        refine ⟨kd, rfl, ?_, ?_⟩
        · intro hthr
          rw [if_pos hthr] at h
          exact (Option.some.inj h).symm
        · intro hthr
          rw [if_neg hthr] at h
          have hs1 := (Option.some.inj h).symm
          refine ⟨?_, hs1⟩
          rw [hs1, askNextContact_resultChannel]
  · have hnil : answerList = [] := by
      cases answerList with
      | nil => rfl
      | cons a l => exact absurd (by simp) hlen
    have hval : handleContactAnswer ComputeDistance AlreadyAsked s order answerList
        = some (askNextContact AlreadyAsked
            { s with kademlia :=
              { s.kademlia with noCloserNodeCalls := wrapInt (s.kademlia.noCloserNodeCalls + 1) } }
            order.Target order.LookupType) := by
      unfold handleContactAnswer
      rw [if_neg hlen]
    constructor
    · intro _
      exact ⟨_, hval⟩
    · intro s1 h
      refine ⟨fun hne => absurd hnil hne, fun _ => ?_⟩
      rw [hval] at h
      have hs1 := (Option.some.inj h).symm
      have hcnt : s1.kademlia.noCloserNodeCalls
          = wrapInt (s.kademlia.noCloserNodeCalls + 1) := by
        rw [hs1, askNextContact_kademlia, hcounter]
      refine ⟨?_, hcnt, ?_, hs1⟩
      · rw [hs1, askNextContact_resultChannel]
      · intro hlo hhi
        rw [hcnt]
        exact wrapInt_succ _ hlo hhi

theorem handleContactAnswer_decision_witness :
    (([contact4] : List AddressTriple) = [] ∨
      ((sampleState [contact4, contact7] [contact4] 20 3).kademlia.closest ≠ [] ∧
        1 ≤ (sampleState [contact4, contact7] [contact4] 20 3).kademlia.k)) ∧
    (((([contact4] : List AddressTriple) = [] ∨
        ((sampleState [contact4, contact7] [contact4] 20 3).kademlia.closest ≠ [] ∧
          1 ≤ (sampleState [contact4, contact7] [contact4] 20 3).kademlia.k)) →
      ∃ s1, handleContactAnswer xorDistance askedByMembership
        (sampleState [contact4, contact7] [contact4] 20 3)
        ⟨CONTACT_LOOKUP, contact4, "0000"⟩ [contact4] = some s1) ∧
    ∀ s1, handleContactAnswer xorDistance askedByMembership
        (sampleState [contact4, contact7] [contact4] 20 3)
        ⟨CONTACT_LOOKUP, contact4, "0000"⟩ [contact4] = some s1 →
      (([contact4] : List AddressTriple) ≠ [] →
        ∃ kd, refreshClosest xorDistance
            (sampleState [contact4, contact7] [contact4] 20 3).kademlia [contact4]
            (LookupOrder.mk CONTACT_LOOKUP contact4 "0000").Target = some kd ∧
          (kd.noCloserNodeCalls > kd.exitThreshold →
            s1 = { kademlia := kd,
                   lookupChannel := (sampleState [contact4, contact7] [contact4] 20 3).lookupChannel,
                   resultChannel :=
                     (sampleState [contact4, contact7] [contact4] 20 3).resultChannel
                       ++ [Answer.contacts kd.closest] }) ∧
          (¬ kd.noCloserNodeCalls > kd.exitThreshold →
            s1.resultChannel = (sampleState [contact4, contact7] [contact4] 20 3).resultChannel ∧
            s1 = askNextContact askedByMembership
                  { sampleState [contact4, contact7] [contact4] 20 3 with kademlia := kd }
                  (LookupOrder.mk CONTACT_LOOKUP contact4 "0000").Target
                  (LookupOrder.mk CONTACT_LOOKUP contact4 "0000").LookupType)) ∧
      (([contact4] : List AddressTriple) = [] →
        s1.resultChannel = (sampleState [contact4, contact7] [contact4] 20 3).resultChannel ∧
        s1.kademlia.noCloserNodeCalls
          = wrapInt
              ((sampleState [contact4, contact7] [contact4] 20 3).kademlia.noCloserNodeCalls
                + 1) ∧
        (minInt ≤ (sampleState [contact4, contact7] [contact4] 20 3).kademlia.noCloserNodeCalls →
          (sampleState [contact4, contact7] [contact4] 20 3).kademlia.noCloserNodeCalls < maxInt →
          s1.kademlia.noCloserNodeCalls
            = (sampleState [contact4, contact7] [contact4] 20 3).kademlia.noCloserNodeCalls
              + 1) ∧
        s1 = askNextContact askedByMembership
              { sampleState [contact4, contact7] [contact4] 20 3 with kademlia :=
                { (sampleState [contact4, contact7] [contact4] 20 3).kademlia with
                  noCloserNodeCalls := wrapInt
                    ((sampleState [contact4, contact7] [contact4] 20 3).kademlia.noCloserNodeCalls
                      + 1) } }
              (LookupOrder.mk CONTACT_LOOKUP contact4 "0000").Target
              (LookupOrder.mk CONTACT_LOOKUP contact4 "0000").LookupType)) :=
  ⟨Or.inr ⟨by decide, by decide⟩,
    handleContactAnswer_decision xorDistance askedByMembership
      (sampleState [contact4, contact7] [contact4] 20 3)
      ⟨CONTACT_LOOKUP, contact4, "0000"⟩ [contact4]⟩

end EngineClaims

/-! ## Order of contacts at equal distance -/

section TieLemmas

variable {D : Type} [LinearOrder D]

/-- Inserting `b` puts it in front of the contacts at its own distance. -/
theorem filter_orderedInsert (ComputeDistance : String → String → D) (target : String)
    (d : D) (b : AddressTriple) :
    ∀ (l : List AddressTriple),
      (List.orderedInsert (distLE ComputeDistance target) b l).filter
          (fun c => decide (ComputeDistance c.Id target = d))
        = (if ComputeDistance b.Id target = d then [b] else []) ++
            l.filter (fun c => decide (ComputeDistance c.Id target = d)) := by
  intro l
  induction l with
  | nil =>
    by_cases hb : ComputeDistance b.Id target = d <;> simp [List.orderedInsert, hb]
  | cons c l ih =>
    by_cases hle : distLE ComputeDistance target b c
    · rw [List.orderedInsert, if_pos hle]
      by_cases hb : ComputeDistance b.Id target = d <;> simp [List.filter_cons, hb]
    · rw [List.orderedInsert, if_neg hle, List.filter_cons, ih]
      have hlt : ComputeDistance c.Id target < ComputeDistance b.Id target :=
        lt_of_not_ge hle
      by_cases hb : ComputeDistance b.Id target = d
      · have hc : ¬ ComputeDistance c.Id target = d := by
          intro hc
          rw [hb, hc] at hlt
          exact lt_irrefl _ hlt
        simp [List.filter_cons, hb, hc]
      · simp [List.filter_cons, hb]

/-- The insertion sort keeps the order of the contacts at one distance. -/
theorem filter_insertionSort (ComputeDistance : String → String → D) (target : String)
    (d : D) :
    ∀ (l : List AddressTriple),
      (List.insertionSort (distLE ComputeDistance target) l).filter
          (fun c => decide (ComputeDistance c.Id target = d))
        = l.filter (fun c => decide (ComputeDistance c.Id target = d)) := by
  intro l
  induction l with
  | nil => rfl
  | cons b l ih =>
    rw [List.insertionSort, filter_orderedInsert, ih, List.filter_cons]
    by_cases hb : ComputeDistance b.Id target = d <;> simp [hb]

theorem filter_take_prefix {α : Type} (p : α → Bool) (n : Nat) (l : List α) :
    List.IsPrefix ((l.take n).filter p) (l.filter p) := by
  refine ⟨(l.drop n).filter p, ?_⟩
  rw [← List.filter_append, List.take_append_drop]

end TieLemmas

/-! ## More on worker steps -/

section StepLemmas

variable {D : Type} [LinearOrder D]

/-- What `askNextContact` does when `AlreadyAsked` is membership. -/
theorem askNextContact_cases (AlreadyAsked : List AddressTriple → AddressTriple → Bool)
    (hAsked : ∀ l e, AlreadyAsked l e = true ↔ e ∈ l)
    (s : LookupState) (target : String) (lookupType : Int) :
    (∃ pre e post, s.kademlia.closest = pre ++ e :: post ∧
        (∀ x ∈ pre, x ∈ s.kademlia.askedClosest) ∧ e ∉ s.kademlia.askedClosest ∧
        askNextContact AlreadyAsked s target lookupType
          = { s with
              kademlia := { s.kademlia with askedClosest := s.kademlia.askedClosest ++ [e] },
              lookupChannel := s.lookupChannel ++ [⟨lookupType, e, target⟩] }) ∨
    ((∀ x ∈ s.kademlia.closest, x ∈ s.kademlia.askedClosest) ∧
      askNextContact AlreadyAsked s target lookupType = s) := by
  rcases getNextContactLoop_cases AlreadyAsked s.kademlia s.kademlia.closest with
    ⟨hall, hres⟩ | ⟨pre, e, post, hsplit, hpre, he, hres⟩
  · right
    have hget : getNextContact AlreadyAsked s.kademlia = (s.kademlia, none) := hres
    refine ⟨fun x hx => (hAsked _ _).mp (hall x hx), ?_⟩
    unfold askNextContact
    rw [hget]
  · left
    have hget : getNextContact AlreadyAsked s.kademlia
        = ({ s.kademlia with askedClosest := s.kademlia.askedClosest ++ [e] }, some e) := hres
    have he1 : e ∉ s.kademlia.askedClosest := by
      intro hin
      rw [(hAsked _ _).mpr hin] at he
      exact absurd he (by simp)
    refine ⟨pre, e, post, hsplit, fun x hx => (hAsked _ _).mp (hpre x hx), he1, ?_⟩
    unfold askNextContact
    rw [hget]

theorem LookupWorkerFinish_lookupChannel (s : LookupState) (order : LookupOrder) :
    (LookupWorkerFinish s order).lookupChannel = s.lookupChannel := by
  unfold LookupWorkerFinish
  simp only
  split <;> rfl

/-- The end of an iteration leaves the result channel alone or appends
`closest` to it. -/
theorem LookupWorkerFinish_resultChannel (s : LookupState) (order : LookupOrder) :
    (LookupWorkerFinish s order).resultChannel = s.resultChannel ∨
    (LookupWorkerFinish s order).resultChannel
      = s.resultChannel ++ [Answer.contacts s.kademlia.closest] := by
  unfold LookupWorkerFinish
  simp only
  split
  · right; rfl
  · left; rfl

/-- With a value already in the result channel the end of an iteration sends
nothing. -/
theorem LookupWorkerFinish_resultChannel_nonempty (s : LookupState) (order : LookupOrder)
    (h : s.resultChannel ≠ []) :
    (LookupWorkerFinish s order).resultChannel = s.resultChannel := by
  unfold LookupWorkerFinish
  simp only
  split
  · rename_i hc
    exact absurd (List.length_eq_zero.mp hc.2.1) h
  · rfl

/-- `handleContactAnswer` returns when `closest` is not empty and `k ≥ 1`. -/
theorem handleContactAnswer_returns (ComputeDistance : String → String → D)
    (AlreadyAsked : List AddressTriple → AddressTriple → Bool)
    (s : LookupState) (order : LookupOrder) (answerList : List AddressTriple)
    (hne : s.kademlia.closest ≠ []) (hk : 1 ≤ s.kademlia.k) :
    ∃ s1, handleContactAnswer ComputeDistance AlreadyAsked s order answerList = some s1 := by
  unfold handleContactAnswer
  by_cases hlen : answerList.length ≠ 0
  · rw [if_pos hlen]
    obtain ⟨kd, hkd⟩ :=
      refreshClosest_returns ComputeDistance s.kademlia answerList order.Target hne hk
    rw [hkd]
    simp only [Option.bind_eq_bind, Option.some_bind]
    split <;> exact ⟨_, rfl⟩
  · rw [if_neg hlen]
    exact ⟨_, rfl⟩

/-- An iteration of a worker returns when `closest` is not empty and `k ≥ 1`. -/
theorem LookupWorkerStep_returns (ComputeDistance : String → String → D)
    (AlreadyAsked : List AddressTriple → AddressTriple → Bool)
    (s : LookupState) (order : LookupOrder) (reply : Reply)
    (hne : s.kademlia.closest ≠ []) (hk : 1 ≤ s.kademlia.k) :
    ∃ s1, LookupWorkerStep ComputeDistance AlreadyAsked s order reply = some s1 := by
  have hh := handleContactAnswer_returns ComputeDistance AlreadyAsked s order reply.contacts
    hne hk
  have hsw : ∃ t, LookupWorkerSwitch ComputeDistance AlreadyAsked s order reply = some t := by
    unfold LookupWorkerSwitch
    by_cases hc : order.LookupType = CONTACT_LOOKUP
    · rw [if_pos hc]
      by_cases herr : reply.err = false
      · rw [if_pos herr]; exact hh
      · rw [if_neg herr]; exact ⟨_, rfl⟩
    · rw [if_neg hc]
      by_cases hdl : order.LookupType = DATA_LOOKUP
      · rw [if_pos hdl]
        by_cases herr : reply.err = false
        · rw [if_pos herr]
          cases hdata : reply.data with
          | some data => exact ⟨_, rfl⟩
          | none => exact hh
        · rw [if_neg herr]; exact ⟨_, rfl⟩
      · rw [if_neg hdl]; exact ⟨_, rfl⟩
  obtain ⟨t, ht⟩ := hsw
  unfold LookupWorkerStep
  rw [ht]
  exact ⟨_, rfl⟩

/-- The switch of a worker leaves the result channel alone or appends one value
to it. -/
theorem LookupWorkerSwitch_resultChannel (ComputeDistance : String → String → D)
    (AlreadyAsked : List AddressTriple → AddressTriple → Bool)
    (s : LookupState) (order : LookupOrder) (reply : Reply) (t : LookupState)
    (h : LookupWorkerSwitch ComputeDistance AlreadyAsked s order reply = some t) :
    ∃ extra, t.resultChannel = s.resultChannel ++ extra := by
  have hask : ∀ (u : LookupState) (target : String) (lt : Int),
      u.resultChannel = s.resultChannel →
      ∃ extra, (askNextContact AlreadyAsked u target lt).resultChannel
        = s.resultChannel ++ extra := by
    intro u target lt hu
    exact ⟨[], by rw [askNextContact_resultChannel, hu, List.append_nil]⟩
  have hhandle : ∀ (answerList : List AddressTriple) (u : LookupState),
      handleContactAnswer ComputeDistance AlreadyAsked s order answerList = some u →
      ∃ extra, u.resultChannel = s.resultChannel ++ extra := by
    intro answerList u hu
    unfold handleContactAnswer at hu
    by_cases hlen : answerList.length ≠ 0
    · rw [if_pos hlen] at hu
      cases hr : refreshClosest ComputeDistance s.kademlia answerList order.Target with
      | none => rw [hr] at hu; simp at hu
      | some kd =>
        rw [hr] at hu
        simp only [Option.bind_eq_bind, Option.some_bind] at hu
        by_cases hthr : kd.noCloserNodeCalls > kd.exitThreshold
        · rw [if_pos hthr] at hu
          rw [← Option.some.inj hu]
          exact ⟨_, rfl⟩
        · rw [if_neg hthr] at hu
          rw [← Option.some.inj hu]
          exact hask _ _ _ rfl
    · rw [if_neg hlen] at hu
      rw [← Option.some.inj hu]
      exact hask _ _ _ rfl
  unfold LookupWorkerSwitch at h
  by_cases hc : order.LookupType = CONTACT_LOOKUP
  · rw [if_pos hc] at h
    by_cases herr : reply.err = false
    · rw [if_pos herr] at h
      exact hhandle _ t h
    · rw [if_neg herr] at h
      rw [← Option.some.inj h]
      exact hask s _ _ rfl
  · rw [if_neg hc] at h
    by_cases hdl : order.LookupType = DATA_LOOKUP
    · rw [if_pos hdl] at h
      by_cases herr : reply.err = false
      · rw [if_pos herr] at h
        cases hdata : reply.data with
        | some data =>
          rw [hdata] at h
          rw [← Option.some.inj h]
          exact ⟨_, rfl⟩
        | none =>
          rw [hdata] at h
          exact hhandle _ t h
      · rw [if_neg herr] at h
        rw [← Option.some.inj h]
        exact hask s _ _ rfl
    · rw [if_neg hdl] at h
      rw [← Option.some.inj h]
      exact ⟨[], by rw [List.append_nil]⟩

/-- Worker steps only append to the result channel. -/
theorem runWorkers_resultChannel (ComputeDistance : String → String → D)
    (AlreadyAsked : List AddressTriple → AddressTriple → Bool) :
    ∀ (schedule : List (Nat × Reply)) (s s1 : LookupState),
      runWorkers ComputeDistance AlreadyAsked schedule s = some s1 →
      ∃ extra, s1.resultChannel = s.resultChannel ++ extra := by
  intro schedule
  induction schedule with
  | nil =>
    intro s s1 h
    simp only [runWorkers] at h
    rw [← Option.some.inj h]
    exact ⟨[], by rw [List.append_nil]⟩
  | cons ev rest ih =>
    intro s s1 h
    obtain ⟨i, reply⟩ := ev
    simp only [runWorkers, Option.bind_eq_bind] at h
    cases hw : workerStep ComputeDistance AlreadyAsked s i reply with
    | none => rw [hw] at h; simp at h
    | some t =>
      rw [hw] at h
      simp only [Option.some_bind] at h
      obtain ⟨extra2, h2⟩ := ih t s1 h
      unfold workerStep at hw
      cases ho : s.lookupChannel[i]? with
      | none => rw [ho] at hw; simp at hw
      | some order =>
        rw [ho] at hw
        simp only [Option.bind_eq_bind, Option.some_bind] at hw
        unfold LookupWorkerStep at hw
        cases hsw : LookupWorkerSwitch ComputeDistance AlreadyAsked
            { s with lookupChannel := s.lookupChannel.eraseIdx i } order reply with
        | none => rw [hsw] at hw; simp at hw
        | some u =>
          rw [hsw] at hw
          simp only [Option.bind_eq_bind, Option.some_bind] at hw
          obtain ⟨extra1, h1⟩ := LookupWorkerSwitch_resultChannel ComputeDistance AlreadyAsked
            _ order reply u hsw
          have ht : t.resultChannel = u.resultChannel ∨
              t.resultChannel = u.resultChannel ++ [Answer.contacts u.kademlia.closest] := by
            rw [← Option.some.inj hw]
            exact LookupWorkerFinish_resultChannel u order
          rcases ht with ht | ht
          · exact ⟨extra1 ++ extra2, by rw [h2, ht, h1]; simp⟩
          · exact ⟨extra1 ++ [Answer.contacts u.kademlia.closest] ++ extra2, by
              rw [h2, ht, h1]; simp⟩

theorem runWorkers_append (ComputeDistance : String → String → D)
    (AlreadyAsked : List AddressTriple → AddressTriple → Bool) :
    ∀ (a b : List (Nat × Reply)) (s : LookupState),
      runWorkers ComputeDistance AlreadyAsked (a ++ b) s
        = (runWorkers ComputeDistance AlreadyAsked a s).bind
            (runWorkers ComputeDistance AlreadyAsked b) := by
  intro a
  induction a with
  | nil => intro b s; rfl
  | cons ev rest ih =>
    intro b s
    obtain ⟨i, reply⟩ := ev
    simp only [List.cons_append, runWorkers, Option.bind_eq_bind]
    cases workerStep ComputeDistance AlreadyAsked s i reply with
    | none => rfl
    | some t => simp only [Option.some_bind]; exact ih b t

theorem askNextContact_lookupChannel (AlreadyAsked : List AddressTriple → AddressTriple → Bool)
    (u : LookupState) (target : String) (lookupType : Int) :
    (askNextContact AlreadyAsked u target lookupType).lookupChannel = u.lookupChannel ∨
    ∃ e, (askNextContact AlreadyAsked u target lookupType).lookupChannel
      = u.lookupChannel ++ [⟨lookupType, e, target⟩] := by
  unfold askNextContact
  split
  · rename_i kd e _
    right; exact ⟨e, rfl⟩
  · left; rfl

/-- The switch of a worker leaves the order queue alone or appends one order,
of the type and for the target of the order being served. -/
theorem LookupWorkerSwitch_lookupChannel (ComputeDistance : String → String → D)
    (AlreadyAsked : List AddressTriple → AddressTriple → Bool)
    (s : LookupState) (order : LookupOrder) (reply : Reply) (t : LookupState)
    (h : LookupWorkerSwitch ComputeDistance AlreadyAsked s order reply = some t) :
    t.lookupChannel = s.lookupChannel ∨
    ∃ e, t.lookupChannel = s.lookupChannel ++ [⟨order.LookupType, e, order.Target⟩] := by
  have hhandle : ∀ (answerList : List AddressTriple) (u : LookupState),
      handleContactAnswer ComputeDistance AlreadyAsked s order answerList = some u →
      u.lookupChannel = s.lookupChannel ∨
      ∃ e, u.lookupChannel = s.lookupChannel ++ [⟨order.LookupType, e, order.Target⟩] := by
    intro answerList u hu
    unfold handleContactAnswer at hu
    by_cases hlen : answerList.length ≠ 0
    · rw [if_pos hlen] at hu
      cases hr : refreshClosest ComputeDistance s.kademlia answerList order.Target with
      | none => rw [hr] at hu; simp at hu
      | some kd =>
        rw [hr] at hu
        simp only [Option.bind_eq_bind, Option.some_bind] at hu
        by_cases hthr : kd.noCloserNodeCalls > kd.exitThreshold
        · rw [if_pos hthr] at hu
          rw [← Option.some.inj hu]
          left; rfl
        · rw [if_neg hthr] at hu
          rw [← Option.some.inj hu]
          exact askNextContact_lookupChannel AlreadyAsked _ _ _
    · rw [if_neg hlen] at hu
      rw [← Option.some.inj hu]
      exact askNextContact_lookupChannel AlreadyAsked _ _ _
  unfold LookupWorkerSwitch at h
  by_cases hc : order.LookupType = CONTACT_LOOKUP
  · rw [if_pos hc] at h
    by_cases herr : reply.err = false
    · rw [if_pos herr] at h
      exact hhandle _ t h
    · rw [if_neg herr] at h
      rw [← Option.some.inj h]
      exact askNextContact_lookupChannel AlreadyAsked _ _ _
  · rw [if_neg hc] at h
    by_cases hdl : order.LookupType = DATA_LOOKUP
    · rw [if_pos hdl] at h
      by_cases herr : reply.err = false
      · rw [if_pos herr] at h
        cases hdata : reply.data with
        | some data =>
          rw [hdata] at h
          rw [← Option.some.inj h]
          left; rfl
        | none =>
          rw [hdata] at h
          exact hhandle _ t h
      · rw [if_neg herr] at h
        rw [← Option.some.inj h]
        exact askNextContact_lookupChannel AlreadyAsked _ _ _
    · rw [if_neg hdl] at h
      rw [← Option.some.inj h]
      left; rfl

/-- Every order a lookup ever queues carries the type and the target of the
orders queued so far. -/
theorem runWorkers_orders (ComputeDistance : String → String → D)
    (AlreadyAsked : List AddressTriple → AddressTriple → Bool)
    (lookupType : Int) (target : String) :
    ∀ (schedule : List (Nat × Reply)) (s s1 : LookupState),
      (∀ o ∈ s.lookupChannel, o.LookupType = lookupType ∧ o.Target = target) →
      runWorkers ComputeDistance AlreadyAsked schedule s = some s1 →
      ∀ o ∈ s1.lookupChannel, o.LookupType = lookupType ∧ o.Target = target := by
  intro schedule
  induction schedule with
  | nil =>
    intro s s1 hq h
    simp only [runWorkers] at h
    rw [← Option.some.inj h]; exact hq
  | cons ev rest ih =>
    intro s s1 hq h
    obtain ⟨i, reply⟩ := ev
    simp only [runWorkers, Option.bind_eq_bind] at h
    cases hw : workerStep ComputeDistance AlreadyAsked s i reply with
    | none => rw [hw] at h; simp at h
    | some t =>
      rw [hw] at h
      simp only [Option.some_bind] at h
      apply ih t s1 _ h
      unfold workerStep at hw
      cases ho : s.lookupChannel[i]? with
      | none => rw [ho] at hw; simp at hw
      | some order =>
        rw [ho] at hw
        simp only [Option.bind_eq_bind, Option.some_bind] at hw
        have hord : order.LookupType = lookupType ∧ order.Target = target :=
          hq order (List.getElem?_mem ho)
        have herase : ∀ o ∈ s.lookupChannel.eraseIdx i,
            o.LookupType = lookupType ∧ o.Target = target :=
          fun o hmem => hq o ((List.eraseIdx_sublist _ _).subset hmem)
        unfold LookupWorkerStep at hw
        cases hsw : LookupWorkerSwitch ComputeDistance AlreadyAsked
            { s with lookupChannel := s.lookupChannel.eraseIdx i } order reply with
        | none => rw [hsw] at hw; simp at hw
        | some u =>
          rw [hsw] at hw
          simp only [Option.bind_eq_bind, Option.some_bind] at hw
          rw [← Option.some.inj hw, LookupWorkerFinish_lookupChannel]
          rcases LookupWorkerSwitch_lookupChannel ComputeDistance AlreadyAsked _ order reply u
            hsw with hu | ⟨e, hu⟩
          · rw [hu]; exact herase
          · rw [hu]
            intro o hmem
            rcases List.mem_append.mp hmem with hmem | hmem
            · exact herase o hmem
            · rw [List.mem_singleton] at hmem
              rw [hmem]
              exact hord

/-- `askNextContact` keeps every queued contact among the asked ones. -/
theorem askNextContact_queued_asked (AlreadyAsked : List AddressTriple → AddressTriple → Bool)
    (u : LookupState) (target : String) (lookupType : Int)
    (h : ∀ o ∈ u.lookupChannel, o.Contact ∈ u.kademlia.askedClosest) :
    ∀ o ∈ (askNextContact AlreadyAsked u target lookupType).lookupChannel,
      o.Contact ∈ (askNextContact AlreadyAsked u target lookupType).kademlia.askedClosest := by
  rcases getNextContactLoop_cases AlreadyAsked u.kademlia u.kademlia.closest with
    ⟨_, hres⟩ | ⟨pre, e, post, _, _, _, hres⟩
  · have hget : getNextContact AlreadyAsked u.kademlia = (u.kademlia, none) := hres
    have hask : askNextContact AlreadyAsked u target lookupType = u := by
      unfold askNextContact
      rw [hget]
    rw [hask]
    exact h
  · have hget : getNextContact AlreadyAsked u.kademlia
        = ({ u.kademlia with askedClosest := u.kademlia.askedClosest ++ [e] }, some e) := hres
    have hask : askNextContact AlreadyAsked u target lookupType
        = { u with
            kademlia := { u.kademlia with askedClosest := u.kademlia.askedClosest ++ [e] },
            lookupChannel := u.lookupChannel ++ [⟨lookupType, e, target⟩] } := by
      unfold askNextContact
      rw [hget]
    rw [hask]
    intro o ho
    show o.Contact ∈ u.kademlia.askedClosest ++ [e]
    rcases List.mem_append.mp ho with ho | ho
    · exact List.mem_append_left _ (h o ho)
    · rw [List.mem_singleton] at ho
      rw [ho]
      exact List.mem_append_right _ (List.mem_singleton_self e)

/-- In a lookup every queued order is for a contact that is in `askedClosest`:
the set-up queues the contacts it marks as asked, and worker steps keep it
so. -/
theorem runWorkers_queued_asked (ComputeDistance : String → String → D)
    (AlreadyAsked : List AddressTriple → AddressTriple → Bool) :
    ∀ (schedule : List (Nat × Reply)) (s s1 : LookupState),
      (∀ o ∈ s.lookupChannel, o.Contact ∈ s.kademlia.askedClosest) →
      runWorkers ComputeDistance AlreadyAsked schedule s = some s1 →
      ∀ o ∈ s1.lookupChannel, o.Contact ∈ s1.kademlia.askedClosest := by
  have hhandle : ∀ (u : LookupState) (order : LookupOrder) (answerList : List AddressTriple)
      (t : LookupState), (∀ o ∈ u.lookupChannel, o.Contact ∈ u.kademlia.askedClosest) →
      handleContactAnswer ComputeDistance AlreadyAsked u order answerList = some t →
      ∀ o ∈ t.lookupChannel, o.Contact ∈ t.kademlia.askedClosest := by
    intro u order answerList t hu ht
    unfold handleContactAnswer at ht
    by_cases hlen : answerList.length ≠ 0
    · rw [if_pos hlen] at ht
      cases hr : refreshClosest ComputeDistance u.kademlia answerList order.Target with
      | none => rw [hr] at ht; simp at ht
      | some kd =>
        rw [hr] at ht
        simp only [Option.bind_eq_bind, Option.some_bind] at ht
        have hkd : kd.askedClosest = u.kademlia.askedClosest := by
          obtain ⟨first, tail, _, hcase⟩ :=
            refreshClosest_cases ComputeDistance u.kademlia answerList order.Target kd hr
          rcases hcase with ⟨_, hk⟩ | ⟨_, f, rest, _, hk⟩
          · rw [hk]
          · rw [hk]
        have hu1 : ∀ o ∈ u.lookupChannel, o.Contact ∈ kd.askedClosest := by
          rw [hkd]; exact hu
        by_cases hthr : kd.noCloserNodeCalls > kd.exitThreshold
        · rw [if_pos hthr] at ht
          rw [← Option.some.inj ht]
          exact hu1
        · rw [if_neg hthr] at ht
          rw [← Option.some.inj ht]
          exact askNextContact_queued_asked AlreadyAsked _ _ _ hu1
    · rw [if_neg hlen] at ht
      rw [← Option.some.inj ht]
      exact askNextContact_queued_asked AlreadyAsked _ _ _ hu
  have hswitch : ∀ (u : LookupState) (order : LookupOrder) (reply : Reply) (t : LookupState),
      (∀ o ∈ u.lookupChannel, o.Contact ∈ u.kademlia.askedClosest) →
      LookupWorkerSwitch ComputeDistance AlreadyAsked u order reply = some t →
      ∀ o ∈ t.lookupChannel, o.Contact ∈ t.kademlia.askedClosest := by
    intro u order reply t hu ht
    unfold LookupWorkerSwitch at ht
    by_cases hc : order.LookupType = CONTACT_LOOKUP
    · rw [if_pos hc] at ht
      by_cases herr : reply.err = false
      · rw [if_pos herr] at ht
        exact hhandle u order _ t hu ht
      · rw [if_neg herr] at ht
        rw [← Option.some.inj ht]
        exact askNextContact_queued_asked AlreadyAsked _ _ _ hu
    · rw [if_neg hc] at ht
      by_cases hdl : order.LookupType = DATA_LOOKUP
      · rw [if_pos hdl] at ht
        by_cases herr : reply.err = false
        · rw [if_pos herr] at ht
          cases hdata : reply.data with
          | some data =>
            rw [hdata] at ht
            rw [← Option.some.inj ht]
            exact hu
          | none =>
            rw [hdata] at ht
            exact hhandle u order _ t hu ht
        · rw [if_neg herr] at ht
          rw [← Option.some.inj ht]
          exact askNextContact_queued_asked AlreadyAsked _ _ _ hu
      · rw [if_neg hdl] at ht
        rw [← Option.some.inj ht]
        exact hu
  intro schedule
  induction schedule with
  | nil =>
    intro s s1 hq h
    simp only [runWorkers] at h
    rw [← Option.some.inj h]; exact hq
  | cons ev rest ih =>
    intro s s1 hq h
    obtain ⟨i, reply⟩ := ev
    simp only [runWorkers, Option.bind_eq_bind] at h
    cases hw : workerStep ComputeDistance AlreadyAsked s i reply with
    | none => rw [hw] at h; simp at h
    | some t =>
      rw [hw] at h
      simp only [Option.some_bind] at h
      apply ih t s1 _ h
      unfold workerStep at hw
      cases ho : s.lookupChannel[i]? with
      | none => rw [ho] at hw; simp at hw
      | some order =>
        rw [ho] at hw
        simp only [Option.bind_eq_bind, Option.some_bind] at hw
        unfold LookupWorkerStep at hw
        cases hsw : LookupWorkerSwitch ComputeDistance AlreadyAsked
            { s with lookupChannel := s.lookupChannel.eraseIdx i } order reply with
        | none => rw [hsw] at hw; simp at hw
        | some u =>
          rw [hsw] at hw
          simp only [Option.bind_eq_bind, Option.some_bind] at hw
          rw [← Option.some.inj hw, LookupWorkerFinish_lookupChannel,
            LookupWorkerFinish_kademlia]
          have herase : ∀ o ∈ s.lookupChannel.eraseIdx i,
              o.Contact ∈ s.kademlia.askedClosest :=
            fun o hmem => hq o ((List.eraseIdx_sublist _ _).subset hmem)
          exact hswitch { s with lookupChannel := s.lookupChannel.eraseIdx i } order reply u
            herase hsw

/-- In every state of a lookup, every queued order is for a contact that is in
`askedClosest`. -/
theorem lookup_queued_asked (ComputeDistance : String → String → D)
    (AlreadyAsked : List AddressTriple → AddressTriple → Bool)
    (kademlia : Kademlia) (found : List (TripleAndDistance D)) (target : String)
    (lookupType : Int) (schedule : List (Nat × Reply)) (s : LookupState)
    (h : runWorkers ComputeDistance AlreadyAsked schedule
      (LookupContactInit kademlia found target lookupType) = some s) :
    ∀ o ∈ s.lookupChannel, o.Contact ∈ s.kademlia.askedClosest := by
  refine runWorkers_queued_asked ComputeDistance AlreadyAsked schedule _ s ?_ h
  intro o ho
  rw [(LookupContactInit_channels kademlia found target lookupType).1] at ho
  rw [LookupContactInit_kademlia]
  obtain ⟨c, hc, hoc⟩ := List.mem_map.mp ho
  rw [← hoc]
  exact hc

end StepLemmas

/-! ## The first element after a merge -/

section HeadLemmas

variable {D : Type} [LinearOrder D]

/-- Every element of the merged list was in `closest` or is a new contact. -/
theorem refreshFold_mem :
    ∀ (l : List AddressTriple) (acc : List AddressTriple × Bool) (x : AddressTriple),
      x ∈ (l.foldl refreshStep acc).1 → x ∈ acc.1 ∨ x ∈ l := by
  intro l
  induction l with
  | nil => intro acc x h; exact Or.inl h
  | cons c l ih =>
    intro acc x h
    rw [List.foldl_cons] at h
    rcases ih _ x h with h1 | h1
    · unfold refreshStep at h1
      by_cases hex : elementExists acc.1 c = false
      · rw [if_pos hex] at h1
        rcases List.mem_append.mp h1 with h2 | h2
        · exact Or.inl h2
        · rw [List.mem_singleton] at h2
          exact Or.inr (by rw [h2]; exact List.mem_cons_self _ _)
      · rw [if_neg hex] at h1
        exact Or.inl h1
    · exact Or.inr (List.mem_cons_of_mem _ h1)

/-- The identifier of every new contact is in the merged list. -/
theorem refreshFold_ids :
    ∀ (l : List AddressTriple) (acc : List AddressTriple × Bool) (c : AddressTriple),
      c ∈ l → c.Id ∈ (l.foldl refreshStep acc).1.map AddressTriple.Id := by
  intro l
  induction l with
  | nil => intro acc c h; exact absurd h (List.not_mem_nil _)
  | cons a l ih =>
    intro acc c h
    rw [List.foldl_cons]
    rcases List.mem_cons.mp h with rfl | h
    · obtain ⟨added, hadd⟩ := refreshFold_prefix l (refreshStep acc c)
      rw [hadd, List.map_append]
      apply List.mem_append_left
      unfold refreshStep
      by_cases hex : elementExists acc.1 c = false
      · rw [if_pos hex]
        simp
      · rw [if_neg hex]
        have htrue : elementExists acc.1 c = true := by
          cases h : elementExists acc.1 c
          · exact absurd h hex
          · rfl
        exact (elementExists_iff acc.1 c).mp htrue
    · exact ih _ c h

/-- The first element after sorting and cutting is a nearest element of the
merged list. -/
theorem mergedSorted_head_min (ComputeDistance : String → String → D) (kademlia : Kademlia)
    (newContacts : List AddressTriple) (target : String) (f : AddressTriple)
    (rest : List AddressTriple)
    (hm : mergedSorted ComputeDistance kademlia newContacts target = f :: rest) :
    f ∈ (newContacts.foldl refreshStep (kademlia.closest, true)).1 ∧
    ∀ x ∈ (newContacts.foldl refreshStep (kademlia.closest, true)).1,
      ComputeDistance f.Id target ≤ ComputeDistance x.Id target := by
  unfold mergedSorted at hm
  have hperm : List.Perm
      (List.insertionSort (distLE ComputeDistance target)
        (newContacts.foldl refreshStep (kademlia.closest, true)).1.reverse)
      (newContacts.foldl refreshStep (kademlia.closest, true)).1 :=
    (List.perm_insertionSort _ _).trans (List.reverse_perm _)
  have hsorted := insertionSort_distLE_sorted ComputeDistance target
    (newContacts.foldl refreshStep (kademlia.closest, true)).1.reverse
  generalize List.insertionSort (distLE ComputeDistance target)
    (newContacts.foldl refreshStep (kademlia.closest, true)).1.reverse = srt
    at hm hperm hsorted
  cases srt with
  | nil => simp at hm
  | cons a tl =>
    cases hn : kademlia.k.toNat with
    | zero => rw [hn] at hm; simp at hm
    | succ n =>
      rw [hn, List.take_succ_cons] at hm
      have haf : a = f := (List.cons.inj hm).1
      rw [haf] at hperm hsorted
      refine ⟨hperm.subset (List.mem_cons_self _ _), ?_⟩
      intro x hx
      have hx1 : x ∈ f :: tl := hperm.symm.subset hx
      rcases List.mem_cons.mp hx1 with rfl | hx2
      · exact le_refl _
      · exact (List.pairwise_cons.mp hsorted).1 x hx2

end HeadLemmas

/-! ## Lookups in which no answer brings a contact -/

section ExhaustLemmas

variable {D : Type} [LinearOrder D]

theorem askedInner_foldl (c : AddressTriple) :
    ∀ (asked : List AddressTriple) (ex : Bool),
      asked.foldl (fun ex a => if c.Id = a.Id then true else ex) ex
        = (ex || decide (c.Id ∈ asked.map AddressTriple.Id)) := by
  intro asked
  induction asked with
  | nil => intro ex; simp
  | cons a l ih =>
    intro ex
    rw [List.foldl_cons, ih]
    by_cases he : c.Id = a.Id
    · simp [he]
    · simp [he]

theorem askedOuter_foldl (asked : List AddressTriple) :
    ∀ (closest : List AddressTriple) (b : Bool),
      closest.foldl
          (fun allAsked c =>
            if asked.foldl (fun ex a => if c.Id = a.Id then true else ex) false = false
            then false else allAsked) b
        = (b && closest.all (fun c => decide (c.Id ∈ asked.map AddressTriple.Id))) := by
  intro closest
  induction closest with
  | nil => intro b; simp
  | cons c l ih =>
    intro b
    rw [List.foldl_cons, askedInner_foldl, ih, List.all_cons]
    by_cases hc : c.Id ∈ asked.map AddressTriple.Id
    · have hd : decide (c.Id ∈ asked.map AddressTriple.Id) = true := decide_eq_true hc
      rw [hd]
      cases b <;> rfl
    · have hd : decide (c.Id ∈ asked.map AddressTriple.Id) = false := decide_eq_false hc
      rw [hd]
      cases b <;> simp

/-- `askedAllContacts` holds exactly when the identifier of every contact of
`closest` is the identifier of an asked contact. -/
theorem askedAllContacts_iff (kademlia : Kademlia) :
    askedAllContacts kademlia = true ↔
      ∀ c ∈ kademlia.closest, c.Id ∈ kademlia.askedClosest.map AddressTriple.Id := by
  unfold askedAllContacts
  rw [askedOuter_foldl]
  simp

/-- The loop of `getNextContact` over a list whose first `t` elements pass for
asked and whose other elements do not: it stops at the element of index `t`. -/
theorem getNextContactLoop_drop (AlreadyAsked : List AddressTriple → AddressTriple → Bool)
    (kademlia : Kademlia) :
    ∀ (rest : List AddressTriple) (t : Nat),
      (∀ x ∈ rest.take t, AlreadyAsked kademlia.askedClosest x = true) →
      (∀ x ∈ rest.drop t, AlreadyAsked kademlia.askedClosest x = false) →
      getNextContactLoop AlreadyAsked kademlia rest
        = match rest.drop t with
          | [] => (kademlia, none)
          | e :: _ =>
            ({ kademlia with askedClosest := kademlia.askedClosest ++ [e] }, some e) := by
  intro rest
  induction rest with
  | nil => intro t _ _; simp [getNextContactLoop]
  | cons a r ih =>
    intro t htake hdrop
    cases t with
    | zero =>
      have ha : AlreadyAsked kademlia.askedClosest a = false :=
        hdrop a (by simp)
      simp [getNextContactLoop, ha]
    | succ t =>
      have ha : AlreadyAsked kademlia.askedClosest a = true :=
        htake a (by simp)
      have hstep : getNextContactLoop AlreadyAsked kademlia (a :: r)
          = getNextContactLoop AlreadyAsked kademlia r := by
        simp [getNextContactLoop, ha]
      rw [hstep, List.drop_succ_cons]
      apply ih t
      · intro x hx
        exact htake x (by rw [List.take_succ_cons]; exact List.mem_cons_of_mem _ hx)
      · intro x hx
        exact hdrop x (by rw [List.drop_succ_cons]; exact hx)

theorem take_succ_of_drop {α : Type} (l : List α) (j : Nat) (e : α) (r : List α)
    (h : l.drop j = e :: r) : l.take (j + 1) = l.take j ++ [e] := by
  rw [List.take_succ]
  have : l[j]? = some e := by
    rw [← List.head?_drop, h]; rfl
  rw [this]; rfl

theorem take_succ_of_drop_nil {α : Type} (l : List α) (j : Nat)
    (h : l.drop j = []) : l.take (j + 1) = l.take j := by
  have hlen : l.length ≤ j := List.drop_eq_nil_iff.mp h
  rw [List.take_of_length_le hlen, List.take_of_length_le (by omega)]

/-- `askNextContact` in a lookup whose `closest` is the seed and whose asked
contacts are the first `j` of the seed: it dispatches the contact of index `j`,
if there is one. -/
theorem askNextContact_seed (AlreadyAsked : List AddressTriple → AddressTriple → Bool)
    (hAsked : ∀ l e, AlreadyAsked l e = true ↔ e ∈ l)
    (seed : List AddressTriple) (hnodup : seed.Nodup)
    (u : LookupState) (j : Nat) (target : String) (lookupType : Int)
    (hc : u.kademlia.closest = seed) (ha : u.kademlia.askedClosest = seed.take j) :
    askNextContact AlreadyAsked u target lookupType
      = match seed.drop j with
        | [] => u
        | e :: _ =>
          { u with
            kademlia := { u.kademlia with askedClosest := seed.take (j + 1) },
            lookupChannel := u.lookupChannel ++ [⟨lookupType, e, target⟩] } := by
  have hloop := getNextContactLoop_drop AlreadyAsked u.kademlia seed j
    (by
      intro x hx
      rw [ha]
      exact (hAsked _ _).mpr hx)
    (by
      intro x hx
      rw [ha]
      have hnot : x ∉ seed.take j := by
        intro hin
        exact List.disjoint_take_drop hnodup (le_refl j) hin hx
      cases hv : AlreadyAsked (seed.take j) x
      · rfl
      · exact absurd ((hAsked _ _).mp hv) hnot)
  have hget : getNextContact AlreadyAsked u.kademlia
      = match seed.drop j with
        | [] => (u.kademlia, none)
        | e :: _ =>
          ({ u.kademlia with askedClosest := u.kademlia.askedClosest ++ [e] }, some e) := by
    unfold getNextContact
    rw [hc]
    exact hloop
  unfold askNextContact
  rw [hget]
  cases hd : seed.drop j with
  | nil => rfl
  | cons e r =>
    simp only
    rw [ha, take_succ_of_drop seed j e r hd]

/-- The switch of a worker on a barren outcome: the counter moves by one on a
success, and the next contact is dispatched. -/
theorem LookupWorkerSwitch_barren (ComputeDistance : String → String → D)
    (AlreadyAsked : List AddressTriple → AddressTriple → Bool)
    (s : LookupState) (order : LookupOrder) (reply : Reply)
    (hmode : order.LookupType = CONTACT_LOOKUP ∨ order.LookupType = DATA_LOOKUP)
    (hbarren : Barren reply) :
    LookupWorkerSwitch ComputeDistance AlreadyAsked s order reply
      = some (askNextContact AlreadyAsked
          { s with kademlia :=
            { s.kademlia with noCloserNodeCalls :=
                (if reply.err = true then s.kademlia.noCloserNodeCalls
                else wrapInt (s.kademlia.noCloserNodeCalls + 1)) } }
          order.Target order.LookupType) := by
  have hempty : ∀ (answerList : List AddressTriple), answerList = [] →
      handleContactAnswer ComputeDistance AlreadyAsked s order answerList
        = some (askNextContact AlreadyAsked
            { s with kademlia :=
              { s.kademlia with noCloserNodeCalls := wrapInt (s.kademlia.noCloserNodeCalls + 1) } }
            order.Target order.LookupType) := by
    intro answerList hnil
    unfold handleContactAnswer
    rw [if_neg (by rw [hnil]; simp)]
  unfold LookupWorkerSwitch
  by_cases herr : reply.err = true
  · have hne : ¬ reply.err = false := by rw [herr]; simp
    rw [if_pos herr]
    rcases hmode with hm | hm
    · rw [if_pos hm, if_neg hne]
    · have hcn : ¬ order.LookupType = CONTACT_LOOKUP := by rw [hm]; decide
      rw [if_neg hcn, if_pos hm, if_neg hne]
  · have hfalse : reply.err = false := by
      cases h : reply.err
      · rfl
      · exact absurd h herr
    rw [if_neg herr]
    rcases hbarren with hb | ⟨hdata, hcontacts⟩
    · exact absurd hb herr
    · rcases hmode with hm | hm
      · rw [if_pos hm, if_pos hfalse]
        exact hempty _ hcontacts
      · have hcn : ¬ order.LookupType = CONTACT_LOOKUP := by rw [hm]; decide
        rw [if_neg hcn, if_pos hm, if_pos hfalse, hdata]
        exact hempty _ hcontacts

theorem perm_getElem_cons_eraseIdx {α : Type} :
    ∀ (l : List α) (i : Nat) (h : i < l.length),
      List.Perm l (l.get ⟨i, h⟩ :: l.eraseIdx i) := by
  intro l
  induction l with
  | nil => intro i h; exact absurd h (Nat.not_lt_zero _)
  | cons a r ih =>
    intro i h
    cases i with
    | zero => exact List.Perm.refl _
    | succ i =>
      have hi : i < r.length := Nat.lt_of_succ_lt_succ h
      have h1 := ih i hi
      exact (List.Perm.cons a h1).trans (List.Perm.swap _ _ _)

theorem LookupWorkerFinish_resultChannel_eq (s : LookupState) (order : LookupOrder) :
    (LookupWorkerFinish s order).resultChannel
      = if askedAllContacts
            { s.kademlia with gotResultBack := s.kademlia.gotResultBack ++ [order.Contact] }
              = true ∧
          s.resultChannel.length = 0 ∧
          (s.kademlia.gotResultBack ++ [order.Contact]).length
            = s.kademlia.askedClosest.length
        then s.resultChannel ++ [Answer.contacts s.kademlia.closest]
        else s.resultChannel := by
  unfold LookupWorkerFinish
  simp only
  split_ifs <;> rfl

/-- The switch of a worker in a lookup where nothing but barren outcomes came
back so far, on a barren outcome for the order at position `i`. -/
theorem exhaust_switch (ComputeDistance : String → String → D)
    (AlreadyAsked : List AddressTriple → AddressTriple → Bool)
    (hAsked : ∀ l e, AlreadyAsked l e = true ↔ e ∈ l)
    (seed : List AddressTriple) (hnodup : seed.Nodup) (alpha : Int)
    (lookupType : Int) (target : String)
    (hmode : lookupType = CONTACT_LOOKUP ∨ lookupType = DATA_LOOKUP)
    (m : Nat) (s : LookupState)
    (hinv : ExhaustInv seed alpha lookupType target m s)
    (i : Nat) (reply : Reply) (hbarren : Barren reply) (hi : i < s.lookupChannel.length) :
    ∃ v, LookupWorkerSwitch ComputeDistance AlreadyAsked
          { s with lookupChannel := s.lookupChannel.eraseIdx i }
          (s.lookupChannel.get ⟨i, hi⟩) reply = some v ∧
      v.kademlia.closest = seed ∧
      v.kademlia.askedClosest = seed.take (alpha.toNat + (m + 1)) ∧
      v.kademlia.gotResultBack = s.kademlia.gotResultBack ∧
      v.resultChannel = s.resultChannel ∧
      (∀ o ∈ v.lookupChannel, o.LookupType = lookupType ∧ o.Target = target) ∧
      List.Perm
        ((s.lookupChannel.get ⟨i, hi⟩).Contact ::
          (v.lookupChannel.map LookupOrder.Contact ++ s.kademlia.gotResultBack))
        (seed.take (alpha.toNat + (m + 1))) := by
  obtain ⟨hc, ha, hperm, _, hord, _, _⟩ := hinv
  have hoin : s.lookupChannel.get ⟨i, hi⟩ ∈ s.lookupChannel := List.get_mem _ _ _
  obtain ⟨hoL, hoT⟩ := hord _ hoin
  have hmode1 : (s.lookupChannel.get ⟨i, hi⟩).LookupType = CONTACT_LOOKUP ∨
      (s.lookupChannel.get ⟨i, hi⟩).LookupType = DATA_LOOKUP := by rw [hoL]; exact hmode
  have herase : ∀ o ∈ s.lookupChannel.eraseIdx i,
      o.LookupType = lookupType ∧ o.Target = target :=
    fun o hmem => hord o ((List.eraseIdx_sublist _ _).subset hmem)
  have hq : List.Perm
      ((s.lookupChannel.get ⟨i, hi⟩).Contact ::
        ((s.lookupChannel.eraseIdx i).map LookupOrder.Contact ++ s.kademlia.gotResultBack))
      (seed.take (alpha.toNat + m)) := by
    have h1 := (perm_getElem_cons_eraseIdx s.lookupChannel i hi).map LookupOrder.Contact
    have h2 := (List.Perm.append_right s.kademlia.gotResultBack h1).symm.trans hperm
    rw [ha] at h2
    simpa using h2
  have hu := askNextContact_seed AlreadyAsked hAsked seed hnodup
    { kademlia :=
        { s.kademlia with noCloserNodeCalls :=
            (if reply.err = true then s.kademlia.noCloserNodeCalls
            else wrapInt (s.kademlia.noCloserNodeCalls + 1)) },
      lookupChannel := s.lookupChannel.eraseIdx i,
      resultChannel := s.resultChannel }
    (alpha.toNat + m) target lookupType hc ha
  have hsw : LookupWorkerSwitch ComputeDistance AlreadyAsked
      { s with lookupChannel := s.lookupChannel.eraseIdx i }
      (s.lookupChannel.get ⟨i, hi⟩) reply
      = some (askNextContact AlreadyAsked
          { kademlia :=
              { s.kademlia with noCloserNodeCalls :=
                  (if reply.err = true then s.kademlia.noCloserNodeCalls
                  else wrapInt (s.kademlia.noCloserNodeCalls + 1)) },
            lookupChannel := s.lookupChannel.eraseIdx i,
            resultChannel := s.resultChannel }
          target lookupType) := by
    rw [LookupWorkerSwitch_barren ComputeDistance AlreadyAsked _ _ reply hmode1 hbarren,
      hoL, hoT]
  rw [hsw, hu]
  cases hd : seed.drop (alpha.toNat + m) with
  | nil =>
    refine ⟨_, rfl, hc, ?_, rfl, rfl, herase, ?_⟩
    · show s.kademlia.askedClosest = _
      rw [ha, ← Nat.add_assoc, take_succ_of_drop_nil seed _ hd]
    · rw [← Nat.add_assoc, take_succ_of_drop_nil seed _ hd]
      exact hq
  | cons e r =>
    refine ⟨_, rfl, hc, ?_, rfl, rfl, ?_, ?_⟩
    · show seed.take (alpha.toNat + m + 1) = _
      rw [Nat.add_assoc]
    · intro o hmem
      rcases List.mem_append.mp hmem with hmem | hmem
      · exact herase o hmem
      · rw [List.mem_singleton] at hmem
        rw [hmem]
        exact ⟨rfl, rfl⟩
    · rw [← Nat.add_assoc, take_succ_of_drop seed _ e r hd]
      show List.Perm
        ((s.lookupChannel.get ⟨i, hi⟩).Contact ::
          ((s.lookupChannel.eraseIdx i ++ [(⟨lookupType, e, target⟩ : LookupOrder)]).map
            LookupOrder.Contact
            ++ s.kademlia.gotResultBack))
        (seed.take (alpha.toNat + m) ++ [e])
      have h3 : List.Perm
          ((s.lookupChannel.eraseIdx i ++ [(⟨lookupType, e, target⟩ : LookupOrder)]).map
            LookupOrder.Contact
            ++ s.kademlia.gotResultBack)
          (((s.lookupChannel.eraseIdx i).map LookupOrder.Contact ++ s.kademlia.gotResultBack)
            ++ [e]) := by
        rw [List.map_append, List.append_assoc, List.append_assoc]
        exact List.Perm.append_left _ List.perm_append_comm
      exact (List.Perm.cons _ h3).trans (List.Perm.append_right [e] hq)

/-- In such a lookup the number of queued orders and of completed orders add up
to the number of asked contacts. -/
theorem exhaust_queue_length (seed : List AddressTriple) (alpha : Int)
    (lookupType : Int) (target : String) (m : Nat) (s : LookupState)
    (hinv : ExhaustInv seed alpha lookupType target m s) :
    s.lookupChannel.length + m = min (alpha.toNat + m) seed.length := by
  obtain ⟨_, ha, hperm, hgot, _, _, _⟩ := hinv
  have h := hperm.length_eq
  rw [ha, List.length_append, List.length_map, hgot, List.length_take] at h
  exact h

/-- One worker step on a barren outcome keeps the lookup in the state described
by `ExhaustInv`, with one more order completed. -/
theorem exhaust_step (ComputeDistance : String → String → D)
    (AlreadyAsked : List AddressTriple → AddressTriple → Bool)
    (hAsked : ∀ l e, AlreadyAsked l e = true ↔ e ∈ l)
    (seed : List AddressTriple) (hnodup : seed.Nodup) (alpha : Int) (halpha : 1 ≤ alpha)
    (lookupType : Int) (target : String)
    (hmode : lookupType = CONTACT_LOOKUP ∨ lookupType = DATA_LOOKUP)
    (m : Nat) (s : LookupState)
    (hinv : ExhaustInv seed alpha lookupType target m s)
    (i : Nat) (reply : Reply) (hbarren : Barren reply) (hi : i < s.lookupChannel.length) :
    ∃ s1, workerStep ComputeDistance AlreadyAsked s i reply = some s1 ∧
      ExhaustInv seed alpha lookupType target (m + 1) s1 := by
  have hlen := exhaust_queue_length seed alpha lookupType target m s hinv
  obtain ⟨v, hsw, hvc, hva, hvg, hvr, hvo, hvp⟩ :=
    exhaust_switch ComputeDistance AlreadyAsked hAsked seed hnodup alpha lookupType target
      hmode m s hinv i reply hbarren hi
  obtain ⟨_, _, _, hgot, _, hres, _⟩ := hinv
  have hm : m < seed.length := by omega
  have hres0 : s.resultChannel = [] := by
    rw [hres, if_neg (by omega)]
  have hstep : workerStep ComputeDistance AlreadyAsked s i reply
      = some (LookupWorkerFinish v (s.lookupChannel.get ⟨i, hi⟩)) := by
    unfold workerStep
    rw [List.getElem?_eq_getElem hi]
    simp only [Option.bind_eq_bind, Option.some_bind]
    unfold LookupWorkerStep
    have hsw1 : LookupWorkerSwitch ComputeDistance AlreadyAsked
        { s with lookupChannel := s.lookupChannel.eraseIdx i } s.lookupChannel[i] reply
        = some v := hsw
    rw [hsw1]
    rfl
  refine ⟨_, hstep, ?_⟩
  have hgotlen : (v.kademlia.gotResultBack ++ [(s.lookupChannel.get ⟨i, hi⟩).Contact]).length
      = m + 1 := by
    rw [List.length_append, hvg, hgot]; rfl
  have haskedlen : v.kademlia.askedClosest.length = min (alpha.toNat + (m + 1)) seed.length := by
    rw [hva, List.length_take]
  refine ⟨?_, ?_, ?_, ?_, ?_, ?_, ?_⟩
  · rw [LookupWorkerFinish_kademlia]; exact hvc
  · rw [LookupWorkerFinish_kademlia]; exact hva
  · rw [LookupWorkerFinish_kademlia, LookupWorkerFinish_lookupChannel]
    show List.Perm
      (v.lookupChannel.map LookupOrder.Contact ++
        (v.kademlia.gotResultBack ++ [(s.lookupChannel.get ⟨i, hi⟩).Contact]))
      v.kademlia.askedClosest
    rw [hva, hvg, ← List.append_assoc]
    exact List.perm_append_singleton _ _ |>.trans hvp
  · rw [LookupWorkerFinish_kademlia]
    exact hgotlen
  · rw [LookupWorkerFinish_lookupChannel]; exact hvo
  · rw [LookupWorkerFinish_resultChannel_eq, hvr, hres0, hvc]
    by_cases hlast : m + 1 = seed.length
    · rw [if_pos hlast]
      have hfull : v.kademlia.askedClosest = seed := by
        rw [hva]
        exact List.take_of_length_le (by omega)
      rw [if_pos]
      · rfl
      · refine ⟨?_, rfl, ?_⟩
        · rw [askedAllContacts_iff]
          intro x hx
          show x.Id ∈ v.kademlia.askedClosest.map AddressTriple.Id
          rw [hfull]
          have hx1 : x ∈ seed := by rw [← hvc]; exact hx
          exact List.mem_map_of_mem _ hx1
        · rw [hgotlen, haskedlen]
          omega
    · rw [if_neg hlast, if_neg]
      intro hcond
      have h3 := hcond.2.2
      rw [hgotlen, haskedlen] at h3
      omega
  · omega

/-- Any sequence of worker steps with barren outcomes. -/
theorem exhaust_run (ComputeDistance : String → String → D)
    (AlreadyAsked : List AddressTriple → AddressTriple → Bool)
    (hAsked : ∀ l e, AlreadyAsked l e = true ↔ e ∈ l)
    (seed : List AddressTriple) (hnodup : seed.Nodup) (alpha : Int) (halpha : 1 ≤ alpha)
    (lookupType : Int) (target : String)
    (hmode : lookupType = CONTACT_LOOKUP ∨ lookupType = DATA_LOOKUP) :
    ∀ (schedule : List (Nat × Reply)), (∀ ev ∈ schedule, Barren ev.2) →
      ∀ (m : Nat) (s s1 : LookupState),
        ExhaustInv seed alpha lookupType target m s →
        runWorkers ComputeDistance AlreadyAsked schedule s = some s1 →
        ExhaustInv seed alpha lookupType target (m + schedule.length) s1 := by
  intro schedule
  induction schedule with
  | nil =>
    intro _ m s s1 hinv h
    simp only [runWorkers] at h
    rw [← Option.some.inj h]
    exact hinv
  | cons ev rest ih =>
    intro hb m s s1 hinv h
    obtain ⟨i, reply⟩ := ev
    simp only [runWorkers, Option.bind_eq_bind] at h
    cases hw : workerStep ComputeDistance AlreadyAsked s i reply with
    | none => rw [hw] at h; simp at h
    | some t =>
      rw [hw] at h
      simp only [Option.some_bind] at h
      have hi : i < s.lookupChannel.length := by
        unfold workerStep at hw
        cases ho : s.lookupChannel[i]? with
        | none => rw [ho] at hw; simp at hw
        | some order => exact (List.getElem?_eq_some.mp ho).1
      have hbr : Barren reply := hb (i, reply) (List.mem_cons_self _ _)
      obtain ⟨t1, ht1, hinv1⟩ :=
        exhaust_step ComputeDistance AlreadyAsked hAsked seed hnodup alpha halpha lookupType
          target hmode m s hinv i reply hbr hi
      rw [hw] at ht1
      rw [← Option.some.inj ht1] at hinv1
      have hrest := ih (fun ev hev => hb ev (List.mem_cons_of_mem _ hev)) (m + 1) t s1 hinv1 h
      have hlen : m + ((i, reply) :: rest).length = m + 1 + rest.length := by
        rw [List.length_cons]; omega
      rw [hlen]
      exact hrest

/-- From a state with `m` orders completed, `r` more orders can be completed,
each time the one at the head of the queue, as long as `m + r ≤ |seed|`. -/
theorem exhaust_run_exists (ComputeDistance : String → String → D)
    (AlreadyAsked : List AddressTriple → AddressTriple → Bool)
    (hAsked : ∀ l e, AlreadyAsked l e = true ↔ e ∈ l)
    (seed : List AddressTriple) (hnodup : seed.Nodup) (alpha : Int) (halpha : 1 ≤ alpha)
    (lookupType : Int) (target : String)
    (hmode : lookupType = CONTACT_LOOKUP ∨ lookupType = DATA_LOOKUP)
    (reply : Reply) (hbarren : Barren reply) :
    ∀ (r m : Nat) (s : LookupState),
      ExhaustInv seed alpha lookupType target m s → m + r ≤ seed.length →
      ∃ s1, runWorkers ComputeDistance AlreadyAsked (List.replicate r (0, reply)) s = some s1 := by
  intro r
  induction r with
  | zero => intro m s _ _; exact ⟨s, rfl⟩
  | succ r ih =>
    intro m s hinv hle
    have hlen := exhaust_queue_length seed alpha lookupType target m s hinv
    have hi : 0 < s.lookupChannel.length := by omega
    obtain ⟨t, ht, hinv1⟩ :=
      exhaust_step ComputeDistance AlreadyAsked hAsked seed hnodup alpha halpha lookupType
        target hmode m s hinv 0 reply hbarren hi
    obtain ⟨s1, hs1⟩ := ih (m + 1) t hinv1 (by omega)
    refine ⟨s1, ?_⟩
    rw [List.replicate_succ]
    simp only [runWorkers, Option.bind_eq_bind, ht, Option.some_bind]
    exact hs1

end ExhaustLemmas

section ExhaustInit

variable {D : Type}

/-- The state the workers start from, over a non-empty seed. -/
theorem exhaust_init (kademlia : Kademlia) (found : List (TripleAndDistance D))
    (target : String) (lookupType : Int) (hne : found ≠ []) :
    ExhaustInv (found.map TripleAndDistance.Triple) kademlia.alpha lookupType target 0
      (LookupContactInit kademlia found target lookupType) := by
  have hk := LookupContactInit_kademlia kademlia found target lookupType
  obtain ⟨hq, hr⟩ := LookupContactInit_channels kademlia found target lookupType
  refine ⟨by rw [hk], by rw [hk]; rfl, ?_, by rw [hk]; rfl, ?_, ?_, Nat.zero_le _⟩
  · rw [hk, hq]
    simp [Function.comp_def]
  · intro o ho
    rw [hq] at ho
    obtain ⟨x, _, hx⟩ := List.mem_map.mp ho
    rw [← hx]
    exact ⟨rfl, rfl⟩
  · rw [hr, if_neg]
    intro h0
    have : found.length = 0 := by
      rw [List.length_map] at h0
      exact h0.symm
    exact hne (List.length_eq_zero.mp this)

/-- What `ExhaustInv` says once all `|seed|` orders have completed, and
before. -/
theorem exhaust_outcome (seed : List AddressTriple) (alpha : Int) (halpha : 1 ≤ alpha)
    (lookupType : Int) (target : String) (m : Nat) (s : LookupState)
    (hinv : ExhaustInv seed alpha lookupType target m s) :
    (m < seed.length →
      s.resultChannel = [] ∧ s.lookupChannel ≠ [] ∧ answerListener s.resultChannel = none) ∧
    (m = seed.length →
      List.Perm s.kademlia.gotResultBack seed ∧ s.lookupChannel = [] ∧
      s.resultChannel = [Answer.contacts seed] ∧
      answerListener s.resultChannel = some (some seed, none)) := by
  have hlen := exhaust_queue_length seed alpha lookupType target m s hinv
  obtain ⟨_, ha, hperm, _, _, hres, _⟩ := hinv
  constructor
  · intro hm
    have hr : s.resultChannel = [] := by rw [hres, if_neg (by omega)]
    refine ⟨hr, ?_, by rw [hr]; rfl⟩
    intro hq
    rw [hq] at hlen
    simp only [List.length_nil] at hlen
    omega
  · intro hm
    have hr : s.resultChannel = [Answer.contacts seed] := by rw [hres, if_pos hm]
    have hq : s.lookupChannel = [] := by
      apply List.length_eq_zero.mp
      omega
    refine ⟨?_, hq, hr, by rw [hr]; rfl⟩
    rw [ha, hq] at hperm
    have hfull : seed.take (alpha.toNat + m) = seed :=
      List.take_of_length_le (by omega)
    rw [hfull] at hperm
    simpa using hperm

end ExhaustInit

/-! ## The calling goroutine and the workers together -/

section GoroutineLemmas

variable {D : Type} [LinearOrder D]

/-- What `handOver` does. -/
theorem handOver_cases (e : Execution) :
    (∃ a rest, e.main = MainPc.listening ∧ e.state.resultChannel = a :: rest ∧
      handOver e = { e with state := { e.state with resultChannel := rest },
                            main := MainPc.returned a }) ∨
    ((e.main ≠ MainPc.listening ∨ e.state.resultChannel = []) ∧ handOver e = e) := by
  unfold handOver
  split
  · rename_i a rest hm hb
    left; exact ⟨a, rest, hm, hb, rfl⟩
  · rename_i hno
    right
    refine ⟨?_, rfl⟩
    by_cases hm : e.main = MainPc.listening
    · right
      cases hb : e.state.resultChannel with
      | nil => rfl
      | cons a rest => exact absurd hb (hno a rest hm)
    · left; exact hm

theorem handOver_kademlia (e : Execution) :
    (handOver e).state.kademlia = e.state.kademlia := by
  rcases handOver_cases e with ⟨a, rest, _, _, h⟩ | ⟨_, h⟩ <;> rw [h]

theorem handOver_lookupChannel (e : Execution) :
    (handOver e).state.lookupChannel = e.state.lookupChannel := by
  rcases handOver_cases e with ⟨a, rest, _, _, h⟩ | ⟨_, h⟩ <;> rw [h]

theorem handOver_lookupType (e : Execution) :
    (handOver e).lookupType = e.lookupType ∧ (handOver e).target = e.target := by
  rcases handOver_cases e with ⟨a, rest, _, _, h⟩ | ⟨_, h⟩ <;> rw [h] <;> exact ⟨rfl, rfl⟩

/-- The value `answerListener` gets is not changed by a hand-over. -/
theorem handOver_firstResult (e : Execution) : firstResult (handOver e) = firstResult e := by
  rcases handOver_cases e with ⟨a, rest, hm, hb, h⟩ | ⟨_, h⟩
  · rw [h]
    simp [firstResult, hm, hb]
  · rw [h]

/-- A calling goroutine that is not blocked in its receive takes no hand-over. -/
theorem handOver_of_not_listening (e : Execution) (h : e.main ≠ MainPc.listening) :
    handOver e = e := by
  rcases handOver_cases e with ⟨a, rest, hm, _, _⟩ | ⟨_, h1⟩
  · exact absurd hm h
  · exact h1

/-- The five actions of the calling goroutine. -/
theorem mainStep_cases (e e1 : Execution) (h : mainStep e = some e1) :
    (∃ i c, e.main = MainPc.sending i ∧ (i : Int) < e.state.kademlia.alpha ∧
      e.state.kademlia.closest[i]? = some c ∧
      e1 = { e with
        state := { e.state with
          lookupChannel := e.state.lookupChannel ++ [⟨e.lookupType, c, e.target⟩] },
        main := MainPc.marking i }) ∨
    (∃ i, e.main = MainPc.sending i ∧
      ¬ ((i : Int) < e.state.kademlia.alpha ∧ i < e.state.kademlia.closest.length) ∧
      e1 = { e with main := MainPc.receiving }) ∨
    (∃ i c, e.main = MainPc.marking i ∧ e.state.kademlia.closest[i]? = some c ∧
      e1 = { e with
        state := { e.state with
          kademlia := { e.state.kademlia with
            askedClosest := e.state.kademlia.askedClosest ++ [c] } },
        main := MainPc.sending (i + 1) }) ∨
    (∃ a rest, e.main = MainPc.receiving ∧ e.state.resultChannel = a :: rest ∧
      e1 = { e with state := { e.state with resultChannel := rest },
                    main := MainPc.returned a }) ∨
    (e.main = MainPc.receiving ∧ e.state.resultChannel = [] ∧
      e1 = { e with main := MainPc.listening }) := by
  unfold mainStep at h
  cases hm : e.main with
  | sending i =>
    rw [hm] at h
    simp only at h
    by_cases hc : (i : Int) < e.state.kademlia.alpha ∧ i < e.state.kademlia.closest.length
    · rw [if_pos hc] at h
      cases hi : e.state.kademlia.closest[i]? with
      | none => rw [hi] at h; simp at h
      | some c =>
        rw [hi] at h
        simp only [Option.bind_eq_bind, Option.some_bind] at h
        left
        exact ⟨i, c, rfl, hc.1, hi, (Option.some.inj h).symm⟩
    · rw [if_neg hc] at h
      right; left
      exact ⟨i, rfl, hc, (Option.some.inj h).symm⟩
  | marking i =>
    rw [hm] at h
    simp only at h
    cases hi : e.state.kademlia.closest[i]? with
    | none => rw [hi] at h; simp at h
    | some c =>
      rw [hi] at h
      simp only [Option.bind_eq_bind, Option.some_bind] at h
      right; right; left
      exact ⟨i, c, rfl, hi, (Option.some.inj h).symm⟩
  | receiving =>
    rw [hm] at h
    simp only at h
    cases hb : e.state.resultChannel with
    | nil =>
      rw [hb] at h
      right; right; right; right
      exact ⟨rfl, rfl, (Option.some.inj h).symm⟩
    | cons a rest =>
      rw [hb] at h
      right; right; right; left
      exact ⟨a, rest, rfl, rfl, (Option.some.inj h).symm⟩
  | listening => rw [hm] at h; simp at h
  | returned a => rw [hm] at h; simp at h

/-- The parts of an iteration of a worker inside a lookup. -/
theorem execWorker_eq (ComputeDistance : String → String → D)
    (AlreadyAsked : List AddressTriple → AddressTriple → Bool)
    (e e1 : Execution) (i : Nat) (reply : Reply)
    (h : execWorker ComputeDistance AlreadyAsked e i reply = some e1) :
    ∃ order s1, e.state.lookupChannel[i]? = some order ∧
      LookupWorkerSwitch ComputeDistance AlreadyAsked
        { e.state with lookupChannel := e.state.lookupChannel.eraseIdx i } order reply
        = some s1 ∧
      e1 = handOver { handOver { e with state := s1 } with
        state := LookupWorkerFinish (handOver { e with state := s1 }).state order } := by
  unfold execWorker at h
  cases ho : e.state.lookupChannel[i]? with
  | none => rw [ho] at h; simp at h
  | some order =>
    rw [ho] at h
    simp only [Option.bind_eq_bind, Option.some_bind] at h
    cases hsw : LookupWorkerSwitch ComputeDistance AlreadyAsked
        { e.state with lookupChannel := e.state.lookupChannel.eraseIdx i } order reply with
    | none => rw [hsw] at h; simp at h
    | some s1 =>
      rw [hsw] at h
      simp only [Option.some_bind] at h
      exact ⟨order, s1, rfl, hsw, (Option.some.inj h).symm⟩

/-- A property kept by every event of a kind is kept by a sequence of such
events. -/
theorem runLookup_invariant (ComputeDistance : String → String → D)
    (AlreadyAsked : List AddressTriple → AddressTriple → Bool)
    (P : Execution → Prop) (ok : Event → Prop)
    (hstep : ∀ e e1 ev, ok ev → P e →
      execStep ComputeDistance AlreadyAsked e ev = some e1 → P e1) :
    ∀ (events : List Event) (e e1 : Execution), (∀ ev ∈ events, ok ev) → P e →
      runLookup ComputeDistance AlreadyAsked events e = some e1 → P e1 := by
  intro events
  induction events with
  | nil =>
    intro e e1 _ hP h
    simp only [runLookup] at h
    rw [← Option.some.inj h]; exact hP
  | cons ev rest ih =>
    intro e e1 hok hP h
    simp only [runLookup, Option.bind_eq_bind] at h
    cases hs : execStep ComputeDistance AlreadyAsked e ev with
    | none => rw [hs] at h; simp at h
    | some t =>
      rw [hs] at h
      simp only [Option.some_bind] at h
      exact ih t e1 (fun x hx => hok x (List.mem_cons_of_mem _ hx))
        (hstep e t ev (hok ev (List.mem_cons_self _ _)) hP hs) h

theorem runLookup_append (ComputeDistance : String → String → D)
    (AlreadyAsked : List AddressTriple → AddressTriple → Bool) :
    ∀ (a b : List Event) (e : Execution),
      runLookup ComputeDistance AlreadyAsked (a ++ b) e
        = (runLookup ComputeDistance AlreadyAsked a e).bind
            (runLookup ComputeDistance AlreadyAsked b) := by
  intro a
  induction a with
  | nil => intro b e; rfl
  | cons ev rest ih =>
    intro b e
    simp only [List.cons_append, runLookup, Option.bind_eq_bind]
    cases execStep ComputeDistance AlreadyAsked e ev with
    | none => rfl
    | some t => simp only [Option.some_bind]; exact ih b t


/-- The dispatch of the next contact leaves `closest`, the counter and the
result channel as they are. -/
theorem askNextContact_frame (AlreadyAsked : List AddressTriple → AddressTriple → Bool)
    (s : LookupState) (target : String) (lookupType : Int) :
    (askNextContact AlreadyAsked s target lookupType).kademlia.closest = s.kademlia.closest ∧
    (askNextContact AlreadyAsked s target lookupType).kademlia.noCloserNodeCalls
      = s.kademlia.noCloserNodeCalls ∧
    (askNextContact AlreadyAsked s target lookupType).resultChannel = s.resultChannel := by
  refine ⟨?_, ?_, askNextContact_resultChannel AlreadyAsked s target lookupType⟩
  · rw [askNextContact_kademlia]
    rcases getNextContactLoop_cases AlreadyAsked s.kademlia s.kademlia.closest with
      ⟨_, hres⟩ | ⟨pre, e, post, _, _, _, hres⟩
    · unfold getNextContact; rw [hres]
    · unfold getNextContact; rw [hres]
  · rw [askNextContact_kademlia]
    rcases getNextContactLoop_cases AlreadyAsked s.kademlia s.kademlia.closest with
      ⟨_, hres⟩ | ⟨pre, e, post, _, _, _, hres⟩
    · unfold getNextContact; rw [hres]
    · unfold getNextContact; rw [hres]

/-- The switch of a worker whose network call failed: it returns, and leaves
`closest`, the counter and the result channel as they are. -/
theorem LookupWorkerSwitch_err (ComputeDistance : String → String → D)
    (AlreadyAsked : List AddressTriple → AddressTriple → Bool)
    (s : LookupState) (order : LookupOrder) (reply : Reply) (herr : reply.err = true) :
    ∃ t, LookupWorkerSwitch ComputeDistance AlreadyAsked s order reply = some t ∧
      t.kademlia.closest = s.kademlia.closest ∧
      t.kademlia.noCloserNodeCalls = s.kademlia.noCloserNodeCalls ∧
      t.resultChannel = s.resultChannel := by
  have hne : ¬ reply.err = false := by rw [herr]; simp
  unfold LookupWorkerSwitch
  by_cases hc : order.LookupType = CONTACT_LOOKUP
  · rw [if_pos hc, if_neg hne]
    exact ⟨_, rfl, askNextContact_frame AlreadyAsked s _ _⟩
  · rw [if_neg hc]
    by_cases hdl : order.LookupType = DATA_LOOKUP
    · rw [if_pos hdl, if_neg hne]
      exact ⟨_, rfl, askNextContact_frame AlreadyAsked s _ _⟩
    · rw [if_neg hdl]
      exact ⟨_, rfl, rfl, rfl, rfl⟩

/-- A first result stays the first result when values are appended to the
channel. -/
theorem firstResult_state (e : Execution) (s : LookupState) (a : Answer)
    (extra : List Answer) (hs : s.resultChannel = e.state.resultChannel ++ extra)
    (h : firstResult e = some a) :
    firstResult { e with state := s } = some a := by
  unfold firstResult at h ⊢
  simp only
  cases hm : e.main with
  | returned b => rw [hm] at h; exact h
  | sending i =>
    rw [hm] at h; simp only at h ⊢
    rw [hs]
    cases hb : e.state.resultChannel with
    | nil => rw [hb] at h; simp at h
    | cons x rest => rw [hb] at h; simpa using h
  | marking i =>
    rw [hm] at h; simp only at h ⊢
    rw [hs]
    cases hb : e.state.resultChannel with
    | nil => rw [hb] at h; simp at h
    | cons x rest => rw [hb] at h; simpa using h
  | receiving =>
    rw [hm] at h; simp only at h ⊢
    rw [hs]
    cases hb : e.state.resultChannel with
    | nil => rw [hb] at h; simp at h
    | cons x rest => rw [hb] at h; simpa using h
  | listening =>
    rw [hm] at h; simp only at h ⊢
    rw [hs]
    cases hb : e.state.resultChannel with
    | nil => rw [hb] at h; simp at h
    | cons x rest => rw [hb] at h; simpa using h

/-- Once a value is the first result, every event leaves it so. -/
theorem execStep_firstResult (ComputeDistance : String → String → D)
    (AlreadyAsked : List AddressTriple → AddressTriple → Bool)
    (a : Answer) (e e1 : Execution) (ev : Event) (h : firstResult e = some a)
    (hs : execStep ComputeDistance AlreadyAsked e ev = some e1) :
    firstResult e1 = some a := by
  cases ev with
  | main =>
    rcases mainStep_cases e e1 hs with ⟨i, c, hm, _, _, he⟩ | ⟨i, hm, _, he⟩ |
      ⟨i, c, hm, _, he⟩ | ⟨b, rest, hm, hb, he⟩ | ⟨hm, hb, he⟩
    · rw [he]
      simpa [firstResult, hm] using h
    · rw [he]
      simpa [firstResult, hm] using h
    · rw [he]
      simpa [firstResult, hm] using h
    · rw [he]
      simpa [firstResult, hm, hb] using h
    · simp [firstResult, hm, hb] at h
  | work i reply =>
    obtain ⟨order, s1, _, hsw, he⟩ := execWorker_eq ComputeDistance AlreadyAsked e e1 i reply hs
    obtain ⟨extra, hx⟩ := LookupWorkerSwitch_resultChannel ComputeDistance AlreadyAsked
      _ order reply s1 hsw
    have h1 : firstResult (handOver { e with state := s1 }) = some a := by
      rw [handOver_firstResult]
      exact firstResult_state e s1 a extra hx h
    have h2 : ∃ more, (LookupWorkerFinish (handOver { e with state := s1 }).state
        order).resultChannel = (handOver { e with state := s1 }).state.resultChannel ++ more := by
      rcases LookupWorkerFinish_resultChannel (handOver { e with state := s1 }).state order
        with hf | hf
      · exact ⟨[], by rw [hf, List.append_nil]⟩
      · exact ⟨_, hf⟩
    obtain ⟨more, hmore⟩ := h2
    rw [he, handOver_firstResult]
    exact firstResult_state _ _ a more hmore h1

theorem runLookup_firstResult (ComputeDistance : String → String → D)
    (AlreadyAsked : List AddressTriple → AddressTriple → Bool) (a : Answer) :
    ∀ (events : List Event) (e e1 : Execution), firstResult e = some a →
      runLookup ComputeDistance AlreadyAsked events e = some e1 → firstResult e1 = some a := by
  intro events e e1 h hrun
  exact runLookup_invariant ComputeDistance AlreadyAsked (fun e => firstResult e = some a)
    (fun _ => True)
    (fun e e1 ev _ hP hs => execStep_firstResult ComputeDistance AlreadyAsked a e e1 ev hP hs)
    events e e1 (fun _ _ => trivial) h hrun

end GoroutineLemmas

section StartLemmas

variable {D : Type}

/-- The execution a lookup starts from. -/
theorem LookupStart_eq (kademlia : Kademlia) (found : List (TripleAndDistance D))
    (target : String) (lookupType : Int) (e0 : Execution)
    (h : LookupStart kademlia found target lookupType = some e0) :
    0 ≤ kademlia.alpha ∧ 0 ≤ kademlia.k ∧
    e0 = { state :=
             { kademlia := { kademlia with closest := found.map TripleAndDistance.Triple,
                                           askedClosest := [], gotResultBack := [] },
               lookupChannel := [], resultChannel := [] },
           main := MainPc.sending 0, lookupType := lookupType, target := target } := by
  unfold LookupStart at h
  by_cases hg : kademlia.alpha < 0 ∨ kademlia.k < 0
  · rw [if_pos hg] at h; simp at h
  · rw [if_neg hg] at h
    simp only [seed_foldl, List.nil_append] at h
    refine ⟨by omega, by omega, (Option.some.inj h).symm⟩

/-- A lookup starts exactly when neither buffer size is negative. -/
theorem LookupStart_returns (kademlia : Kademlia) (found : List (TripleAndDistance D))
    (target : String) (lookupType : Int) (ha : 0 ≤ kademlia.alpha) (hk : 0 ≤ kademlia.k) :
    ∃ e0, LookupStart kademlia found target lookupType = some e0 := by
  unfold LookupStart
  rw [if_neg (by omega)]
  exact ⟨_, rfl⟩

end StartLemmas

section TimeoutLemmas

variable {D : Type} [LinearOrder D]

/-- A hand-over keeps the values of the channel and of the listener among those
there were. -/
theorem handOver_only (x : Answer) (e : Execution)
    (h : (∀ a ∈ e.state.resultChannel, a = x) ∧ ∀ a, e.main = MainPc.returned a → a = x) :
    (∀ a ∈ (handOver e).state.resultChannel, a = x) ∧
    ∀ a, (handOver e).main = MainPc.returned a → a = x := by
  rcases handOver_cases e with ⟨b, rest, hm, hb, he⟩ | ⟨_, he⟩
  · rw [he]
    simp only
    constructor
    · intro a ha
      exact h.1 a (by rw [hb]; exact List.mem_cons_of_mem _ ha)
    · intro a ha
      have hab : b = a := by injection ha
      rw [← hab]
      exact h.1 b (by rw [hb]; exact List.mem_cons_self _ _)
  · rw [he]; exact h

/-- While every network call fails, an event leaves `closest` and the counter
as they are, and every value written is `closest`. -/
theorem execStep_timeout (ComputeDistance : String → String → D)
    (AlreadyAsked : List AddressTriple → AddressTriple → Bool)
    (seed : List AddressTriple) (c : Int) (e e1 : Execution) (ev : Event)
    (hok : ∀ i reply, ev = Event.work i reply → reply.err = true)
    (hP : e.state.kademlia.closest = seed ∧ e.state.kademlia.noCloserNodeCalls = c ∧
      (∀ a ∈ e.state.resultChannel, a = Answer.contacts seed) ∧
      ∀ a, e.main = MainPc.returned a → a = Answer.contacts seed)
    (hs : execStep ComputeDistance AlreadyAsked e ev = some e1) :
    e1.state.kademlia.closest = seed ∧ e1.state.kademlia.noCloserNodeCalls = c ∧
      (∀ a ∈ e1.state.resultChannel, a = Answer.contacts seed) ∧
      ∀ a, e1.main = MainPc.returned a → a = Answer.contacts seed := by
  obtain ⟨hc, hn, hbuf, hret⟩ := hP
  cases ev with
  | main =>
    rcases mainStep_cases e e1 hs with ⟨i, x, hm, _, _, he⟩ | ⟨i, hm, _, he⟩ |
      ⟨i, x, hm, _, he⟩ | ⟨b, rest, hm, hb, he⟩ | ⟨hm, hb, he⟩
    · rw [he]
      exact ⟨hc, hn, hbuf, fun a ha => by simp at ha⟩
    · rw [he]
      exact ⟨hc, hn, hbuf, fun a ha => by simp at ha⟩
    · rw [he]
      exact ⟨hc, hn, hbuf, fun a ha => by simp at ha⟩
    · rw [he]
      refine ⟨hc, hn, fun a ha => hbuf a (by rw [hb]; exact List.mem_cons_of_mem _ ha), ?_⟩
      intro a ha
      have hab : b = a := by injection ha
      rw [← hab]
      exact hbuf b (by rw [hb]; exact List.mem_cons_self _ _)
    · rw [he]
      exact ⟨hc, hn, hbuf, fun a ha => by simp at ha⟩
  | work i reply =>
    obtain ⟨order, s1, _, hsw, he⟩ := execWorker_eq ComputeDistance AlreadyAsked e e1 i reply hs
    obtain ⟨t, ht, htc, htn, htr⟩ := LookupWorkerSwitch_err ComputeDistance AlreadyAsked
      { e.state with lookupChannel := e.state.lookupChannel.eraseIdx i } order reply
      (hok i reply rfl)
    rw [hsw] at ht
    have hts : s1 = t := Option.some.inj ht
    rw [← hts] at htc htn htr
    have h1 := handOver_only (Answer.contacts seed) { e with state := s1 }
      ⟨fun a ha => hbuf a (by rw [← htr]; exact ha), hret⟩
    have hk1 : (handOver { e with state := s1 }).state.kademlia = s1.kademlia :=
      handOver_kademlia _
    have hfk := LookupWorkerFinish_kademlia (handOver { e with state := s1 }).state order
    have hfc : (LookupWorkerFinish (handOver { e with state := s1 }).state
        order).kademlia.closest = seed := by
      rw [hfk, hk1]; simp only; rw [htc]; exact hc
    have hfn : (LookupWorkerFinish (handOver { e with state := s1 }).state
        order).kademlia.noCloserNodeCalls = c := by
      rw [hfk, hk1]; simp only; rw [htn]; exact hn
    have hfb : ∀ a ∈ (LookupWorkerFinish (handOver { e with state := s1 }).state
        order).resultChannel, a = Answer.contacts seed := by
      intro a ha
      rcases LookupWorkerFinish_resultChannel (handOver { e with state := s1 }).state order
        with hf | hf
      · rw [hf] at ha; exact h1.1 a ha
      · rw [hf] at ha
        rcases List.mem_append.mp ha with ha | ha
        · exact h1.1 a ha
        · rw [List.mem_singleton] at ha
          rw [ha, hk1, htc, hc]
    have h2 := handOver_only (Answer.contacts seed)
      { handOver { e with state := s1 } with
        state := LookupWorkerFinish (handOver { e with state := s1 }).state order }
      ⟨hfb, h1.2⟩
    rw [he]
    refine ⟨?_, ?_, h2⟩
    · rw [handOver_kademlia]; exact hfc
    · rw [handOver_kademlia]; exact hfn

/-- The same for a sequence of events. -/
theorem runLookup_timeout (ComputeDistance : String → String → D)
    (AlreadyAsked : List AddressTriple → AddressTriple → Bool)
    (seed : List AddressTriple) (c : Int) (events : List Event) (e e1 : Execution)
    (hok : ∀ ev ∈ events, ∀ i reply, ev = Event.work i reply → reply.err = true)
    (hP : e.state.kademlia.closest = seed ∧ e.state.kademlia.noCloserNodeCalls = c ∧
      (∀ a ∈ e.state.resultChannel, a = Answer.contacts seed) ∧
      ∀ a, e.main = MainPc.returned a → a = Answer.contacts seed)
    (hrun : runLookup ComputeDistance AlreadyAsked events e = some e1) :
    e1.state.kademlia.closest = seed ∧ e1.state.kademlia.noCloserNodeCalls = c ∧
      (∀ a ∈ e1.state.resultChannel, a = Answer.contacts seed) ∧
      ∀ a, e1.main = MainPc.returned a → a = Answer.contacts seed :=
  runLookup_invariant ComputeDistance AlreadyAsked
    (fun e => e.state.kademlia.closest = seed ∧ e.state.kademlia.noCloserNodeCalls = c ∧
      (∀ a ∈ e.state.resultChannel, a = Answer.contacts seed) ∧
      ∀ a, e.main = MainPc.returned a → a = Answer.contacts seed)
    (fun ev => ∀ i reply, ev = Event.work i reply → reply.err = true)
    (fun e e1 ev hev hPe hs =>
      execStep_timeout ComputeDistance AlreadyAsked seed c e e1 ev hev hPe hs)
    events e e1 hok hP hrun

/-- Every order in the queue of a lookup has the type the lookup was called
with. -/
theorem runLookup_orders (ComputeDistance : String → String → D)
    (AlreadyAsked : List AddressTriple → AddressTriple → Bool)
    (lookupType : Int) (events : List Event) (e e1 : Execution)
    (hP : e.lookupType = lookupType ∧ ∀ o ∈ e.state.lookupChannel, o.LookupType = lookupType)
    (hrun : runLookup ComputeDistance AlreadyAsked events e = some e1) :
    e1.lookupType = lookupType ∧ ∀ o ∈ e1.state.lookupChannel, o.LookupType = lookupType := by
  refine runLookup_invariant ComputeDistance AlreadyAsked
    (fun e => e.lookupType = lookupType ∧
      ∀ o ∈ e.state.lookupChannel, o.LookupType = lookupType)
    (fun _ => True) ?_ events e e1 (fun _ _ => trivial) hP hrun
  intro e e1 ev _ hPe hs
  obtain ⟨hl, hq⟩ := hPe
  cases ev with
  | main =>
    rcases mainStep_cases e e1 hs with ⟨i, x, hm, _, _, he⟩ | ⟨i, hm, _, he⟩ |
      ⟨i, x, hm, _, he⟩ | ⟨b, rest, hm, hb, he⟩ | ⟨hm, hb, he⟩
    · rw [he]
      refine ⟨hl, ?_⟩
      intro o ho
      rcases List.mem_append.mp ho with ho | ho
      · exact hq o ho
      · rw [List.mem_singleton] at ho
        rw [ho]; exact hl
    · rw [he]; exact ⟨hl, hq⟩
    · rw [he]; exact ⟨hl, hq⟩
    · rw [he]; exact ⟨hl, hq⟩
    · rw [he]; exact ⟨hl, hq⟩
  | work i reply =>
    obtain ⟨order, s1, ho, hsw, he⟩ := execWorker_eq ComputeDistance AlreadyAsked e e1 i reply hs
    have hot : order.LookupType = lookupType := hq order (List.getElem?_mem ho)
    have hs1 : ∀ o ∈ s1.lookupChannel, o.LookupType = lookupType := by
      intro o hmem
      rcases LookupWorkerSwitch_lookupChannel ComputeDistance AlreadyAsked _ order reply s1 hsw
        with hsame | ⟨x, hx⟩
      · rw [hsame] at hmem
        exact hq o (List.mem_of_mem_eraseIdx hmem)
      · rw [hx] at hmem
        rcases List.mem_append.mp hmem with hmem | hmem
        · exact hq o (List.mem_of_mem_eraseIdx hmem)
        · rw [List.mem_singleton] at hmem
          rw [hmem]; exact hot
    rw [he]
    constructor
    · rw [(handOver_lookupType _).1]
      simp only
      rw [(handOver_lookupType _).1]
      exact hl
    · rw [handOver_lookupChannel]
      simp only
      rw [LookupWorkerFinish_lookupChannel, handOver_lookupChannel]
      exact hs1

end TimeoutLemmas

section LinkLemmas

variable {D : Type} [LinearOrder D]

/-- While the calling goroutine has not reached its receive, an iteration of a
worker inside the lookup is `workerStep` on the state. -/
theorem execWorker_receiving (ComputeDistance : String → String → D)
    (AlreadyAsked : List AddressTriple → AddressTriple → Bool)
    (e : Execution) (i : Nat) (reply : Reply) (hm : e.main = MainPc.receiving) :
    execWorker ComputeDistance AlreadyAsked e i reply
      = (workerStep ComputeDistance AlreadyAsked e.state i reply).map
          (fun s => { e with state := s }) := by
  unfold execWorker workerStep LookupWorkerStep
  cases ho : e.state.lookupChannel[i]? with
  | none => simp
  | some order =>
    simp only [Option.bind_eq_bind, Option.some_bind]
    cases hsw : LookupWorkerSwitch ComputeDistance AlreadyAsked
        { e.state with lookupChannel := e.state.lookupChannel.eraseIdx i } order reply with
    | none => simp
    | some s1 =>
      simp only [Option.some_bind, Option.map_some']
      have h1 : handOver { e with state := s1 } = { e with state := s1 } :=
        handOver_of_not_listening _ (by simp [hm])
      rw [h1]
      have h2 : handOver { e with state := LookupWorkerFinish s1 order }
          = { e with state := LookupWorkerFinish s1 order } :=
        handOver_of_not_listening _ (by simp [hm])
      exact congrArg some h2

/-- Worker steps between the end of the set-up and the receive. -/
theorem runLookup_receiving (ComputeDistance : String → String → D)
    (AlreadyAsked : List AddressTriple → AddressTriple → Bool) :
    ∀ (schedule : List (Nat × Reply)) (e : Execution), e.main = MainPc.receiving →
      runLookup ComputeDistance AlreadyAsked
          (schedule.map (fun ev => Event.work ev.1 ev.2)) e
        = (runWorkers ComputeDistance AlreadyAsked schedule e.state).map
            (fun s => { e with state := s }) := by
  intro schedule
  induction schedule with
  | nil => intro e _; rfl
  | cons ev rest ih =>
    intro e hm
    obtain ⟨i, reply⟩ := ev
    simp only [List.map_cons, runLookup, execStep, runWorkers, Option.bind_eq_bind]
    rw [execWorker_receiving ComputeDistance AlreadyAsked e i reply hm]
    cases workerStep ComputeDistance AlreadyAsked e.state i reply with
    | none => rfl
    | some t =>
      simp only [Option.map_some', Option.some_bind]
      exact ih { e with state := t } hm

/-- The set-up loop run to its end with no worker step in between is
`dispatchLoop`. -/
theorem runLookup_setup (ComputeDistance : String → String → D)
    (AlreadyAsked : List AddressTriple → AddressTriple → Bool) :
    ∀ (rest pre : List AddressTriple) (e : Execution),
      e.state.kademlia.closest = pre ++ rest → e.main = MainPc.sending pre.length →
      runLookup ComputeDistance AlreadyAsked
          (List.replicate
            (2 * min (e.state.kademlia.alpha - (pre.length : Int)).toNat rest.length + 1)
            Event.main) e
        = some { e with
            state := dispatchLoop e.lookupType e.target rest pre.length e.state,
            main := MainPc.receiving } := by
  intro rest
  induction rest with
  | nil =>
    intro pre e hc hm
    have hstep : mainStep e = some { e with main := MainPc.receiving } := by
      unfold mainStep
      rw [hm]
      simp only
      rw [if_neg]
      rw [hc]
      simp
    simp only [List.length_nil, Nat.min_zero, Nat.mul_zero, Nat.zero_add, List.replicate_one,
      runLookup, execStep, Option.bind_eq_bind, hstep, Option.some_bind, dispatchLoop]
  | cons c rest ih =>
    intro pre e hc hm
    by_cases hi : (pre.length : Int) < e.state.kademlia.alpha
    · have hn : 2 * min (e.state.kademlia.alpha - (pre.length : Int)).toNat (c :: rest).length + 1
          = (2 * min (e.state.kademlia.alpha - ((pre.length + 1 : Nat) : Int)).toNat rest.length
              + 1) + 1 + 1 := by
        simp only [List.length_cons]
        omega
      have hget : e.state.kademlia.closest[pre.length]? = some c := by
        rw [hc, List.getElem?_append_right (le_refl _)]
        simp
      have hs1 : mainStep e = some { e with
          state := { e.state with
            lookupChannel := e.state.lookupChannel ++ [⟨e.lookupType, c, e.target⟩] },
          main := MainPc.marking pre.length } := by
        unfold mainStep
        rw [hm]
        simp only
        rw [if_pos ⟨hi, by rw [hc]; simp⟩, hget]
        rfl
      have hs2 : mainStep { e with
          state := { e.state with
            lookupChannel := e.state.lookupChannel ++ [⟨e.lookupType, c, e.target⟩] },
          main := MainPc.marking pre.length }
          = some { e with
              state := { e.state with
                lookupChannel := e.state.lookupChannel ++ [⟨e.lookupType, c, e.target⟩],
                kademlia := { e.state.kademlia with
                  askedClosest := e.state.kademlia.askedClosest ++ [c] } },
              main := MainPc.sending (pre.length + 1) } := by
        unfold mainStep
        simp only
        rw [hget]
        rfl
      have h3 := ih (pre ++ [c]) { e with
          state := { e.state with
            lookupChannel := e.state.lookupChannel ++ [⟨e.lookupType, c, e.target⟩],
            kademlia := { e.state.kademlia with
              askedClosest := e.state.kademlia.askedClosest ++ [c] } },
          main := MainPc.sending (pre.length + 1) } (by simp [hc]) (by simp)
      simp only [List.length_append, List.length_singleton] at h3
      rw [hn, List.replicate_succ, List.replicate_succ]
      simp only [runLookup, execStep, Option.bind_eq_bind, hs1, hs2, Option.some_bind]
      refine Eq.trans h3 ?_
      simp only [dispatchLoop, if_pos hi]
    · have hn : (e.state.kademlia.alpha - (pre.length : Int)).toNat = 0 := by omega
      have hstep : mainStep e = some { e with main := MainPc.receiving } := by
        unfold mainStep
        rw [hm]
        simp only
        rw [if_neg (fun h => hi h.1)]
      simp only [hn, Nat.zero_min, Nat.mul_zero, Nat.zero_add, List.replicate_one,
        runLookup, execStep, Option.bind_eq_bind, hstep, Option.some_bind, dispatchLoop,
        if_neg hi]

/-- The value `LookupContact` describes is the one the lookup returns in the
execution `setupFirst`. -/
theorem LookupContact_eq_run (ComputeDistance : String → String → D)
    (AlreadyAsked : List AddressTriple → AddressTriple → Bool)
    (FindKClosest : String → List (TripleAndDistance D))
    (kademlia : Kademlia) (target : String) (lookupType : Int)
    (schedule : List (Nat × Reply)) :
    LookupContact ComputeDistance AlreadyAsked FindKClosest kademlia target lookupType schedule
      = LookupContactRun ComputeDistance AlreadyAsked FindKClosest kademlia target lookupType
          (setupFirst kademlia (FindKClosest target) schedule) := by
  unfold LookupContact LookupContactRun
  by_cases hg : kademlia.alpha < 0 ∨ kademlia.k < 0
  · have hstart : LookupStart kademlia (FindKClosest target) target lookupType = none := by
      unfold LookupStart
      rw [if_pos hg]
    rw [if_pos hg, hstart]
    rfl
  · obtain ⟨e0, h0⟩ := LookupStart_returns kademlia (FindKClosest target) target lookupType
      (by omega) (by omega)
    obtain ⟨_, _, he0⟩ := LookupStart_eq kademlia (FindKClosest target) target lookupType e0 h0
    rw [if_neg hg, h0]
    simp only [Option.bind_eq_bind, Option.some_bind]
    have hsetup := runLookup_setup ComputeDistance AlreadyAsked
      ((FindKClosest target).map TripleAndDistance.Triple) [] e0 (by rw [he0]; rfl)
      (by rw [he0]; rfl)
    have hinit : dispatchLoop e0.lookupType e0.target
        ((FindKClosest target).map TripleAndDistance.Triple) 0 e0.state
        = LookupContactInit kademlia (FindKClosest target) target lookupType := by
      rw [he0]
      unfold LookupContactInit
      simp only [seed_foldl, List.nil_append]
    have hlen : 2 * min (e0.state.kademlia.alpha - (([] : List AddressTriple).length : Int)).toNat
          ((FindKClosest target).map TripleAndDistance.Triple).length + 1
        = 2 * min kademlia.alpha.toNat (FindKClosest target).length + 1 := by
      rw [he0]
      simp
    rw [hlen] at hsetup
    simp only [List.length_nil] at hsetup
    rw [hinit] at hsetup
    unfold setupFirst
    rw [List.append_assoc, runLookup_append, hsetup]
    simp only [Option.some_bind]
    rw [runLookup_append, runLookup_receiving ComputeDistance AlreadyAsked schedule _ rfl]
    cases hrun : runWorkers ComputeDistance AlreadyAsked schedule
        (LookupContactInit kademlia (FindKClosest target) target lookupType) with
    | none => rfl
    | some s =>
      simp only [Option.map_some', Option.some_bind, runLookup, execStep, mainStep,
        Option.bind_eq_bind]
      cases hb : s.resultChannel with
      | nil => rfl
      | cons a rest =>
        cases a with
        | contacts l => rfl
        | data d => rfl

end LinkLemmas

section ResultLemmas

variable {D : Type} [LinearOrder D]

/-- What `LookupContact` has returned at the end of an execution. -/
theorem LookupContactRun_eq (ComputeDistance : String → String → D)
    (AlreadyAsked : List AddressTriple → AddressTriple → Bool)
    (FindKClosest : String → List (TripleAndDistance D))
    (kademlia : Kademlia) (target : String) (lookupType : Int)
    (events : List Event) (e0 e : Execution)
    (hstart : LookupStart kademlia (FindKClosest target) target lookupType = some e0)
    (hrun : runLookup ComputeDistance AlreadyAsked events e0 = some e) :
    LookupContactRun ComputeDistance AlreadyAsked FindKClosest kademlia target lookupType events
      = match e.main with
        | MainPc.returned answer => answerListener [answer]
        | _ => none := by
  unfold LookupContactRun
  rw [hstart]
  simp only [Option.bind_eq_bind, Option.some_bind]
  rw [hrun]
  rfl

theorem firstResult_none (e : Execution) (h : firstResult e = none) :
    e.state.resultChannel = [] ∧ ∀ a, e.main ≠ MainPc.returned a := by
  unfold firstResult at h
  cases hm : e.main with
  | returned b => rw [hm] at h; simp at h
  | sending i =>
    rw [hm] at h
    exact ⟨List.head?_eq_none_iff.mp h, fun a ha => by simp at ha⟩
  | marking i =>
    rw [hm] at h
    exact ⟨List.head?_eq_none_iff.mp h, fun a ha => by simp at ha⟩
  | receiving =>
    rw [hm] at h
    exact ⟨List.head?_eq_none_iff.mp h, fun a ha => by simp at ha⟩
  | listening =>
    rw [hm] at h
    exact ⟨List.head?_eq_none_iff.mp h, fun a ha => by simp at ha⟩

/-- A first result that `answerListener` has returned is the value it got. -/
theorem firstResult_returned (e : Execution) (a b : Answer) (h : firstResult e = some a)
    (hm : e.main = MainPc.returned b) : b = a := by
  unfold firstResult at h
  rw [hm] at h
  exact Option.some.inj h

/-- The end of an iteration of a worker keeps the first result. -/
theorem finish_firstResult (e : Execution) (order : LookupOrder) (a : Answer)
    (h : firstResult e = some a) :
    firstResult (handOver { handOver e with
      state := LookupWorkerFinish (handOver e).state order }) = some a := by
  have h1 : firstResult (handOver e) = some a := by rw [handOver_firstResult]; exact h
  have h2 : ∃ more, (LookupWorkerFinish (handOver e).state order).resultChannel
      = (handOver e).state.resultChannel ++ more := by
    rcases LookupWorkerFinish_resultChannel (handOver e).state order with hf | hf
    · exact ⟨[], by rw [hf, List.append_nil]⟩
    · exact ⟨_, hf⟩
  obtain ⟨more, hmore⟩ := h2
  rw [handOver_firstResult]
  exact firstResult_state _ _ a more hmore h1

end ResultLemmas

section ReturnLemmas

variable {D : Type} [LinearOrder D]

/-- A hand-over leaves the calling goroutine where it is or makes it return. -/
theorem handOver_main (e : Execution) :
    (handOver e).main = e.main ∨ ∃ a, (handOver e).main = MainPc.returned a := by
  rcases handOver_cases e with ⟨a, rest, _, _, h⟩ | ⟨_, h⟩
  · right; exact ⟨a, by rw [h]⟩
  · left; rw [h]

/-- After a hand-over no value waits in the channel while the calling
goroutine is blocked in its receive. -/
theorem handOver_not_parked (e : Execution) (h : (handOver e).main = MainPc.listening) :
    (handOver e).state.resultChannel = [] := by
  rcases handOver_cases e with ⟨a, rest, _, _, he⟩ | ⟨hno, he⟩
  · rw [he] at h; simp at h
  · rw [he] at h ⊢
    rcases hno with hno | hno
    · exact absurd h hno
    · exact hno

/-- A calling goroutine that stands before its receive, with a value in the
channel, returns that value at its next step. -/
theorem main_returns_receiving (e : Execution) (a : Answer)
    (hfirst : firstResult e = some a) (hm : e.main = MainPc.receiving) :
    ∃ e2, mainStep e = some e2 ∧ e2.main = MainPc.returned a := by
  unfold firstResult at hfirst
  rw [hm] at hfirst
  simp only at hfirst
  cases hb : e.state.resultChannel with
  | nil => rw [hb] at hfirst; simp at hfirst
  | cons x rest =>
    rw [hb] at hfirst
    have hx : x = a := by simpa using hfirst
    unfold mainStep
    simp only [hm, hb]
    exact ⟨_, rfl, by rw [hx]⟩

/-- A calling goroutine in its dispatch loop, at the loop test, with a value
in the channel, returns that value when it runs on. -/
theorem main_returns_sending (ComputeDistance : String → String → D)
    (AlreadyAsked : List AddressTriple → AddressTriple → Bool)
    (e : Execution) (a : Answer) (j : Nat)
    (hfirst : firstResult e = some a) (hm : e.main = MainPc.sending j) :
    ∃ n e2, runLookup ComputeDistance AlreadyAsked (List.replicate n Event.main) e = some e2 ∧
      e2.main = MainPc.returned a := by
  have hhead : e.state.resultChannel.head? = some a := by
    unfold firstResult at hfirst
    rw [hm] at hfirst
    exact hfirst
  have hfinish : ∀ (n : Nat) (e1 : Execution),
      runLookup ComputeDistance AlreadyAsked (List.replicate n Event.main) e = some e1 →
      e1.main = MainPc.receiving → e1.state.resultChannel = e.state.resultChannel →
      ∃ n e2, runLookup ComputeDistance AlreadyAsked (List.replicate n Event.main) e
          = some e2 ∧ e2.main = MainPc.returned a := by
    intro n e1 hrun hm1 hb1
    have hf1 : firstResult e1 = some a := by
      unfold firstResult
      rw [hm1]
      simp only
      rw [hb1]
      exact hhead
    obtain ⟨e2, hstep, hm2⟩ := main_returns_receiving e1 a hf1 hm1
    refine ⟨n + 1, e2, ?_, hm2⟩
    rw [List.replicate_succ', runLookup_append, hrun]
    simp only [Option.some_bind, runLookup, execStep, Option.bind_eq_bind, hstep]
  by_cases hj : j ≤ e.state.kademlia.closest.length
  · have hlen : (e.state.kademlia.closest.take j).length = j := by
      rw [List.length_take]
      omega
    have hsetup := runLookup_setup ComputeDistance AlreadyAsked
      (e.state.kademlia.closest.drop j) (e.state.kademlia.closest.take j) e
      (List.take_append_drop j _).symm (by rw [hlen]; exact hm)
    exact hfinish _ _ hsetup rfl (dispatchLoop_channels _ _ _ _ _).2
  · have hstep : mainStep e = some { e with main := MainPc.receiving } := by
      unfold mainStep
      rw [hm]
      simp only
      rw [if_neg (fun h => hj (Nat.le_of_lt h.2))]
    refine hfinish 1 { e with main := MainPc.receiving } ?_ rfl rfl
    simp only [List.replicate_one, runLookup, execStep, Option.bind_eq_bind, hstep,
      Option.some_bind]

/-- Once a value is the first result, the calling goroutine returns it when
it runs on, wherever it stands, provided the read of `closest[i]` at line 171
is in range if that line comes next. -/
theorem main_returns (ComputeDistance : String → String → D)
    (AlreadyAsked : List AddressTriple → AddressTriple → Bool)
    (e : Execution) (a : Answer)
    (hfirst : firstResult e = some a)
    (hpark : e.main = MainPc.listening → e.state.resultChannel = [])
    (hmark : ∀ j, e.main = MainPc.marking j → j < e.state.kademlia.closest.length) :
    ∃ n e2, runLookup ComputeDistance AlreadyAsked (List.replicate n Event.main) e = some e2 ∧
      e2.main = MainPc.returned a := by
  cases hm : e.main with
  | returned b =>
    have hb := firstResult_returned e a b hfirst hm
    exact ⟨0, e, rfl, by rw [hm, hb]⟩
  | listening =>
    have hb := hpark hm
    unfold firstResult at hfirst
    rw [hm] at hfirst
    simp only at hfirst
    rw [hb] at hfirst
    simp at hfirst
  | receiving =>
    obtain ⟨e2, hstep, hm2⟩ := main_returns_receiving e a hfirst hm
    refine ⟨1, e2, ?_, hm2⟩
    simp only [List.replicate_one, runLookup, execStep, Option.bind_eq_bind, hstep,
      Option.some_bind]
  | sending j => exact main_returns_sending ComputeDistance AlreadyAsked e a j hfirst hm
  | marking j =>
    have hj := hmark j hm
    have hget : e.state.kademlia.closest[j]? = some (e.state.kademlia.closest.get ⟨j, hj⟩) :=
      List.getElem?_eq_getElem hj
    obtain ⟨e1, he1⟩ : ∃ e1 : Execution, e1 = { e with
        state := { e.state with
          kademlia := { e.state.kademlia with
            askedClosest := e.state.kademlia.askedClosest
              ++ [e.state.kademlia.closest.get ⟨j, hj⟩] } },
        main := MainPc.sending (j + 1) } := ⟨_, rfl⟩
    have hstep : mainStep e = some e1 := by
      unfold mainStep
      rw [hm]
      simp only
      rw [hget, he1]
      rfl
    have hf1 : firstResult e1 = some a := by
      unfold firstResult at hfirst ⊢
      rw [hm] at hfirst
      rw [he1]
      exact hfirst
    obtain ⟨n, e2, hrun, hm2⟩ := main_returns_sending ComputeDistance AlreadyAsked e1 a (j + 1)
      hf1 (by rw [he1])
    refine ⟨n + 1, e2, ?_, hm2⟩
    rw [List.replicate_succ]
    simp only [runLookup, execStep, Option.bind_eq_bind, hstep, Option.some_bind]
    exact hrun

end ReturnLemmas

/-! ## Claims on ties, on the state at the start and on the result channel -/

section LaterClaims

variable {D : Type} [LinearOrder D]

/-- C18, as stated, fails: `sortContacts` is not stable.  Two contacts at the
same distance from the target (the node `0001` under two addresses), given in
the order `[contact1, contact1Moved]`, come out in the order
`[contact1Moved, contact1]`, both surviving the cut. -/
theorem sortContacts_stable_counterexample :
    xorDistance contact1.Id "0000" = xorDistance contact1Moved.Id "0000" ∧
    ∃ kd, sortContacts xorDistance (sampleInstance [contact1, contact1Moved] 20 0) "0000"
        = some kd ∧
      kd.closest = [contact1Moved, contact1] :=
  ⟨by decide, _, rfl, by decide⟩

/-- C18, amended: for `k ≥ 0`, `sortContacts` places the contacts at equal
distance in the reverse of their order before the sort: for every distance
`d`, the contacts of the result at distance `d` are the first ones, as many as
survive the cut, of the reversed list of the contacts of the input at distance
`d`. -/
theorem sortContacts_ties_reversed (ComputeDistance : String → String → D)
    (kademlia : Kademlia) (target : String) (hk : 0 ≤ kademlia.k) :
    ∃ kd, sortContacts ComputeDistance kademlia target = some kd ∧
      ∀ d : D, List.IsPrefix
        (kd.closest.filter (fun c => decide (ComputeDistance c.Id target = d)))
        (kademlia.closest.filter (fun c => decide (ComputeDistance c.Id target = d))).reverse := by
  rw [sortContacts_eq, if_pos hk]
  refine ⟨_, rfl, ?_⟩
  intro d
  have h := filter_take_prefix (fun c => decide (ComputeDistance c.Id target = d))
    kademlia.k.toNat
    (List.insertionSort (distLE ComputeDistance target) kademlia.closest.reverse)
  rw [filter_insertionSort, List.filter_reverse] at h
  exact h

theorem sortContacts_ties_reversed_witness :
    (0 : Int) ≤ (sampleInstance [contact1, contact4, contact1Moved] 20 0).k ∧
    ∃ kd, sortContacts xorDistance (sampleInstance [contact1, contact4, contact1Moved] 20 0)
        "0000" = some kd ∧
      ∀ d : Nat, List.IsPrefix
        (kd.closest.filter (fun c => decide (xorDistance c.Id "0000" = d)))
        ((sampleInstance [contact1, contact4, contact1Moved] 20 0).closest.filter
          (fun c => decide (xorDistance c.Id "0000" = d))).reverse :=
  ⟨by decide, sortContacts_ties_reversed xorDistance _ "0000" (by decide)⟩

/-- C16 fails on the code: `LookupContact` empties `closest`, `askedClosest` and
`gotResultBack` but leaves `noCloserNodeCalls` as the earlier lookup left it.
On an instance left with the counter at 4 (threshold 3), seeded with `0001` and
`0010`, the first answer (`0001` naming the known `0010`) ends the lookup, while
on an instance with the counter at 0 the same answer does not. -/
theorem LookupContact_counter_not_reset :
    (LookupContactInit (sampleInstance [contact7] 20 4) (sampleTable "0000") "0000"
        CONTACT_LOOKUP).kademlia.noCloserNodeCalls = 4 ∧
    LookupContact xorDistance askedByMembership sampleTable (sampleInstance [contact7] 20 4)
        "0000" CONTACT_LOOKUP [(0, ⟨none, [contact2], false⟩)]
      = some (some [contact1, contact2], none) ∧
    LookupContact xorDistance askedByMembership sampleTable (sampleInstance [contact7] 20 0)
        "0000" CONTACT_LOOKUP [(0, ⟨none, [contact2], false⟩)]
      = none :=
  ⟨by decide, by decide, by decide⟩

/-- C13 fails on the code: when the routing table returns no contact, the
set-up leaves the order queue and the result channel empty, no worker step can
happen, and `answerListener` never gets a value: `LookupContact` does not
return, in any execution. -/
theorem LookupContact_empty_seed_blocks (ComputeDistance : String → String → D)
    (AlreadyAsked : List AddressTriple → AddressTriple → Bool)
    (kademlia : Kademlia) (target : String) (lookupType : Int) :
    (LookupContactInit kademlia ([] : List (TripleAndDistance D)) target lookupType).lookupChannel
      = [] ∧
    (LookupContactInit kademlia ([] : List (TripleAndDistance D)) target lookupType).resultChannel
      = [] ∧
    ∀ schedule : List (Nat × Reply),
      LookupContact ComputeDistance AlreadyAsked (fun _ => []) kademlia target lookupType
        schedule = none := by
  refine ⟨rfl, rfl, ?_⟩
  intro schedule
  unfold LookupContact
  split
  · rfl
  · cases schedule with
    | nil => rfl
    | cons ev rest =>
      obtain ⟨i, reply⟩ := ev
      have : runWorkers ComputeDistance AlreadyAsked ((i, reply) :: rest)
          (LookupContactInit kademlia ([] : List (TripleAndDistance D)) target lookupType)
          = none := by
        simp [runWorkers, workerStep, LookupContactInit, dispatchLoop]
      rw [this]

/-- C15 fails on the code: in `DATA_LOOKUP` mode, seeded with `0001` and `0010`
that both hold the data, the two orders each write the data to the result
channel: two values are sent. -/
theorem resultChannel_two_sends :
    ∃ s, runWorkers xorDistance askedByMembership
        [(0, ⟨some [1, 2, 3], [], false⟩), (0, ⟨some [1, 2, 3], [], false⟩)]
        (LookupContactInit (sampleInstance [] 20 0) (sampleTable "0000") "0000" DATA_LOOKUP)
        = some s ∧
      s.resultChannel = [Answer.data [1, 2, 3], Answer.data [1, 2, 3]] :=
  ⟨_, rfl, by decide⟩

/-- A failed order whose contact is marked.  For an order of either lookup
mode whose network call fails, for a contact that is in `askedClosest` (as the
contact of every queued order is once the dispatch loop of `LookupContact` has
ended, by `lookup_queued_asked`), with `AlreadyAsked` membership in the list:
the iteration returns, leaves
`closest` and `noCloserNodeCalls` as they were, appends the failed contact to
`gotResultBack`, and queues exactly the order for the first contact of `closest`
not yet asked, which is not the failed contact, marking it asked; if every
contact of `closest` was asked it queues nothing. -/
theorem timeout_step_of_asked (ComputeDistance : String → String → D)
    (AlreadyAsked : List AddressTriple → AddressTriple → Bool)
    (hAsked : ∀ l e, AlreadyAsked l e = true ↔ e ∈ l)
    (s : LookupState) (order : LookupOrder) (reply : Reply)
    (hmode : order.LookupType = CONTACT_LOOKUP ∨ order.LookupType = DATA_LOOKUP)
    (herr : reply.err = true)
    (hin : order.Contact ∈ s.kademlia.askedClosest) :
    ∃ s1, LookupWorkerStep ComputeDistance AlreadyAsked s order reply = some s1 ∧
      s1.kademlia.closest = s.kademlia.closest ∧
      s1.kademlia.noCloserNodeCalls = s.kademlia.noCloserNodeCalls ∧
      s1.kademlia.gotResultBack = s.kademlia.gotResultBack ++ [order.Contact] ∧
      ((∃ x ∈ s.kademlia.closest, x ∉ s.kademlia.askedClosest) →
        ∃ pre e post, s.kademlia.closest = pre ++ e :: post ∧
          (∀ x ∈ pre, x ∈ s.kademlia.askedClosest) ∧ e ∉ s.kademlia.askedClosest ∧
          e ≠ order.Contact ∧
          s1.lookupChannel = s.lookupChannel ++ [⟨order.LookupType, e, order.Target⟩] ∧
          s1.kademlia.askedClosest = s.kademlia.askedClosest ++ [e]) ∧
      ((∀ x ∈ s.kademlia.closest, x ∈ s.kademlia.askedClosest) →
        s1.lookupChannel = s.lookupChannel ∧
        s1.kademlia.askedClosest = s.kademlia.askedClosest) := by
  have hsw : LookupWorkerSwitch ComputeDistance AlreadyAsked s order reply
      = some (askNextContact AlreadyAsked s order.Target order.LookupType) := by
    unfold LookupWorkerSwitch
    have hne : ¬ reply.err = false := by rw [herr]; simp
    rcases hmode with hm | hm
    · rw [if_pos hm, if_neg hne]
    · have hc : ¬ order.LookupType = CONTACT_LOOKUP := by rw [hm]; decide
      rw [if_neg hc, if_pos hm, if_neg hne]
  have hstep : LookupWorkerStep ComputeDistance AlreadyAsked s order reply
      = some (LookupWorkerFinish
          (askNextContact AlreadyAsked s order.Target order.LookupType) order) := by
    unfold LookupWorkerStep
    rw [hsw]
    rfl
  refine ⟨_, hstep, ?_⟩
  rw [LookupWorkerFinish_kademlia, LookupWorkerFinish_lookupChannel]
  rcases askNextContact_cases AlreadyAsked hAsked s order.Target order.LookupType with
    ⟨pre, e, post, hsplit, hpre, he, hask⟩ | ⟨hall, hask⟩
  · rw [hask]
    refine ⟨rfl, rfl, rfl, ?_, ?_⟩
    · intro _
      refine ⟨pre, e, post, hsplit, hpre, he, ?_, rfl, rfl⟩
      intro heq
      rw [heq] at he
      exact he hin
    · intro hall
      have : e ∈ s.kademlia.closest := by rw [hsplit]; simp
      exact absurd (hall e this) he
  · rw [hask]
    refine ⟨rfl, rfl, rfl, ?_, fun _ => ⟨rfl, rfl⟩⟩
    rintro ⟨x, hx, hnx⟩
    exact absurd (hall x hx) hnx

/-- C20: index safety of the merge.  For `k ≥ 1`: `sortContacts` returns, so
its slice operations are in range; for a non-empty `closest` and any
`newContacts`, `refreshClosest` returns, so both reads of `closest[0]` are in
range, and leaves `closest` non-empty; and in a lookup over a non-empty seed
`closest` is non-empty in every state reached and a worker can complete any
queued order, whatever its network outcome. -/
theorem refreshClosest_index_safe (ComputeDistance : String → String → D)
    (AlreadyAsked : List AddressTriple → AddressTriple → Bool)
    (kademlia : Kademlia) (found : List (TripleAndDistance D)) (target : String)
    (lookupType : Int) (hk : 1 ≤ kademlia.k) :
    (∃ kd, sortContacts ComputeDistance kademlia target = some kd) ∧
    (kademlia.closest ≠ [] → ∀ (newContacts : List AddressTriple),
      ∃ kd, refreshClosest ComputeDistance kademlia newContacts target = some kd ∧
        kd.closest ≠ []) ∧
    (found ≠ [] → ∀ (schedule : List (Nat × Reply)) (s : LookupState),
      runWorkers ComputeDistance AlreadyAsked schedule
          (LookupContactInit kademlia found target lookupType) = some s →
        s.kademlia.closest ≠ [] ∧
        ∀ (i : Nat) (reply : Reply), i < s.lookupChannel.length →
          ∃ s1, workerStep ComputeDistance AlreadyAsked s i reply = some s1) := by
  have hcases : ∀ (kd : Kademlia) (newContacts : List AddressTriple) (t : String)
      (kd1 : Kademlia), refreshClosest ComputeDistance kd newContacts t = some kd1 →
      kd1.closest ≠ [] ∧ kd1.k = kd.k := by
    intro kd newContacts t kd1 h
    obtain ⟨first, tail, hft, hcase⟩ :=
      refreshClosest_cases ComputeDistance kd newContacts t kd1 h
    rcases hcase with ⟨_, hkd⟩ | ⟨_, f, rest, _, hkd⟩
    · rw [hkd]
      exact ⟨by rw [hft]; exact List.cons_ne_nil _ _, rfl⟩
    · rw [hkd]
      exact ⟨List.cons_ne_nil _ _, rfl⟩
  refine ⟨?_, ?_, ?_⟩
  · rw [sortContacts_eq, if_pos (by omega)]
    exact ⟨_, rfl⟩
  · intro hne newContacts
    obtain ⟨kd, hkd⟩ :=
      refreshClosest_returns ComputeDistance kademlia newContacts target hne hk
    exact ⟨kd, hkd, (hcases _ _ _ _ hkd).1⟩
  · intro hfound schedule s hrun
    have hinv : s.kademlia.closest ≠ [] ∧ s.kademlia.k = kademlia.k := by
      refine runWorkers_invariant ComputeDistance AlreadyAsked
        (fun kd => kd.closest ≠ [] ∧ kd.k = kademlia.k) ?_ ?_ ?_ ?_ schedule _ s ?_ hrun
      · intro kd newContacts t kd1 hkd h
        have := hcases kd newContacts t kd1 h
        exact ⟨this.1, by rw [this.2]; exact hkd.2⟩
      · intro kd hkd
        rcases getNextContactLoop_cases AlreadyAsked kd kd.closest with
          ⟨_, hres⟩ | ⟨pre, e, post, _, _, _, hres⟩
        · have hget : getNextContact AlreadyAsked kd = (kd, none) := hres
          rw [hget]; exact hkd
        · have hget : getNextContact AlreadyAsked kd
              = ({ kd with askedClosest := kd.askedClosest ++ [e] }, some e) := hres
          rw [hget]; exact hkd
      · intro kd n hkd; exact hkd
      · intro kd g hkd; exact hkd
      · rw [LookupContactInit_kademlia]
        refine ⟨?_, rfl⟩
        show found.map TripleAndDistance.Triple ≠ []
        intro h
        exact hfound (List.map_eq_nil_iff.mp h)
    refine ⟨hinv.1, ?_⟩
    intro i reply hi
    unfold workerStep
    rw [List.getElem?_eq_getElem hi]
    simp only [Option.bind_eq_bind, Option.some_bind]
    exact LookupWorkerStep_returns ComputeDistance AlreadyAsked _ _ reply hinv.1
      (by rw [hinv.2]; exact hk)

theorem refreshClosest_index_safe_witness :
    (1 : Int) ≤ (sampleInstance [contact4, contact7] 1 0).k ∧
    ((∃ kd, sortContacts xorDistance (sampleInstance [contact4, contact7] 1 0) "0000" = some kd) ∧
    ((sampleInstance [contact4, contact7] 1 0).closest ≠ [] →
      ∀ (newContacts : List AddressTriple),
        ∃ kd, refreshClosest xorDistance (sampleInstance [contact4, contact7] 1 0) newContacts
            "0000" = some kd ∧
          kd.closest ≠ []) ∧
    (sampleTable "0000" ≠ [] → ∀ (schedule : List (Nat × Reply)) (s : LookupState),
      runWorkers xorDistance askedByMembership schedule
          (LookupContactInit (sampleInstance [contact4, contact7] 1 0) (sampleTable "0000")
            "0000" CONTACT_LOOKUP) = some s →
        s.kademlia.closest ≠ [] ∧
        ∀ (i : Nat) (reply : Reply), i < s.lookupChannel.length →
          ∃ s1, workerStep xorDistance askedByMembership s i reply = some s1)) :=
  ⟨by decide,
    refreshClosest_index_safe xorDistance askedByMembership
      (sampleInstance [contact4, contact7] 1 0) (sampleTable "0000") "0000" CONTACT_LOOKUP
      (by decide)⟩

/-- C14: data found.  In a lookup started by `LookupData` (mode `DATA_LOOKUP`),
at any point of any execution where no value was written to the result channel
yet, a worker that completes an order whose network call returned data and no
error leaves `closest`, `askedClosest` and `noCloserNodeCalls` as they were and
makes the data the first value of the result channel, the one `answerListener`
returns: it stays so whatever happens afterwards; whenever `LookupContact`
returns it returns the data with a nil contact list and `LookupData` returns
true; and `LookupContact` does return: at once if the calling goroutine is
blocked in `answerListener`, at its receive if it stands before it, and after
the rest of its dispatch loop if it is still in it (the read of `closest[i]`
at line 171 being in range if that line comes next). -/
theorem data_found (ComputeDistance : String → String → D)
    (AlreadyAsked : List AddressTriple → AddressTriple → Bool)
    (FindKClosest : String → List (TripleAndDistance D))
    (HashKademliaID : String → String)
    (kademlia : Kademlia) (fileName : String) (test : Bool)
    (events : List Event) (e0 e : Execution) (i : Nat) (order : LookupOrder)
    (reply : Reply) (d : List UInt8)
    (hstart : LookupStart kademlia
      (FindKClosest (if test = true then fileName else HashKademliaID fileName))
      (if test = true then fileName else HashKademliaID fileName) DATA_LOOKUP = some e0)
    (hrun : runLookup ComputeDistance AlreadyAsked events e0 = some e)
    (hnone : firstResult e = none)
    (horder : e.state.lookupChannel[i]? = some order)
    (herr : reply.err = false) (hdata : reply.data = some d) :
    ∃ e1, execWorker ComputeDistance AlreadyAsked e i reply = some e1 ∧
      e1.state.kademlia.closest = e.state.kademlia.closest ∧
      e1.state.kademlia.askedClosest = e.state.kademlia.askedClosest ∧
      e1.state.kademlia.noCloserNodeCalls = e.state.kademlia.noCloserNodeCalls ∧
      firstResult e1 = some (Answer.data d) ∧
      (∀ (more : List Event) (e2 : Execution),
        runLookup ComputeDistance AlreadyAsked more e1 = some e2 →
        firstResult e2 = some (Answer.data d)) ∧
      (∀ (more : List Event) r,
        LookupContactRun ComputeDistance AlreadyAsked FindKClosest kademlia
          (if test = true then fileName else HashKademliaID fileName) DATA_LOOKUP
          (events ++ Event.work i reply :: more) = some r → r = (none, some d)) ∧
      (∀ (more : List Event) (b : Bool),
        LookupData ComputeDistance AlreadyAsked FindKClosest HashKademliaID kademlia fileName
          test (events ++ Event.work i reply :: more) = some b → b = true) ∧
      (e.main = MainPc.listening →
        e1.main = MainPc.returned (Answer.data d) ∧
        LookupContactRun ComputeDistance AlreadyAsked FindKClosest kademlia
          (if test = true then fileName else HashKademliaID fileName) DATA_LOOKUP
          (events ++ [Event.work i reply]) = some (none, some d) ∧
        LookupData ComputeDistance AlreadyAsked FindKClosest HashKademliaID kademlia fileName
          test (events ++ [Event.work i reply]) = some true) ∧
      (e.main = MainPc.receiving →
        LookupContactRun ComputeDistance AlreadyAsked FindKClosest kademlia
          (if test = true then fileName else HashKademliaID fileName) DATA_LOOKUP
          (events ++ [Event.work i reply, Event.main]) = some (none, some d) ∧
        LookupData ComputeDistance AlreadyAsked FindKClosest HashKademliaID kademlia fileName
          test (events ++ [Event.work i reply, Event.main]) = some true) ∧
      ((∀ j, e.main = MainPc.marking j → j < e.state.kademlia.closest.length) →
        ∃ n, LookupContactRun ComputeDistance AlreadyAsked FindKClosest kademlia
            (if test = true then fileName else HashKademliaID fileName) DATA_LOOKUP
            (events ++ Event.work i reply :: List.replicate n Event.main)
            = some (none, some d) ∧
          LookupData ComputeDistance AlreadyAsked FindKClosest HashKademliaID kademlia fileName
            test (events ++ Event.work i reply :: List.replicate n Event.main) = some true) := by
  obtain ⟨_, _, he0⟩ := LookupStart_eq kademlia _ _ DATA_LOOKUP e0 hstart
  obtain ⟨hbuf, hnot⟩ := firstResult_none e hnone
  have hty : order.LookupType = DATA_LOOKUP :=
    (runLookup_orders ComputeDistance AlreadyAsked DATA_LOOKUP events e0 e
      (by rw [he0]; exact ⟨rfl, fun o ho => by simp at ho⟩) hrun).2 order
      (List.getElem?_mem horder)
  have hnc : ¬ order.LookupType = CONTACT_LOOKUP := by rw [hty]; decide
  obtain ⟨s1, hs1⟩ : ∃ s1 : LookupState, s1 =
      { kademlia := e.state.kademlia, lookupChannel := e.state.lookupChannel.eraseIdx i,
        resultChannel := [Answer.data d] } := ⟨_, rfl⟩
  have hs1k : s1.kademlia = e.state.kademlia := by rw [hs1]
  have hs1r : s1.resultChannel = [Answer.data d] := by rw [hs1]
  have hsw : LookupWorkerSwitch ComputeDistance AlreadyAsked
      { e.state with lookupChannel := e.state.lookupChannel.eraseIdx i } order reply
      = some s1 := by
    unfold LookupWorkerSwitch
    rw [if_neg hnc, if_pos hty, if_pos herr, hdata, hs1]
    simp only [hbuf, List.nil_append]
  have hsent : firstResult { e with state := s1 } = some (Answer.data d) := by
    unfold firstResult
    simp only
    cases hm : e.main with
    | returned b => exact absurd hm (hnot b)
    | sending j => simp only [hs1r, List.head?_cons]
    | marking j => simp only [hs1r, List.head?_cons]
    | receiving => simp only [hs1r, List.head?_cons]
    | listening => simp only [hs1r, List.head?_cons]
  obtain ⟨e1, he1⟩ : ∃ e1 : Execution, e1 = handOver { handOver { e with state := s1 } with
      state := LookupWorkerFinish (handOver { e with state := s1 }).state order } := ⟨_, rfl⟩
  have hexec : execWorker ComputeDistance AlreadyAsked e i reply = some e1 := by
    unfold execWorker
    rw [horder]
    simp only [Option.bind_eq_bind, Option.some_bind]
    rw [hsw, he1]
    rfl
  have hfirst : firstResult e1 = some (Answer.data d) := by
    rw [he1]
    exact finish_firstResult _ order (Answer.data d) hsent
  have hkd : e1.state.kademlia = { e.state.kademlia with
      gotResultBack := e.state.kademlia.gotResultBack ++ [order.Contact] } := by
    rw [he1, handOver_kademlia]
    simp only
    rw [LookupWorkerFinish_kademlia, handOver_kademlia]
    simp only [hs1k]
  have hstable : ∀ (more : List Event) (e2 : Execution),
      runLookup ComputeDistance AlreadyAsked more e1 = some e2 →
      firstResult e2 = some (Answer.data d) :=
    fun more e2 h =>
      runLookup_firstResult ComputeDistance AlreadyAsked (Answer.data d) more e1 e2 hfirst h
  have hafter : ∀ (more : List Event),
      runLookup ComputeDistance AlreadyAsked (events ++ Event.work i reply :: more) e0
        = runLookup ComputeDistance AlreadyAsked more e1 := by
    intro more
    rw [runLookup_append, hrun]
    simp only [Option.some_bind, runLookup, execStep, Option.bind_eq_bind, hexec]
  have hreturn : ∀ (more : List Event) r,
      LookupContactRun ComputeDistance AlreadyAsked FindKClosest kademlia
        (if test = true then fileName else HashKademliaID fileName) DATA_LOOKUP
        (events ++ Event.work i reply :: more) = some r → r = (none, some d) := by
    intro more r hr
    cases hrun2 : runLookup ComputeDistance AlreadyAsked (events ++ Event.work i reply :: more)
        e0 with
    | none =>
      unfold LookupContactRun at hr
      rw [hstart] at hr
      simp only [Option.bind_eq_bind, Option.some_bind, hrun2, Option.none_bind] at hr
      exact absurd hr (by simp)
    | some e2 =>
      rw [LookupContactRun_eq ComputeDistance AlreadyAsked FindKClosest kademlia _ DATA_LOOKUP
        _ e0 e2 hstart hrun2] at hr
      rw [hafter more] at hrun2
      have hf2 := hstable more e2 hrun2
      cases hm : e2.main with
      | returned b =>
        rw [hm] at hr
        have hb := firstResult_returned e2 _ b hf2 hm
        rw [hb] at hr
        exact (Option.some.inj hr).symm
      | sending j => rw [hm] at hr; simp at hr
      | marking j => rw [hm] at hr; simp at hr
      | receiving => rw [hm] at hr; simp at hr
      | listening => rw [hm] at hr; simp at hr
  have hdataOf : ∀ (evs : List Event),
      LookupContactRun ComputeDistance AlreadyAsked FindKClosest kademlia
        (if test = true then fileName else HashKademliaID fileName) DATA_LOOKUP evs
        = some (none, some d) →
      LookupData ComputeDistance AlreadyAsked FindKClosest HashKademliaID kademlia fileName
        test evs = some true := by
    intro evs h
    unfold LookupData
    simp only [h]
    rfl
  have hreturned : ∀ (evs : List Event) (e2 : Execution),
      runLookup ComputeDistance AlreadyAsked evs e0 = some e2 →
      e2.main = MainPc.returned (Answer.data d) →
      LookupContactRun ComputeDistance AlreadyAsked FindKClosest kademlia
        (if test = true then fileName else HashKademliaID fileName) DATA_LOOKUP evs
        = some (none, some d) := by
    intro evs e2 h2 hm
    rw [LookupContactRun_eq ComputeDistance AlreadyAsked FindKClosest kademlia _ DATA_LOOKUP
      _ e0 e2 hstart h2, hm]
    rfl
  refine ⟨e1, hexec, by rw [hkd], by rw [hkd], by rw [hkd], hfirst, hstable, hreturn, ?_, ?_, ?_,
    ?_⟩
  · intro more b hb
    unfold LookupData at hb
    simp only at hb
    cases hr : LookupContactRun ComputeDistance AlreadyAsked FindKClosest kademlia
        (if test = true then fileName else HashKademliaID fileName) DATA_LOOKUP
        (events ++ Event.work i reply :: more) with
    | none => rw [hr] at hb; simp at hb
    | some r =>
      rw [hr] at hb
      have := hreturn more r hr
      rw [this] at hb
      exact (Option.some.inj hb).symm
  · intro hl
    have hmain : e1.main = MainPc.returned (Answer.data d) := by
      rcases handOver_cases { e with state := s1 } with ⟨a, rest, _, hb, hh⟩ | ⟨hno, _⟩
      · have hb1 : [Answer.data d] = a :: rest := by rw [← hs1r]; exact hb
        have ha : Answer.data d = a := (List.cons.inj hb1).1
        rw [he1, hh, handOver_of_not_listening _ (by simp), ← ha]
      · rcases hno with hno | hno
        · exact absurd hl hno
        · have : s1.resultChannel = [] := hno
          rw [hs1r] at this
          exact absurd this (by simp)
    have hfull : runLookup ComputeDistance AlreadyAsked (events ++ [Event.work i reply]) e0
        = some e1 := by
      rw [hafter []]
      rfl
    have hc := hreturned _ e1 hfull hmain
    exact ⟨hmain, hc, hdataOf _ hc⟩
  · intro hr
    have hh : handOver { e with state := s1 } = { e with state := s1 } :=
      handOver_of_not_listening _ (by simp [hr])
    have hfin : (LookupWorkerFinish s1 order).resultChannel = [Answer.data d] := by
      rw [LookupWorkerFinish_resultChannel_nonempty s1 order (by rw [hs1r]; simp), hs1r]
    have he1r : e1 = { e with state := LookupWorkerFinish s1 order } := by
      rw [he1, hh]
      exact handOver_of_not_listening _ (by simp [hr])
    obtain ⟨e2, hstep, hm2⟩ : ∃ e2, mainStep e1 = some e2 ∧
        e2.main = MainPc.returned (Answer.data d) := by
      rw [he1r]
      unfold mainStep
      simp only [hr, hfin]
      exact ⟨_, rfl, rfl⟩
    have hfull : runLookup ComputeDistance AlreadyAsked
        (events ++ [Event.work i reply, Event.main]) e0 = some e2 := by
      rw [hafter [Event.main]]
      simp only [runLookup, execStep, Option.bind_eq_bind, hstep, Option.some_bind]
    have hc := hreturned _ e2 hfull hm2
    exact ⟨hc, hdataOf _ hc⟩
  · intro hmark
    have hpark1 : e1.main = MainPc.listening → e1.state.resultChannel = [] := by
      rw [he1]
      exact handOver_not_parked _
    have hmain1 : e1.main = e.main ∨ ∃ a, e1.main = MainPc.returned a := by
      rw [he1]
      rcases handOver_main { handOver { e with state := s1 } with
          state := LookupWorkerFinish (handOver { e with state := s1 }).state order }
        with h | h
      · rcases handOver_main { e with state := s1 } with h2 | ⟨a, h2⟩
        · left
          rw [h]
          exact h2
        · right
          exact ⟨a, by rw [h]; exact h2⟩
      · right
        exact h
    have hmark1 : ∀ j, e1.main = MainPc.marking j →
        j < e1.state.kademlia.closest.length := by
      intro j hj
      rw [hkd]
      apply hmark
      rcases hmain1 with h | ⟨a, h⟩
      · rw [← h]
        exact hj
      · rw [h] at hj
        exact absurd hj (by simp)
    obtain ⟨n, e2, hrun2, hm2⟩ :=
      main_returns ComputeDistance AlreadyAsked e1 (Answer.data d) hfirst hpark1 hmark1
    have hfull : runLookup ComputeDistance AlreadyAsked
        (events ++ Event.work i reply :: List.replicate n Event.main) e0 = some e2 := by
      rw [hafter]
      exact hrun2
    have hc := hreturned _ e2 hfull hm2
    exact ⟨n, hc, hdataOf _ hc⟩

theorem data_found_witness :
    LookupStart (sampleInstance [] 20 0)
      (singleTable (if false = true then "report.txt" else sampleHash "report.txt"))
      (if false = true then "report.txt" else sampleHash "report.txt") DATA_LOOKUP
      = some startedLookup ∧
    runLookup xorDistance askedByMembership [Event.main, Event.main, Event.main, Event.main]
      startedLookup = some parkedLookup ∧
    firstResult parkedLookup = none ∧
    parkedLookup.state.lookupChannel[0]? = some ⟨DATA_LOOKUP, contact1, "0000"⟩ ∧
    (Reply.mk (some [7, 7]) [] false).err = false ∧
    (Reply.mk (some [7, 7]) [] false).data = some [7, 7] ∧
    (∃ e1, execWorker xorDistance askedByMembership parkedLookup 0 ⟨some [7, 7], [], false⟩
        = some e1 ∧
      e1.main = MainPc.returned (Answer.data [7, 7]) ∧
      e1.state.resultChannel = [Answer.contacts [contact1]]) ∧
    ∃ e1, execWorker xorDistance askedByMembership parkedLookup 0 ⟨some [7, 7], [], false⟩
        = some e1 ∧
      e1.state.kademlia.closest = parkedLookup.state.kademlia.closest ∧
      e1.state.kademlia.askedClosest = parkedLookup.state.kademlia.askedClosest ∧
      e1.state.kademlia.noCloserNodeCalls = parkedLookup.state.kademlia.noCloserNodeCalls ∧
      firstResult e1 = some (Answer.data [7, 7]) ∧
      (∀ (more : List Event) (e2 : Execution),
        runLookup xorDistance askedByMembership more e1 = some e2 →
        firstResult e2 = some (Answer.data [7, 7])) ∧
      (∀ (more : List Event) r,
        LookupContactRun xorDistance askedByMembership singleTable (sampleInstance [] 20 0)
          (if false = true then "report.txt" else sampleHash "report.txt") DATA_LOOKUP
          ([Event.main, Event.main, Event.main, Event.main]
            ++ Event.work 0 ⟨some [7, 7], [], false⟩ :: more) = some r →
        r = (none, some [7, 7])) ∧
      (∀ (more : List Event) (b : Bool),
        LookupData xorDistance askedByMembership singleTable sampleHash (sampleInstance [] 20 0)
          "report.txt" false
          ([Event.main, Event.main, Event.main, Event.main]
            ++ Event.work 0 ⟨some [7, 7], [], false⟩ :: more) = some b →
        b = true) ∧
      (parkedLookup.main = MainPc.listening →
        e1.main = MainPc.returned (Answer.data [7, 7]) ∧
        LookupContactRun xorDistance askedByMembership singleTable (sampleInstance [] 20 0)
          (if false = true then "report.txt" else sampleHash "report.txt") DATA_LOOKUP
          ([Event.main, Event.main, Event.main, Event.main]
            ++ [Event.work 0 ⟨some [7, 7], [], false⟩]) = some (none, some [7, 7]) ∧
        LookupData xorDistance askedByMembership singleTable sampleHash (sampleInstance [] 20 0)
          "report.txt" false
          ([Event.main, Event.main, Event.main, Event.main]
            ++ [Event.work 0 ⟨some [7, 7], [], false⟩]) = some true) ∧
      (parkedLookup.main = MainPc.receiving →
        LookupContactRun xorDistance askedByMembership singleTable (sampleInstance [] 20 0)
          (if false = true then "report.txt" else sampleHash "report.txt") DATA_LOOKUP
          ([Event.main, Event.main, Event.main, Event.main]
            ++ [Event.work 0 ⟨some [7, 7], [], false⟩, Event.main])
          = some (none, some [7, 7]) ∧
        LookupData xorDistance askedByMembership singleTable sampleHash (sampleInstance [] 20 0)
          "report.txt" false
          ([Event.main, Event.main, Event.main, Event.main]
            ++ [Event.work 0 ⟨some [7, 7], [], false⟩, Event.main]) = some true) ∧
      ((∀ j, parkedLookup.main = MainPc.marking j →
          j < parkedLookup.state.kademlia.closest.length) →
        ∃ n, LookupContactRun xorDistance askedByMembership singleTable (sampleInstance [] 20 0)
            (if false = true then "report.txt" else sampleHash "report.txt") DATA_LOOKUP
            ([Event.main, Event.main, Event.main, Event.main]
              ++ Event.work 0 ⟨some [7, 7], [], false⟩ :: List.replicate n Event.main)
            = some (none, some [7, 7]) ∧
          LookupData xorDistance askedByMembership singleTable sampleHash
            (sampleInstance [] 20 0) "report.txt" false
            ([Event.main, Event.main, Event.main, Event.main]
              ++ Event.work 0 ⟨some [7, 7], [], false⟩ :: List.replicate n Event.main)
            = some true) :=
  ⟨by decide, by decide, by decide, by decide, rfl, rfl, ⟨_, rfl, by decide, by decide⟩,
    data_found xorDistance askedByMembership singleTable sampleHash (sampleInstance [] 20 0)
      "report.txt" false [Event.main, Event.main, Event.main, Event.main] startedLookup
      parkedLookup 0 ⟨DATA_LOOKUP, contact1, "0000"⟩ ⟨some [7, 7], [], false⟩ [7, 7]
      (by decide) (by decide) (by decide) (by decide) rfl rfl⟩

/-- C19: a stale round is exactly a merge that adds no closer contact.  For
`k ≥ 1`, a non-empty `closest` ascending by distance with pairwise distinct
identifiers, and a distance that separates the distinct identifiers of the
contacts at hand, `refreshClosest` returns; if `newContacts` holds a contact strictly closer to
the target than the first element of `closest`, the counter is set to 0 and the
first element changes identifier; otherwise the counter is incremented by one
(by `++` on an `int`: the mathematical sum for every previous value but the
largest `int`) and the first element of `closest` is the same contact as
before. -/
theorem stale_round_iff_no_closer (ComputeDistance : String → String → D)
    (kademlia : Kademlia) (newContacts : List AddressTriple) (target : String)
    (first : AddressTriple) (tail : List AddressTriple)
    (hk : 1 ≤ kademlia.k)
    (hft : kademlia.closest = first :: tail)
    (hsorted : SortedByDistance ComputeDistance target kademlia.closest)
    (hd : DistinctIds kademlia.closest)
    (hinj : ∀ a ∈ kademlia.closest ++ newContacts, ∀ b ∈ kademlia.closest ++ newContacts,
      ComputeDistance a.Id target = ComputeDistance b.Id target → a.Id = b.Id) :
    ∃ kd, refreshClosest ComputeDistance kademlia newContacts target = some kd ∧
      ((∃ c ∈ newContacts, ComputeDistance c.Id target < ComputeDistance first.Id target) →
        kd.noCloserNodeCalls = 0 ∧ firstId kd.closest ≠ some first.Id) ∧
      ((¬ ∃ c ∈ newContacts, ComputeDistance c.Id target < ComputeDistance first.Id target) →
        kd.noCloserNodeCalls = wrapInt (kademlia.noCloserNodeCalls + 1) ∧
        (minInt ≤ kademlia.noCloserNodeCalls → kademlia.noCloserNodeCalls < maxInt →
          kd.noCloserNodeCalls = kademlia.noCloserNodeCalls + 1) ∧
        kd.closest.head? = some first) := by
  have hne : kademlia.closest ≠ [] := by rw [hft]; exact List.cons_ne_nil _ _
  have hpw := pairwise_of_sortedByDistance ComputeDistance target kademlia.closest hsorted
  have hmin : ∀ x ∈ kademlia.closest,
      ComputeDistance first.Id target ≤ ComputeDistance x.Id target := by
    intro x hx
    rw [hft] at hx hpw
    rcases List.mem_cons.mp hx with rfl | hx
    · exact le_refl _
    · exact (List.pairwise_cons.mp hpw).1 x hx
  obtain ⟨kd, hkd⟩ := refreshClosest_returns ComputeDistance kademlia newContacts target hne hk
  refine ⟨kd, hkd, ?_, ?_⟩
  · rintro ⟨c, hc, hlt⟩
    have hcid : c.Id ∉ kademlia.closest.map AddressTriple.Id := by
      intro hin
      obtain ⟨x, hx, hxid⟩ := List.mem_map.mp hin
      have := hmin x hx
      rw [hxid] at this
      exact absurd hlt (not_lt_of_ge this)
    have hex : ∃ c ∈ newContacts, c.Id ∉ kademlia.closest.map AddressTriple.Id :=
      ⟨c, hc, hcid⟩
    rw [refreshClosest_added ComputeDistance kademlia newContacts target first tail hft hex]
      at hkd
    cases hm : mergedSorted ComputeDistance kademlia newContacts target with
    | nil => rw [hm] at hkd; exact absurd hkd (by simp)
    | cons f rest =>
      rw [hm] at hkd
      have hkd1 := (Option.some.inj hkd).symm
      obtain ⟨_, hfmin⟩ :=
        mergedSorted_head_min ComputeDistance kademlia newContacts target f rest hm
      obtain ⟨c1, hc1, hc1id⟩ := List.mem_map.mp
        (refreshFold_ids newContacts (kademlia.closest, true) c hc)
      have hfc : ComputeDistance f.Id target ≤ ComputeDistance c.Id target := by
        rw [← hc1id]; exact hfmin c1 hc1
      have hfid : f.Id ≠ first.Id := by
        intro heq
        rw [heq] at hfc
        exact absurd hlt (not_lt_of_ge hfc)
      rw [hkd1]
      refine ⟨by simp [hfid], ?_⟩
      show some f.Id ≠ some first.Id
      intro h
      exact hfid (Option.some.inj h)
  · intro hno
    have hge : ∀ c ∈ newContacts,
        ComputeDistance first.Id target ≤ ComputeDistance c.Id target := by
      intro c hc
      by_contra hlt
      exact hno ⟨c, hc, lt_of_not_ge hlt⟩
    obtain ⟨first1, tail1, hft1, hcase⟩ :=
      refreshClosest_cases ComputeDistance kademlia newContacts target kd hkd
    have hfirst1 : first1 = first := by
      rw [hft] at hft1
      exact ((List.cons.inj hft1).1).symm
    rcases hcase with ⟨_, hkd1⟩ | ⟨_, f, rest, hm, hkd1⟩
    · rw [hkd1]
      exact ⟨rfl, fun hlo hhi => wrapInt_succ _ hlo hhi, by rw [hft]; rfl⟩
    · obtain ⟨hfin, hfmin⟩ :=
        mergedSorted_head_min ComputeDistance kademlia newContacts target f rest hm
      obtain ⟨added, hadd⟩ := refreshFold_prefix newContacts (kademlia.closest, true)
      have hfirstin : first ∈ (newContacts.foldl refreshStep (kademlia.closest, true)).1 := by
        rw [hadd]
        apply List.mem_append_left
        show first ∈ kademlia.closest
        rw [hft]; exact List.mem_cons_self _ _
      have hle1 : ComputeDistance f.Id target ≤ ComputeDistance first.Id target :=
        hfmin first hfirstin
      have hle2 : ComputeDistance first.Id target ≤ ComputeDistance f.Id target := by
        rcases refreshFold_mem newContacts (kademlia.closest, true) f hfin with h1 | h1
        · exact hmin f h1
        · exact hge f h1
      have hfmem : f ∈ kademlia.closest ++ newContacts :=
        List.mem_append.mpr (refreshFold_mem newContacts (kademlia.closest, true) f hfin)
      have hfirstmem : first ∈ kademlia.closest ++ newContacts := by
        apply List.mem_append_left
        rw [hft]; exact List.mem_cons_self _ _
      have hid : f.Id = first.Id := hinj f hfmem first hfirstmem (le_antisymm hle1 hle2)
      have hdm : DistinctIds (newContacts.foldl refreshStep (kademlia.closest, true)).1 :=
        refreshFold_distinct newContacts (kademlia.closest, true) hd
      have hff : f = first := by
        unfold DistinctIds at hdm
        exact List.inj_on_of_nodup_map hdm hfin hfirstin hid
      rw [hkd1, hfirst1]
      refine ⟨by simp [hid], fun hlo hhi => ?_, ?_⟩
      · simp only [hid, ne_eq, not_true_eq_false, if_false]
        exact wrapInt_succ _ hlo hhi
      · show some f = some first
        rw [hff]

theorem stale_round_iff_no_closer_witness :
    (1 : Int) ≤ (sampleInstance [contact2, contact4] 2 1).k ∧
    (sampleInstance [contact2, contact4] 2 1).closest = contact2 :: [contact4] ∧
    SortedByDistance xorDistance "0000" (sampleInstance [contact2, contact4] 2 1).closest ∧
    DistinctIds (sampleInstance [contact2, contact4] 2 1).closest ∧
    (∀ a ∈ (sampleInstance [contact2, contact4] 2 1).closest ++ [contact7, contact1],
      ∀ b ∈ (sampleInstance [contact2, contact4] 2 1).closest ++ [contact7, contact1],
      xorDistance a.Id "0000" = xorDistance b.Id "0000" → a.Id = b.Id) ∧
    ∃ kd, refreshClosest xorDistance (sampleInstance [contact2, contact4] 2 1)
        [contact7, contact1] "0000" = some kd ∧
      ((∃ c ∈ [contact7, contact1],
          xorDistance c.Id "0000" < xorDistance contact2.Id "0000") →
        kd.noCloserNodeCalls = 0 ∧ firstId kd.closest ≠ some contact2.Id) ∧
      ((¬ ∃ c ∈ [contact7, contact1],
          xorDistance c.Id "0000" < xorDistance contact2.Id "0000") →
        kd.noCloserNodeCalls
          = wrapInt ((sampleInstance [contact2, contact4] 2 1).noCloserNodeCalls + 1) ∧
        (minInt ≤ (sampleInstance [contact2, contact4] 2 1).noCloserNodeCalls →
          (sampleInstance [contact2, contact4] 2 1).noCloserNodeCalls < maxInt →
          kd.noCloserNodeCalls = (sampleInstance [contact2, contact4] 2 1).noCloserNodeCalls + 1) ∧
        kd.closest.head? = some contact2) :=
  ⟨by decide, rfl, sortedByDistance_of_pairwise xorDistance "0000" _ (by decide), by decide,
    by decide,
    stale_round_iff_no_closer xorDistance (sampleInstance [contact2, contact4] 2 1)
      [contact7, contact1] "0000" contact2 [contact4] (by decide) rfl
      (sortedByDistance_of_pairwise xorDistance "0000" _ (by decide)) (by decide) (by decide)⟩

/-- Exhaustion before convergence when the dispatch loop of `LookupContact` has
ended before a worker completes an order.  For a seed of `n ≥ 1` contacts with
distinct identifiers, `alpha ≥ 1`, `k ≥ 0`, any `exitThreshold`, either lookup
mode, and `AlreadyAsked` membership in the list: when every query succeeds with
no data and an empty contact list, the `n` orders can be completed one after
the other; after `j` completions `closest` is the seed and `j` contacts have
come back; while `j < n` no result is written and an order is waiting; at
`j = n` every seed contact has come back once, the queue is empty, and
`LookupContact` returns the seed list as the routing table gave it. -/
theorem exhaustion_after_setup (ComputeDistance : String → String → D)
    (AlreadyAsked : List AddressTriple → AddressTriple → Bool)
    (hAsked : ∀ l e, AlreadyAsked l e = true ↔ e ∈ l)
    (FindKClosest : String → List (TripleAndDistance D))
    (kademlia : Kademlia) (target : String) (lookupType : Int)
    (hmode : lookupType = CONTACT_LOOKUP ∨ lookupType = DATA_LOOKUP)
    (hne : FindKClosest target ≠ [])
    (hd : DistinctIds ((FindKClosest target).map TripleAndDistance.Triple))
    (halpha : 1 ≤ kademlia.alpha) (hk : 0 ≤ kademlia.k) :
    (∃ s, runWorkers ComputeDistance AlreadyAsked
        (List.replicate (FindKClosest target).length (0, ⟨none, [], false⟩))
        (LookupContactInit kademlia (FindKClosest target) target lookupType) = some s) ∧
    ∀ (schedule : List (Nat × Reply)) (s : LookupState),
      (∀ ev ∈ schedule, ev.2.err = false ∧ ev.2.data = none ∧ ev.2.contacts = []) →
      runWorkers ComputeDistance AlreadyAsked schedule
        (LookupContactInit kademlia (FindKClosest target) target lookupType) = some s →
      schedule.length ≤ (FindKClosest target).length ∧
      s.kademlia.closest = (FindKClosest target).map TripleAndDistance.Triple ∧
      s.kademlia.gotResultBack.length = schedule.length ∧
      (schedule.length < (FindKClosest target).length →
        s.resultChannel = [] ∧ s.lookupChannel ≠ [] ∧
        LookupContactRun ComputeDistance AlreadyAsked FindKClosest kademlia target lookupType
          (setupFirst kademlia (FindKClosest target) schedule) = none) ∧
      (schedule.length = (FindKClosest target).length →
        List.Perm s.kademlia.gotResultBack
          ((FindKClosest target).map TripleAndDistance.Triple) ∧
        s.lookupChannel = [] ∧
        LookupContactRun ComputeDistance AlreadyAsked FindKClosest kademlia target lookupType
          (setupFirst kademlia (FindKClosest target) schedule)
          = some (some ((FindKClosest target).map TripleAndDistance.Triple), none)) := by
  have hnodup : ((FindKClosest target).map TripleAndDistance.Triple).Nodup := by
    unfold DistinctIds at hd
    exact List.Nodup.of_map _ hd
  have hinit := exhaust_init kademlia (FindKClosest target) target lookupType hne
  have hn : ((FindKClosest target).map TripleAndDistance.Triple).length
      = (FindKClosest target).length := List.length_map _ _
  have hguard : ¬ (kademlia.alpha < 0 ∨ kademlia.k < 0) := by omega
  constructor
  · exact exhaust_run_exists ComputeDistance AlreadyAsked hAsked _ hnodup kademlia.alpha
      halpha lookupType target hmode ⟨none, [], false⟩ (Or.inr ⟨rfl, rfl⟩)
      (FindKClosest target).length 0 _ hinit (by rw [hn]; omega)
  · intro schedule s hall hrun
    have hbarren : ∀ ev ∈ schedule, Barren ev.2 :=
      fun ev hev => Or.inr ⟨(hall ev hev).2.1, (hall ev hev).2.2⟩
    have hinv := exhaust_run ComputeDistance AlreadyAsked hAsked _ hnodup kademlia.alpha halpha
      lookupType target hmode schedule hbarren 0 _ s hinit hrun
    rw [Nat.zero_add] at hinv
    have hout := exhaust_outcome _ kademlia.alpha halpha lookupType target _ s hinv
    rw [hn] at hout
    have hlink := LookupContact_eq_run ComputeDistance AlreadyAsked FindKClosest kademlia target
      lookupType schedule
    have hold : LookupContact ComputeDistance AlreadyAsked FindKClosest kademlia target
        lookupType schedule = answerListener s.resultChannel := by
      unfold LookupContact
      rw [if_neg hguard, hrun]
    obtain ⟨hc, _, _, hgot, _, _, hle⟩ := hinv
    refine ⟨by rw [← hn]; exact hle, hc, hgot, ?_, ?_⟩
    · intro hlt
      obtain ⟨h1, h2, h3⟩ := hout.1 hlt
      refine ⟨h1, h2, ?_⟩
      rw [← hlink, hold]
      exact h3
    · intro heq
      obtain ⟨h1, h2, _, h4⟩ := hout.2 heq
      refine ⟨h1, h2, ?_⟩
      rw [← hlink, hold]
      exact h4

/-- C12, as stated, fails: with the seed `[0111, 0001]`, in that order from the
routing table, and both queries timing out, `LookupContact` returns
`[0111, 0001]`, which is not ascending by distance to `0000`. -/
theorem all_timeout_sorted_counterexample :
    LookupContact xorDistance askedByMembership unsortedTable (sampleInstance [] 20 0) "0000"
        CONTACT_LOOKUP [(0, ⟨none, [], true⟩), (0, ⟨none, [], true⟩)]
      = some (some [contact7, contact1], none) ∧
    ¬ SortedByDistance xorDistance "0000" [contact7, contact1] := by
  refine ⟨by decide, ?_⟩
  intro h
  have h0 := h 0 (by decide)
  revert h0
  decide

/-- C12, amended: all-timeout lookup.  When every query fails, in every
execution of the lookup `closest` stays the seed list in the order the routing
table gave it (no sort happens), `noCloserNodeCalls` stays as it was, and every
value written to the result channel, hence the value `LookupContact` returns if
it returns, is that list: it is ascending exactly when the routing table's
answer was.  For a non-empty seed with distinct identifiers, `alpha ≥ 1`,
`k ≥ 0`, either lookup mode and `AlreadyAsked` membership in the list, in the
executions `setupFirst`, where the dispatch loop of `LookupContact` ends before
a worker completes an order: the `n` orders can be completed one after the
other; while fewer than `n` have completed no result is written, an order is
waiting and `LookupContact` has not returned; once `n` have completed every
seed contact has come back once and `LookupContact` returns the seed list. -/
theorem all_timeout_returns_seed (ComputeDistance : String → String → D)
    (AlreadyAsked : List AddressTriple → AddressTriple → Bool)
    (hAsked : ∀ l e, AlreadyAsked l e = true ↔ e ∈ l)
    (FindKClosest : String → List (TripleAndDistance D))
    (kademlia : Kademlia) (target : String) (lookupType : Int)
    (hmode : lookupType = CONTACT_LOOKUP ∨ lookupType = DATA_LOOKUP)
    (hne : FindKClosest target ≠ [])
    (hd : DistinctIds ((FindKClosest target).map TripleAndDistance.Triple))
    (halpha : 1 ≤ kademlia.alpha) (hk : 0 ≤ kademlia.k) :
    (∀ (events : List Event) (e0 e : Execution),
      (∀ i reply, Event.work i reply ∈ events → reply.err = true) →
      LookupStart kademlia (FindKClosest target) target lookupType = some e0 →
      runLookup ComputeDistance AlreadyAsked events e0 = some e →
      e.state.kademlia.closest = (FindKClosest target).map TripleAndDistance.Triple ∧
      e.state.kademlia.noCloserNodeCalls = kademlia.noCloserNodeCalls ∧
      (∀ a ∈ e.state.resultChannel,
        a = Answer.contacts ((FindKClosest target).map TripleAndDistance.Triple)) ∧
      (∀ a, e.main = MainPc.returned a →
        a = Answer.contacts ((FindKClosest target).map TripleAndDistance.Triple))) ∧
    (∀ (events : List Event) r,
      (∀ i reply, Event.work i reply ∈ events → reply.err = true) →
      LookupContactRun ComputeDistance AlreadyAsked FindKClosest kademlia target lookupType
        events = some r →
      r = (some ((FindKClosest target).map TripleAndDistance.Triple), none)) ∧
    (∃ s, runWorkers ComputeDistance AlreadyAsked
        (List.replicate (FindKClosest target).length (0, ⟨none, [], true⟩))
        (LookupContactInit kademlia (FindKClosest target) target lookupType) = some s) ∧
    ∀ (schedule : List (Nat × Reply)) (s : LookupState),
      (∀ ev ∈ schedule, ev.2.err = true) →
      runWorkers ComputeDistance AlreadyAsked schedule
        (LookupContactInit kademlia (FindKClosest target) target lookupType) = some s →
      schedule.length ≤ (FindKClosest target).length ∧
      (schedule.length < (FindKClosest target).length →
        s.resultChannel = [] ∧ s.lookupChannel ≠ [] ∧
        LookupContactRun ComputeDistance AlreadyAsked FindKClosest kademlia target lookupType
          (setupFirst kademlia (FindKClosest target) schedule) = none) ∧
      (schedule.length = (FindKClosest target).length →
        List.Perm s.kademlia.gotResultBack
          ((FindKClosest target).map TripleAndDistance.Triple) ∧
        s.lookupChannel = [] ∧
        LookupContactRun ComputeDistance AlreadyAsked FindKClosest kademlia target lookupType
          (setupFirst kademlia (FindKClosest target) schedule)
          = some (some ((FindKClosest target).map TripleAndDistance.Triple), none)) := by
  have hnodup : ((FindKClosest target).map TripleAndDistance.Triple).Nodup := by
    unfold DistinctIds at hd
    exact List.Nodup.of_map _ hd
  have hinit := exhaust_init kademlia (FindKClosest target) target lookupType hne
  have hn : ((FindKClosest target).map TripleAndDistance.Triple).length
      = (FindKClosest target).length := List.length_map _ _
  have hguard : ¬ (kademlia.alpha < 0 ∨ kademlia.k < 0) := by omega
  have hall : ∀ (events : List Event) (e0 e : Execution),
      (∀ i reply, Event.work i reply ∈ events → reply.err = true) →
      LookupStart kademlia (FindKClosest target) target lookupType = some e0 →
      runLookup ComputeDistance AlreadyAsked events e0 = some e →
      e.state.kademlia.closest = (FindKClosest target).map TripleAndDistance.Triple ∧
      e.state.kademlia.noCloserNodeCalls = kademlia.noCloserNodeCalls ∧
      (∀ a ∈ e.state.resultChannel,
        a = Answer.contacts ((FindKClosest target).map TripleAndDistance.Triple)) ∧
      (∀ a, e.main = MainPc.returned a →
        a = Answer.contacts ((FindKClosest target).map TripleAndDistance.Triple)) := by
    intro events e0 e hok hstart hrun
    obtain ⟨_, _, he0⟩ := LookupStart_eq kademlia _ _ lookupType e0 hstart
    refine runLookup_timeout ComputeDistance AlreadyAsked _ _ events e0 e ?_ ?_ hrun
    · intro ev hev i reply heq
      rw [heq] at hev
      exact hok i reply hev
    · rw [he0]
      exact ⟨rfl, rfl, fun a ha => by simp at ha, fun a ha => by simp at ha⟩
  refine ⟨hall, ?_, ?_, ?_⟩
  · intro events r hok hr
    unfold LookupContactRun at hr
    cases hstart : LookupStart kademlia (FindKClosest target) target lookupType with
    | none => rw [hstart] at hr; simp at hr
    | some e0 =>
      rw [hstart] at hr
      simp only [Option.bind_eq_bind, Option.some_bind] at hr
      cases hrun : runLookup ComputeDistance AlreadyAsked events e0 with
      | none => rw [hrun] at hr; simp at hr
      | some e =>
        rw [hrun] at hr
        simp only [Option.some_bind] at hr
        obtain ⟨_, _, _, hret⟩ := hall events e0 e hok hstart hrun
        cases hm : e.main with
        | returned b =>
          rw [hm] at hr
          rw [hret b hm] at hr
          exact (Option.some.inj hr).symm
        | sending j => rw [hm] at hr; simp at hr
        | marking j => rw [hm] at hr; simp at hr
        | receiving => rw [hm] at hr; simp at hr
        | listening => rw [hm] at hr; simp at hr
  · exact exhaust_run_exists ComputeDistance AlreadyAsked hAsked _ hnodup kademlia.alpha
      halpha lookupType target hmode ⟨none, [], true⟩ (Or.inl rfl)
      (FindKClosest target).length 0 _ hinit (by rw [hn]; omega)
  · intro schedule s herr hrun
    have hbarren : ∀ ev ∈ schedule, Barren ev.2 := fun ev hev => Or.inl (herr ev hev)
    have hinv := exhaust_run ComputeDistance AlreadyAsked hAsked _ hnodup kademlia.alpha halpha
      lookupType target hmode schedule hbarren 0 _ s hinit hrun
    rw [Nat.zero_add] at hinv
    have hout := exhaust_outcome _ kademlia.alpha halpha lookupType target _ s hinv
    rw [hn] at hout
    have hlink := LookupContact_eq_run ComputeDistance AlreadyAsked FindKClosest kademlia target
      lookupType schedule
    have hold : LookupContact ComputeDistance AlreadyAsked FindKClosest kademlia target
        lookupType schedule = answerListener s.resultChannel := by
      unfold LookupContact
      rw [if_neg hguard, hrun]
    obtain ⟨_, _, _, _, _, _, hle⟩ := hinv
    refine ⟨by rw [← hn]; exact hle, ?_, ?_⟩
    · intro hlt
      obtain ⟨h1, h2, h3⟩ := hout.1 hlt
      refine ⟨h1, h2, ?_⟩
      rw [← hlink, hold]
      exact h3
    · intro heq
      obtain ⟨h1, h2, _, h4⟩ := hout.2 heq
      refine ⟨h1, h2, ?_⟩
      rw [← hlink, hold]
      exact h4

theorem all_timeout_returns_seed_witness :
    (∀ l e, askedByMembership l e = true ↔ e ∈ l) ∧
    (DATA_LOOKUP = CONTACT_LOOKUP ∨ DATA_LOOKUP = DATA_LOOKUP) ∧
    unsortedTable "0000" ≠ [] ∧
    DistinctIds ((unsortedTable "0000").map TripleAndDistance.Triple) ∧
    1 ≤ (sampleInstance [] 20 0).alpha ∧
    0 ≤ (sampleInstance [] 20 0).k ∧
    ((∀ (events : List Event) (e0 e : Execution),
      (∀ i reply, Event.work i reply ∈ events → reply.err = true) →
      LookupStart (sampleInstance [] 20 0) (unsortedTable "0000") "0000" DATA_LOOKUP = some e0 →
      runLookup xorDistance askedByMembership events e0 = some e →
      e.state.kademlia.closest = (unsortedTable "0000").map TripleAndDistance.Triple ∧
      e.state.kademlia.noCloserNodeCalls = (sampleInstance [] 20 0).noCloserNodeCalls ∧
      (∀ a ∈ e.state.resultChannel,
        a = Answer.contacts ((unsortedTable "0000").map TripleAndDistance.Triple)) ∧
      (∀ a, e.main = MainPc.returned a →
        a = Answer.contacts ((unsortedTable "0000").map TripleAndDistance.Triple))) ∧
    (∀ (events : List Event) r,
      (∀ i reply, Event.work i reply ∈ events → reply.err = true) →
      LookupContactRun xorDistance askedByMembership unsortedTable (sampleInstance [] 20 0)
        "0000" DATA_LOOKUP events = some r →
      r = (some ((unsortedTable "0000").map TripleAndDistance.Triple), none)) ∧
    (∃ s, runWorkers xorDistance askedByMembership
        (List.replicate (unsortedTable "0000").length (0, ⟨none, [], true⟩))
        (LookupContactInit (sampleInstance [] 20 0) (unsortedTable "0000") "0000" DATA_LOOKUP)
        = some s) ∧
    ∀ (schedule : List (Nat × Reply)) (s : LookupState),
      (∀ ev ∈ schedule, ev.2.err = true) →
      runWorkers xorDistance askedByMembership schedule
        (LookupContactInit (sampleInstance [] 20 0) (unsortedTable "0000") "0000" DATA_LOOKUP)
        = some s →
      schedule.length ≤ (unsortedTable "0000").length ∧
      (schedule.length < (unsortedTable "0000").length →
        s.resultChannel = [] ∧ s.lookupChannel ≠ [] ∧
        LookupContactRun xorDistance askedByMembership unsortedTable (sampleInstance [] 20 0)
          "0000" DATA_LOOKUP
          (setupFirst (sampleInstance [] 20 0) (unsortedTable "0000") schedule) = none) ∧
      (schedule.length = (unsortedTable "0000").length →
        List.Perm s.kademlia.gotResultBack
          ((unsortedTable "0000").map TripleAndDistance.Triple) ∧
        s.lookupChannel = [] ∧
        LookupContactRun xorDistance askedByMembership unsortedTable (sampleInstance [] 20 0)
          "0000" DATA_LOOKUP
          (setupFirst (sampleInstance [] 20 0) (unsortedTable "0000") schedule)
          = some (some ((unsortedTable "0000").map TripleAndDistance.Triple), none))) :=
  ⟨fun l e => by simp [askedByMembership], Or.inr rfl, by simp [unsortedTable], by decide,
    by decide, by decide,
    all_timeout_returns_seed xorDistance askedByMembership
      (fun l e => by simp [askedByMembership]) unsortedTable (sampleInstance [] 20 0) "0000"
      DATA_LOOKUP (Or.inr rfl) (by simp [unsortedTable]) (by decide) (by decide) (by decide)⟩

/-- C7 fails on the code: `LookupContact` starts its workers before its
dispatch loop, and the loop marks a contact as asked (line 171) after it has
sent the order for it (line 169).  Seed `[0001, 0010]` with distinct
identifiers: the order for `0001` is sent; a worker completes it with a timeout
before the mark; `getNextContact` finds `0001` not asked, marks it and
dispatches it again; the loop then marks `0001` a second time. -/
theorem askedClosest_twice_in_setup :
    DistinctIds ((sampleTable "0000").map TripleAndDistance.Triple) ∧
    ∃ e0 e, LookupStart (sampleInstance [] 20 0) (sampleTable "0000") "0000" CONTACT_LOOKUP
        = some e0 ∧
      runLookup xorDistance askedByMembership
        [Event.main, Event.work 0 ⟨none, [], true⟩, Event.main] e0 = some e ∧
      e.state.kademlia.askedClosest = [contact1, contact1] ∧
      e.state.lookupChannel = [⟨CONTACT_LOOKUP, contact1, "0000"⟩] ∧
      ¬ e.state.kademlia.askedClosest.Nodup :=
  ⟨by decide, _, _, rfl, rfl, by decide, by decide, by decide⟩

/-- C17 fails on the code, by the defect of C7: an order is in the queue (line
169) before its contact is in `askedClosest` (line 171).  Seed `[0001, 0010]`:
the order for `0001` is sent and not yet marked; its network call fails; the
worker dispatches the first contact of `closest` that is not asked, which is
`0001` itself: the failed contact is queued again, and `0010` is not
dispatched. -/
theorem timeout_redispatches_failed_contact :
    ∃ e0 e e1, LookupStart (sampleInstance [] 20 0) (sampleTable "0000") "0000" CONTACT_LOOKUP
        = some e0 ∧
      runLookup xorDistance askedByMembership [Event.main] e0 = some e ∧
      e.state.lookupChannel = [⟨CONTACT_LOOKUP, contact1, "0000"⟩] ∧
      e.state.kademlia.askedClosest = [] ∧
      execWorker xorDistance askedByMembership e 0 ⟨none, [], true⟩ = some e1 ∧
      e1.state.lookupChannel = [⟨CONTACT_LOOKUP, contact1, "0000"⟩] ∧
      e1.state.kademlia.askedClosest = [contact1] ∧
      e1.state.kademlia.gotResultBack = [contact1] ∧
      e1.state.kademlia.closest = [contact1, contact2] :=
  ⟨_, _, _, rfl, rfl, by decide, by decide, rfl, by decide, by decide, by decide, by decide⟩

/-- C11 fails on the code, by the defect of C7: an order is in the queue (line
169) before its contact is in `askedClosest` (line 171).  Seed `[0001, 0010]`
with distinct identifiers, `alpha = 3`, `k = 20`, every query answered with an
empty list.  First execution: the order for `0001` is sent; a worker completes
it before the mark and dispatches `0001` again; the dispatch loop ends; the
second order for `0001` and the order for `0010` complete, and `LookupContact`
returns the seed after three queries, two of them to `0001`.  Second
execution: two workers' iterations fall before the mark; the second dispatches
`0010`, finds two contacts marked and two come back, and writes the result
while `0001` was queried twice and `0010`, whose order is still in the queue,
not at all.  With `exitThreshold = 5` the first execution is the same. -/
theorem exhaustion_queries_twice :
    DistinctIds ((sampleTable "0000").map TripleAndDistance.Triple) ∧
    (∃ e0 e, LookupStart (sampleInstance [] 20 0) (sampleTable "0000") "0000" CONTACT_LOOKUP
        = some e0 ∧
      runLookup xorDistance askedByMembership
        [Event.main, Event.work 0 ⟨none, [], false⟩, Event.main, Event.main, Event.main,
          Event.main, Event.main, Event.work 0 ⟨none, [], false⟩,
          Event.work 0 ⟨none, [], false⟩] e0 = some e ∧
      e.state.kademlia.gotResultBack = [contact1, contact1, contact2] ∧
      e.state.kademlia.askedClosest = [contact1, contact1, contact2] ∧
      e.main = MainPc.returned (Answer.contacts [contact1, contact2])) ∧
    (∃ e0 e, LookupStart (sampleInstance [] 20 0) (sampleTable "0000") "0000" CONTACT_LOOKUP
        = some e0 ∧
      runLookup xorDistance askedByMembership
        [Event.main, Event.work 0 ⟨none, [], false⟩, Event.work 0 ⟨none, [], false⟩] e0
        = some e ∧
      e.state.kademlia.gotResultBack = [contact1, contact1] ∧
      e.state.resultChannel = [Answer.contacts [contact1, contact2]] ∧
      e.state.lookupChannel = [⟨CONTACT_LOOKUP, contact2, "0000"⟩]) ∧
    LookupContactRun xorDistance askedByMembership sampleTable patientInstance "0000"
        CONTACT_LOOKUP
        [Event.main, Event.work 0 ⟨none, [], false⟩, Event.main, Event.main, Event.main,
          Event.main, Event.main, Event.work 0 ⟨none, [], false⟩,
          Event.work 0 ⟨none, [], false⟩]
      = some (some [contact1, contact2], none) :=
  ⟨by decide, ⟨_, _, rfl, rfl, by decide, by decide, by decide⟩,
    ⟨_, _, rfl, rfl, by decide, by decide, by decide⟩, by decide⟩

end LaterClaims

end Kdmlib
